import Mathlib

/-!
# TMSF: run-length decoder and tile-map loader

A shallow embedding of `INC/rle.hpp` (`RLE_Decompress`) and `INC/tmsf.hpp`
(`GetAndIterate`, `TilemapObject::TilemapObject`) together with the properties
of the specification that concern them.

Conventions of the embedding.

* A `uint8_t` is a `Fin 256`; a `uint16_t` field is a natural number below
  `65536`; `size_t` and `int` are 32 bits wide, as on the SH-2 target of the
  library the headers include, and arithmetic that can leave that range is
  reduced explicitly.
* A `const uint8_t*` into a buffer is the list of the bytes of that buffer from
  the pointer on; dereferencing at an index that is not below the length of the
  list is an out-of-bounds read, which the embedding reports as an outcome of
  its own instead of inventing a value.
* The decoder writes `output[out++]` with `out` starting at `0`, so the bytes
  written so far are a list whose length is `out`.
-/

namespace TMSF

/-! ## Definitions: `rle.hpp` -/

/-- The C type `uint8_t`. -/
abbrev Byte := Fin 256

/-- How a call of `RLE_Decompress` ends. `returned inPos output`: the `while`
loop exits with `in = inPos` after writing `output` (all bytes written, also
those at indices at or beyond `decompressedSize`). `inputOverrun inPos output`:
the code dereferences `input[inPos]` where `inPos` is not below the length of
the input, having written `output` so far. -/
inductive RleOutcome where
  | returned (inPos : Nat) (output : List Byte)
  | inputOverrun (inPos : Nat) (output : List Byte)
  deriving DecidableEq, Repr

/-- The bytes written to `output`, whichever way the call ended. -/
def RleOutcome.output : RleOutcome → List Byte
  | .returned _ o => o
  | .inputOverrun _ o => o

/-- The value of `in` at the end of the call. -/
def RleOutcome.inPos : RleOutcome → Nat
  | .returned i _ => i
  | .inputOverrun i _ => i

/-- Whether the `while` loop left through its condition. -/
def RleOutcome.isReturned : RleOutcome → Bool
  | .returned _ _ => true
  | .inputOverrun _ _ => false

/-- The inner loop `for (uint8_t j = 0; j < run; j++) output[out++] = value;`
started at `j`; the increment is that of a `uint8_t`. -/
def emitRun (run value : Byte) (j : Nat) (output : List Byte) : List Byte :=
  if j < run.val then emitRun run value ((j + 1) % 256) (output ++ [value]) else output
termination_by run.val - j
decreasing_by
  have := run.isLt
  omega

/-- The loop `while (out < decompressedSize)` of `RLE_Decompress`, from the
state `in = inPos`, `out = output.length`. -/
def RLE_Decompress.loop (input : List Byte) (decompressedSize : Nat)
    (inPos : Nat) (output : List Byte) : RleOutcome :=
  if output.length < decompressedSize then
    if h0 : inPos < input.length then
      if h1 : inPos + 1 < input.length then
        let run := input[inPos]
        let value := input[inPos + 1]
        RLE_Decompress.loop input decompressedSize (inPos + 2) (emitRun run value 0 output)
      else .inputOverrun (inPos + 1) output
    else .inputOverrun inPos output
  else .returned inPos output
termination_by input.length - inPos

/-- The function `RLE_Decompress(input, output, decompressedSize)`. -/
def RLE_Decompress (input : List Byte) (decompressedSize : Nat) : RleOutcome :=
  RLE_Decompress.loop input decompressedSize 0 []

/-! ## Definitions: the vocabulary of the specification for the codec -/

/-- The flattened pair stream: `run, value, run, value, ...`. -/
def flatten : List (Byte × Byte) → List Byte
  | [] => []
  | (r, v) :: ps => r :: v :: flatten ps

/-- The full expansion of a pair list: `value` repeated `run` times for each
pair, in order. -/
def expand : List (Byte × Byte) → List Byte
  | [] => []
  | (r, v) :: ps => List.replicate r.val v ++ expand ps

/-- The sum of the runs of a pair list. -/
def runSum : List (Byte × Byte) → Nat
  | [] => 0
  | (r, _) :: ps => r.val + runSum ps

/-- The pairs of a byte stream: `(input[0], input[1])`, `(input[2], input[3])`,
and so on; a dangling last byte belongs to no pair. -/
def pairsOf : List Byte → List (Byte × Byte)
  | r :: v :: rest => (r, v) :: pairsOf rest
  | _ => []

/-- Modelled from the spec: the reference run-length encoder is not part of the
sources. This one scans left to right, counts a run of equal bytes and closes
the pair when the byte changes or the count reaches 255. `encodeRun cur count bs`
has `count` copies of `cur` pending. -/
def encodeRun (cur : Byte) (count : Nat) : List Byte → List (Byte × Byte)
  | [] => [(Fin.ofNat count, cur)]
  | b :: bs =>
    if b = cur ∧ count < 255 then encodeRun cur (count + 1) bs
    else (Fin.ofNat count, cur) :: encodeRun b 1 bs

/-- Modelled from the spec: the canonical run-length encoder (maximal runs of
equal bytes, split into pairs with `1 ≤ run ≤ 255`). -/
def canonicalEncode : List Byte → List (Byte × Byte)
  | [] => []
  | b :: bs => encodeRun b 1 bs

/-! ## Definitions: `tmsf.hpp` -/

/-- The byte order of the host, which the format inherits: the headers are
overlaid on the buffer by `reinterpret_cast`. -/
inductive ByteOrder where
  | big
  | little
  deriving DecidableEq, Repr

/-- The `uint16_t` stored in two consecutive bytes. -/
def u16 (bo : ByteOrder) (b0 b1 : Byte) : Nat :=
  match bo with
  | .big => b0.val * 256 + b1.val
  | .little => b0.val + b1.val * 256

/-- Reading a `uint16_t` field at offset `pos` of the file buffer; `none` when
one of its two bytes lies outside the buffer. -/
def rd16 (bo : ByteOrder) (fileBuffer : List Byte) (pos : Nat) : Option Nat :=
  if h : pos + 1 < fileBuffer.length then some (u16 bo fileBuffer[pos] fileBuffer[pos + 1])
  else none

/-- The value of `sizeof(TmsfHeader)`: three `uint16_t` and `char[4]`. -/
def sizeof_TmsfHeader : Nat := 10

/-- The value of `sizeof(SpriteSheetHeader)`: six `uint16_t`. -/
def sizeof_SpriteSheetHeader : Nat := 12

/-- The struct `SpriteSheetHeader`, as read through a pointer into the buffer. -/
structure SpriteSheetHeader where
  CellWidth : Nat
  CellHeight : Nat
  Cols : Nat
  Rows : Nat
  Frames : Nat
  TotalBytes : Nat
  deriving DecidableEq, Repr

/-- The fields seen through `reinterpret_cast<SpriteSheetHeader*>(ptr)`. The
code reads `TotalBytes`, the last field, first (in `LoadSize`), so either all
twelve bytes lie in the buffer or the first read is already out of bounds. -/
def SpriteSheetHeader.read (bo : ByteOrder) (fileBuffer : List Byte) (ptr : Nat) :
    Option SpriteSheetHeader :=
  match rd16 bo fileBuffer (ptr + 10), rd16 bo fileBuffer ptr, rd16 bo fileBuffer (ptr + 2),
      rd16 bo fileBuffer (ptr + 4), rd16 bo fileBuffer (ptr + 6), rd16 bo fileBuffer (ptr + 8) with
  | some t, some w, some h, some c, some r, some f =>
    some { CellWidth := w, CellHeight := h, Cols := c, Rows := r, Frames := f, TotalBytes := t }
  | _, _, _, _, _, _ => none

/-- The method `uint16_t SpriteCount() const`: `Rows * Cols` converted to
`uint16_t`. -/
def SpriteSheetHeader.SpriteCount (sh : SpriteSheetHeader) : Nat :=
  (sh.Rows * sh.Cols) % 65536

/-- The method `size_t LoadSize() const`. -/
def SpriteSheetHeader.LoadSize (sh : SpriteSheetHeader) : Nat :=
  (sizeof_SpriteSheetHeader + sh.TotalBytes) % 2 ^ 32

/-- The method `size_t CurrentCell(uint16_t index) const`. -/
def SpriteSheetHeader.CurrentCell (sh : SpriteSheetHeader) (index : Nat) : Nat :=
  ((index % 65536) * (sh.CellWidth * sh.CellHeight)) % 2 ^ 32

/-- The value of `pixelCount` in the constructor: the product of three promoted
`uint16_t` values converted to `size_t`. -/
def SpriteSheetHeader.pixelCount (sh : SpriteSheetHeader) : Nat :=
  (sh.CellWidth * sh.CellHeight * sh.SpriteCount) % 2 ^ 32

/-- The offset `j * spritesheet->CellWidth * spritesheet->CellHeight` of frame
`j`, computed in `size_t`. -/
def SpriteSheetHeader.frameOffset (sh : SpriteSheetHeader) (j : Nat) : Nat :=
  (j * sh.CellWidth * sh.CellHeight) % 2 ^ 32

/-- The instance `GetAndIterate<TmsfHeader>(iterator, count)`: the type has no
`LoadSize`, the pointer moves by `sizeof(T) * count`. The result is the pair of
the returned pointer and the new value of `iterator`. -/
def GetAndIterate_TmsfHeader (iterator count : Nat) : Nat × Nat :=
  (iterator, iterator + sizeof_TmsfHeader * count)

/-- The instance `GetAndIterate<SpriteSheetHeader>(iterator, count)`: the type
has `LoadSize`, which is read through the pointer; `none` when that read is out
of bounds. -/
def GetAndIterate_SpriteSheetHeader (bo : ByteOrder) (fileBuffer : List Byte)
    (iterator count : Nat) : Option (Nat × Nat) :=
  match SpriteSheetHeader.read bo fileBuffer iterator with
  | some sh => some (iterator, iterator + sh.LoadSize * count)
  | none => none

/-- The struct `SpriteSet`, one element of the array `sprite`. -/
structure SpriteSet where
  SpriteIndex : Int
  CellWidth : Nat
  CellHeight : Nat
  Cols : Nat
  Rows : Nat
  MaxFrames : Nat
  Frame : Nat
  deriving DecidableEq, Repr

/-- The struct `AssetPack`. -/
structure AssetPack where
  NumTilesets : Nat
  PaletteMode : Nat
  deriving DecidableEq, Repr

/-- The arguments of one call of `SRL::VDP1::TryLoadTexture`. The last argument
of the call is the pointer `frameData`; `pixels` are the `width * height` bytes
it points to, as far as they lie inside the memory `inputData` points into. -/
structure Submission where
  width : Nat
  height : Nat
  colorMode : Nat
  paletteIndex : Byte
  pixels : List Byte
  deriving DecidableEq, Repr

/-- The texture allocator `SRL::VDP1::TryLoadTexture`, which is not part of the
sources: any state type and any answer function. A negative answer is a
refusal. -/
structure TextureSink (σ : Type) where
  TryLoadTexture : σ → Submission → Int × σ

/-- One call of the allocator made by the loader: tileset `i`, frame `j`, the
offset of `frameData` from `inputData`, the arguments and the answer. -/
structure SinkCall where
  i : Nat
  j : Nat
  frameOffset : Nat
  submission : Submission
  spriteIndex : Int
  deriving DecidableEq, Repr

/-- The places where the constructor leaves defined behaviour. -/
inductive Fault where
  /-- A header field is read at an offset outside the file buffer. -/
  | headerRead (pos : Nat)
  /-- For tileset `i` the decoder reads the file buffer at offset `pos`, which is outside it. -/
  | rleInputOverrun (i pos : Nat)
  /-- For tileset `i` the decoder writes `written` bytes into `new uint8_t[pixelCount]`. -/
  | rleOutputOverrun (i written pixelCount : Nat)
  deriving DecidableEq, Repr

/-- The state of the constructor while it runs: the cursor `iterator` (an offset
into `fileBuffer`), the array `sprite`, the state of the allocator, and a
record of what has happened: the calls of the allocator, the pairs `(i, j)`
passed to `SRL::Debug::Assert`, and the pointers `spritesheet` in the order
they were obtained. -/
structure LoadState (σ : Type) where
  fault : Option Fault
  iterator : Nat
  sprite : List SpriteSet
  sink : σ
  calls : List SinkCall
  warnings : List (Nat × Nat)
  sheets : List Nat

/-- The assignments of lines 273 to 279. The answer is a non-negative `int32_t`
there, so its conversion to the `uint32_t` field `Frame` keeps the value. -/
def populate (sh : SpriteSheetHeader) (spriteIndex : Int) : SpriteSet :=
  { SpriteIndex := spriteIndex
    CellWidth := sh.CellWidth
    CellHeight := sh.CellHeight
    Cols := sh.Cols
    Rows := sh.Rows
    MaxFrames := sh.Frames
    Frame := spriteIndex.toNat }

/-- The arguments of the call of `TryLoadTexture` for frame `j`: the pointer
argument is `frameData = inputData + frameOffset j`. -/
def frameSubmission (paletteMode : Nat) (paletteIndex : Byte) (sh : SpriteSheetHeader)
    (inputData : List Byte) (j : Nat) : Submission :=
  { width := sh.CellWidth
    height := sh.CellHeight
    colorMode := paletteMode
    paletteIndex := paletteIndex
    pixels := (inputData.drop (sh.frameOffset j)).take (sh.CellWidth * sh.CellHeight) }

/-- The body of the loop `for (size_t j = 0; j < spritesheet->SpriteCount(); j++)`
for tileset `i` with header `sh` and pixel memory `inputData`. The function
`SRL::Debug::Assert` belongs to the library, not to these sources; it is taken
to show its message (a warning) and return, and the pair `(i, j)` it is given
is recorded in `warnings`. -/
def frameStep {σ : Type} (sink : TextureSink σ) (paletteMode : Nat) (paletteIndex : Byte)
    (i : Nat) (sh : SpriteSheetHeader) (inputData : List Byte)
    (st : LoadState σ) (j : Nat) : LoadState σ :=
  let sub := frameSubmission paletteMode paletteIndex sh inputData j
  let r := sink.TryLoadTexture st.sink sub
  let call : SinkCall :=
    { i := i, j := j, frameOffset := sh.frameOffset j, submission := sub, spriteIndex := r.1 }
  if r.1 < 0 then
    { st with sink := r.2, calls := st.calls ++ [call], warnings := st.warnings ++ [(i, j)] }
  else if j = 0 then
    { st with sink := r.2, calls := st.calls ++ [call], sprite := st.sprite.set i (populate sh r.1) }
  else
    { st with sink := r.2, calls := st.calls ++ [call] }

/-- The loop over the frames of one tileset. -/
def frameLoop {σ : Type} (sink : TextureSink σ) (paletteMode : Nat) (paletteIndex : Byte)
    (i : Nat) (sh : SpriteSheetHeader) (inputData : List Byte) (st : LoadState σ) :
    LoadState σ :=
  List.foldl (frameStep sink paletteMode paletteIndex i sh inputData) st
    (List.range sh.SpriteCount)

/-- Lines 239 to 253 for the sheet at `ptr` with header `sh`: the memory
`inputData` points to when the frame loop starts. Without compression it is the
file buffer from `srcData` on; with compression it is the decoder's output. -/
def prepareInput (fileBuffer : List Byte) (compression : Nat) (i ptr : Nat)
    (sh : SpriteSheetHeader) : Except Fault (List Byte) :=
  let srcData := ptr + sizeof_SpriteSheetHeader
  if compression = 1 then
    match RLE_Decompress (fileBuffer.drop srcData) sh.pixelCount with
    | .inputOverrun k _ => .error (.rleInputOverrun i (srcData + k))
    | .returned _ out =>
      if sh.pixelCount < out.length then .error (.rleOutputOverrun i out.length sh.pixelCount)
      else .ok out
  else .ok (fileBuffer.drop srcData)

/-- The body of the loop `for (size_t i = 0; i < header->NumTilesets; i++)`.
Once the run has left defined behaviour nothing more is recorded. -/
def sheetStep {σ : Type} (bo : ByteOrder) (sink : TextureSink σ) (fileBuffer : List Byte)
    (paletteMode : Nat) (paletteIndex : Byte) (st : LoadState σ) (i : Nat) : LoadState σ :=
  match st.fault with
  | some _ => st
  | none =>
    match GetAndIterate_SpriteSheetHeader bo fileBuffer st.iterator 1,
        SpriteSheetHeader.read bo fileBuffer st.iterator with
    | some (spritesheet, iterator), some sh =>
      let st1 := { st with iterator := iterator, sheets := st.sheets ++ [spritesheet] }
      match rd16 bo fileBuffer 4 with
      | none => { st1 with fault := some (.headerRead 4) }
      | some compression =>
        match prepareInput fileBuffer compression i spritesheet sh with
        | .error f => { st1 with fault := some f }
        | .ok inputData => frameLoop sink paletteMode paletteIndex i sh inputData st1
    | _, _ => { st with fault := some (.headerRead (st.iterator + 10)) }

/-- The state when the loop over the tilesets starts: the cursor behind the
container header, the freshly allocated array `sprite` of `numTilesets`
elements, nothing recorded yet. -/
def loopStart {σ : Type} (s0 : σ) (garbage : Nat → SpriteSet) (numTilesets : Nat) :
    LoadState σ :=
  { fault := none
    iterator := (GetAndIterate_TmsfHeader 0 1).2
    sprite := (List.range numTilesets).map garbage
    sink := s0
    calls := []
    warnings := []
    sheets := [] }

/-- What the constructor leaves behind: the member `asset` (absent when the
container header could not be read), the final loop state with the member
`sprite`, and the member `ownsBuffer`. -/
structure Loaded (σ : Type) where
  asset : Option AssetPack
  state : LoadState σ
  ownsBuffer : Bool

/-- The constructor `TilemapObject(tilemapFile, paletteIndex, keepBuffer)`, from
the point where the file has been read into `fileBuffer`. `garbage k` is what
the memory returned by `new SpriteSet[NumTilesets]` holds at index `k`: the
struct has no initialiser. -/
def TilemapObject {σ : Type} (bo : ByteOrder) (sink : TextureSink σ) (s0 : σ)
    (garbage : Nat → SpriteSet) (fileBuffer : List Byte) (paletteIndex : Byte)
    (keepBuffer : Bool) : Loaded σ :=
  let header := (GetAndIterate_TmsfHeader 0 1).1
  let start : LoadState σ := loopStart s0 garbage 0
  match rd16 bo fileBuffer header, rd16 bo fileBuffer (header + 2) with
  | some numTilesets, some paletteMode =>
    { asset := some { NumTilesets := numTilesets, PaletteMode := paletteMode }
      state := List.foldl (sheetStep bo sink fileBuffer paletteMode paletteIndex)
        (loopStart s0 garbage numTilesets) (List.range numTilesets)
      ownsBuffer := keepBuffer }
  | none, _ => { asset := none, state := { start with fault := some (.headerRead header) },
                 ownsBuffer := keepBuffer }
  | some _, none =>
    { asset := none, state := { start with fault := some (.headerRead (header + 2)) },
      ownsBuffer := keepBuffer }

/-! ## Definitions: the vocabulary of the specification for the loader -/

/-- The call for frame 0 of tileset `k` in a record of calls, if there is one. -/
def frame0 (calls : List SinkCall) (k : Nat) : Option SinkCall :=
  calls.find? (fun c => decide (c.i = k ∧ c.j = 0))

/-- The header of the `k`-th sheet the cursor visited. -/
def sheetHeader (bo : ByteOrder) (fileBuffer : List Byte) (sheets : List Nat) (k : Nat) :
    Option SpriteSheetHeader :=
  match sheets[k]? with
  | some ptr => SpriteSheetHeader.read bo fileBuffer ptr
  | none => none

/-- The state after `GetAndIterate<SpriteSheetHeader>` has returned the header
`sh` found at the cursor. -/
def afterHeader {σ : Type} (st : LoadState σ) (sh : SpriteSheetHeader) : LoadState σ :=
  { st with iterator := st.iterator + (12 + sh.TotalBytes), sheets := st.sheets ++ [st.iterator] }

/-- The descriptor of tileset `k` as a function of the record of the run: the
one written from the header of sheet `k` and the answer for its frame 0 when
that answer is not negative, and what the array held before otherwise. -/
def expectedSprite (bo : ByteOrder) (fileBuffer : List Byte) (garbage : Nat → SpriteSet)
    (sheets : List Nat) (calls : List SinkCall) (k : Nat) : SpriteSet :=
  match frame0 calls k, sheetHeader bo fileBuffer sheets k with
  | some c, some sh => if c.spriteIndex < 0 then garbage k else populate sh c.spriteIndex
  | _, _ => garbage k

/-- The stored byte length found in the header at `ptr` (0 when the field is
not inside the buffer). -/
def storedByteLength (bo : ByteOrder) (fileBuffer : List Byte) (ptr : Nat) : Nat :=
  (rd16 bo fileBuffer (ptr + 10)).getD 0

/-- The offsets of consecutive sheet headers when the first one is at `start`
and the stored byte lengths are `lens`: each sheet occupies
`sizeof(SpriteSheetHeader) + storedByteLength` bytes. -/
def sheetOffsets (start : Nat) : List Nat → List Nat
  | [] => []
  | len :: lens => start :: sheetOffsets (start + (12 + len)) lens

/-- The offset just behind the sheets with stored byte lengths `lens`, the
first of which is at `start`. -/
def sheetsEnd (start : Nat) : List Nat → Nat
  | [] => start
  | len :: lens => sheetsEnd (start + (12 + len)) lens

/-- The order of the calls: an earlier tileset, or the same tileset and an
earlier frame. -/
def callBefore (a b : SinkCall) : Prop :=
  a.i < b.i ∨ (a.i = b.i ∧ a.j < b.j)

/-- What is handed to the allocator in a call, without the answer: tileset,
frame, offset of the frame and the arguments. -/
def SinkCall.request (c : SinkCall) : Nat × Nat × Nat × Submission :=
  (c.i, c.j, c.frameOffset, c.submission)

/-- Two states of runs with different allocators that agree on everything the
allocator's answers do not enter. -/
def sameWalk {σ τ : Type} (s : LoadState σ) (t : LoadState τ) : Prop :=
  s.fault = t.fault ∧ s.iterator = t.iterator ∧ s.sheets = t.sheets ∧
    s.calls.map SinkCall.request = t.calls.map SinkCall.request

/-- The number of elements of the array `sprite`: the field `NumTilesets` when
the container header can be read, nothing otherwise. -/
def numTilesetsOf (bo : ByteOrder) (fileBuffer : List Byte) : Nat :=
  match rd16 bo fileBuffer 0, rd16 bo fileBuffer 2 with
  | some n, some _ => n
  | _, _ => 0

/-- Where a recorded call comes from: the sheet `c.i` the cursor visited at
`ptr`, its header `sh`, the compression flag of the container header and the
pixel memory `inputData` prepared for that sheet; the frame index is below the
sprite count and the arguments are those of frame `c.j`. -/
def callFrom (bo : ByteOrder) (fileBuffer : List Byte) (paletteMode : Nat)
    (paletteIndex : Byte) (sheets : List Nat) (c : SinkCall) : Prop :=
  ∃ ptr sh compression inputData,
    sheets[c.i]? = some ptr ∧ SpriteSheetHeader.read bo fileBuffer ptr = some sh ∧
    rd16 bo fileBuffer 4 = some compression ∧
    prepareInput fileBuffer compression c.i ptr sh = .ok inputData ∧
    c.j < sh.SpriteCount ∧ c.frameOffset = sh.frameOffset c.j ∧
    c.submission = frameSubmission paletteMode paletteIndex sh inputData c.j

/-- A fault on record is a read outside the file buffer or a write outside the
decompression buffer. -/
def faultIsReal (fileBuffer : List Byte) (fault : Option Fault) : Prop :=
  (∀ p, fault = some (.headerRead p) → fileBuffer.length ≤ p + 1) ∧
  (∀ i p, fault = some (.rleInputOverrun i p) → fileBuffer.length ≤ p) ∧
  (∀ i w n, fault = some (.rleOutputOverrun i w n) → n < w)

/-! ### Concrete buffers and allocators -/

/-- A big-endian buffer without compression: two tilesets, palette mode 3. The
first sheet has two frames of 2 x 1 pixels (stored length 4), the second one
frame of 1 x 1 pixel (stored length 1, 7 frames per sprite). -/
def demoBuffer : List Byte :=
  [0, 2, 0, 3, 0, 0, 0, 0, 0, 1,
   0, 2, 0, 1, 0, 2, 0, 1, 0, 1, 0, 4, 0x10, 0x11, 0x12, 0x13,
   0, 1, 0, 1, 0, 1, 0, 1, 0, 7, 0, 1, 0x30]

/-- A synthetic two-sheet buffer, big-endian, without compression: the first
sheet has one frame of 10 x 10 pixels and stored byte length 100, the second
one frame of 1 x 1 pixel. -/
def twoSheets : List Byte :=
  [0, 2, 0, 0, 0, 0, 0, 0, 0, 0,
   0, 10, 0, 10, 0, 1, 0, 1, 0, 1, 0, 100] ++ List.replicate 100 0 ++
  [0, 1, 0, 1, 0, 1, 0, 1, 0, 1, 0, 1, 7]

/-- A buffer whose container header announces no tileset, followed by bytes
that are never looked at. -/
def emptyPack : List Byte := [0, 0, 0, 3, 0, 1, 1, 2, 3, 4, 9, 9, 9]

/-- A buffer of four bytes: the count 0 and the palette mode 3, and nothing
where the rest of the container header would be. -/
def tinyPack : List Byte := [0, 0, 0, 3]

/-- The buffer `demoBuffer` without its last byte: the stored byte length of the
second sheet reaches one byte past the end. -/
def cutBuffer : List Byte := demoBuffer.take 38

/-- A big-endian buffer without compression with one sheet of 256 x 256 cells of
1 x 1 pixel and stored byte length 0. -/
def wideSheetBuffer : List Byte :=
  [0, 1, 0, 0, 0, 0, 0, 0, 0, 0,
   0, 1, 0, 1, 1, 0, 1, 0, 0, 1, 0, 0]

/-- A big-endian buffer without compression with one sheet of two frames of
2 x 1 pixels, so four pixels, whose stored byte length is 6. -/
def mismatchBuffer : List Byte :=
  [0, 1, 0, 3, 0, 0, 0, 0, 0, 1,
   0, 2, 0, 1, 0, 2, 0, 1, 0, 1, 0, 6, 1, 2, 3, 4, 5, 6]

/-- A big-endian buffer without compression with two sheets: the first has
3 rows and 0 columns (no sprite) and stored byte length 3, the second one frame
of 1 x 1 pixel. -/
def emptySheetBuffer : List Byte :=
  [0, 2, 0, 3, 0, 0, 0, 0, 0, 1,
   0, 2, 0, 2, 0, 0, 0, 3, 0, 1, 0, 3, 1, 2, 3,
   0, 1, 0, 1, 0, 1, 0, 1, 0, 7, 0, 1, 0x30]

/-- A big-endian buffer with compression flag 1 and one sheet of one frame of
2 x 1 pixels (pixel count 2) and stored byte length 2: the payload is the single
pair `(1, 0xAA)`; two more bytes, `1, 0xBB`, follow it. -/
def rleBufferA : List Byte :=
  [0, 1, 0, 0, 0, 1, 0, 0, 0, 1,
   0, 2, 0, 1, 0, 1, 0, 1, 0, 1, 0, 2, 1, 0xAA,
   1, 0xBB]

/-- The buffer `rleBufferA` with another last byte: the same container header,
sheet header and payload, followed by `1, 0xCC`. -/
def rleBufferB : List Byte :=
  [0, 1, 0, 0, 0, 1, 0, 0, 0, 1,
   0, 2, 0, 1, 0, 1, 0, 1, 0, 1, 0, 2, 1, 0xAA,
   1, 0xCC]

/-- An allocator that always succeeds and hands out the handles 0, 1, 2, ... -/
def countingSink : TextureSink Nat :=
  { TryLoadTexture := fun s _ => ((s : Int), s + 1) }

/-- An allocator that refuses its first call and then hands out 1, 2, ... -/
def refuseFirstSink : TextureSink Nat :=
  { TryLoadTexture := fun s _ => (if s = 0 then -1 else (s : Int), s + 1) }

/-- What the array `sprite` happens to hold before the loader writes to it, in
the concrete runs below: a record that looks like a populated descriptor with
handle 7. -/
def staleSprite : Nat → SpriteSet :=
  fun _ => { SpriteIndex := 7, CellWidth := 8, CellHeight := 8, Cols := 1, Rows := 1,
             MaxFrames := 1, Frame := 7 }

/-- The pairs (tileset, frame) in file order with frames ascending, for sheets
with the given sprite counts, the first sheet being tileset `i`. -/
def frameOrder (i : Nat) : List Nat → List (Nat × Nat)
  | [] => []
  | count :: counts => (List.range count).map (fun j => (i, j)) ++ frameOrder (i + 1) counts

/-- The sprite count in the header at `ptr` (0 when the header is not inside
the buffer). -/
def spriteCountAt (bo : ByteOrder) (fileBuffer : List Byte) (ptr : Nat) : Nat :=
  match SpriteSheetHeader.read bo fileBuffer ptr with
  | some sh => sh.SpriteCount
  | none => 0

/-! ## Lemmas: the decoder -/

theorem emitRun_eq (run value : Byte) (j : Nat) (output : List Byte) :
    emitRun run value j output = output ++ List.replicate (run.val - j) value := by
  generalize h : run.val - j = d
  induction d generalizing j output with
  | zero =>
    rw [emitRun, if_neg (by omega)]
    simp
  | succ n ih =>
    have hlt := run.isLt
    rw [emitRun, if_pos (by omega), Nat.mod_eq_of_lt (by omega), ih (j + 1) _ (by omega)]
    simp [List.replicate_succ]

theorem emitRun_zero (run value : Byte) (output : List Byte) :
    emitRun run value 0 output = output ++ List.replicate run.val value := by
  simpa using emitRun_eq run value 0 output

theorem loop_exit (input : List Byte) (n inPos : Nat) (output : List Byte)
    (h : ¬ output.length < n) :
    RLE_Decompress.loop input n inPos output = .returned inPos output := by
  rw [RLE_Decompress.loop, if_neg h]

theorem loop_overrun_run (input : List Byte) (n inPos : Nat) (output : List Byte)
    (h : output.length < n) (h0 : ¬ inPos < input.length) :
    RLE_Decompress.loop input n inPos output = .inputOverrun inPos output := by
  rw [RLE_Decompress.loop, if_pos h, dif_neg h0]

theorem loop_overrun_value (input : List Byte) (n inPos : Nat) (output : List Byte)
    (h : output.length < n) (h0 : inPos < input.length) (h1 : ¬ inPos + 1 < input.length) :
    RLE_Decompress.loop input n inPos output = .inputOverrun (inPos + 1) output := by
  rw [RLE_Decompress.loop, if_pos h, dif_pos h0, dif_neg h1]

/-- One iteration on an input of the shape `pre ++ run :: value :: rest`. -/
theorem loop_step_append (pre rest : List Byte) (r v : Byte) (n : Nat) (output : List Byte)
    (h : output.length < n) :
    RLE_Decompress.loop (pre ++ r :: v :: rest) n pre.length output =
      RLE_Decompress.loop ((pre ++ [r, v]) ++ rest) n (pre ++ [r, v]).length
        (output ++ List.replicate r.val v) := by
  have h0 : pre.length < (pre ++ r :: v :: rest).length := by simp
  have h1 : pre.length + 1 < (pre ++ r :: v :: rest).length := by simp
  have e0 : (pre ++ r :: v :: rest)[pre.length] = r := by
    rw [List.getElem_append_right (by omega)]
    simp
  have e1 : (pre ++ r :: v :: rest)[pre.length + 1] = v := by
    rw [List.getElem_append_right (by omega)]
    simp
  rw [RLE_Decompress.loop, if_pos h, dif_pos h0, dif_pos h1]
  simp only [e0, e1, emitRun_zero]
  simp

theorem length_expand (ps : List (Byte × Byte)) : (expand ps).length = runSum ps := by
  induction ps with
  | nil => rfl
  | cons p ps ih => obtain ⟨r, v⟩ := p; simp [expand, runSum, ih]

theorem length_flatten (ps : List (Byte × Byte)) : (flatten ps).length = 2 * ps.length := by
  induction ps with
  | nil => rfl
  | cons p ps ih => obtain ⟨r, v⟩ := p; simp [flatten, ih]; omega

theorem expand_eq_nil_of_runSum (ps : List (Byte × Byte)) (h : runSum ps = 0) :
    expand ps = [] := by
  have := length_expand ps
  rw [h] at this
  exact List.length_eq_zero.mp this

/-- The loop on a pair stream whose remaining runs bring `out` to exactly
`decompressedSize`. -/
theorem loop_exact (ps : List (Byte × Byte)) :
    ∀ (pre output : List Byte) (n : Nat), output.length + runSum ps = n →
      ∃ k, RLE_Decompress.loop (pre ++ flatten ps) n pre.length output =
        .returned k (output ++ expand ps) := by
  induction ps with
  | nil =>
    intro pre output n h
    refine ⟨pre.length, ?_⟩
    rw [loop_exit _ _ _ _ (by simp [runSum] at h; omega)]
    simp [expand]
  | cons p ps ih =>
    obtain ⟨r, v⟩ := p
    intro pre output n h
    by_cases hlt : output.length < n
    · simp only [flatten]
      rw [loop_step_append pre (flatten ps) r v n output hlt]
      obtain ⟨k, hk⟩ := ih (pre ++ [r, v]) (output ++ List.replicate r.val v) n
        (by simp [runSum] at h ⊢; omega)
      exact ⟨k, by rw [hk]; simp [expand]⟩
    · refine ⟨pre.length, ?_⟩
      rw [loop_exit _ _ _ _ hlt, expand_eq_nil_of_runSum _ (by omega)]
      simp

/-- The loop on a pair stream, possibly followed by one dangling byte, whose
runs do not bring `out` to `decompressedSize`. -/
theorem loop_short (ps : List (Byte × Byte)) :
    ∀ (pre output dangling : List Byte) (n : Nat), output.length + runSum ps < n →
      dangling.length ≤ 1 →
      RLE_Decompress.loop (pre ++ (flatten ps ++ dangling)) n pre.length output =
        .inputOverrun (pre.length + 2 * ps.length + dangling.length) (output ++ expand ps) := by
  induction ps with
  | nil =>
    intro pre output dangling n h hd
    simp only [runSum, Nat.add_zero] at h
    match dangling, hd with
    | [], _ =>
      rw [loop_overrun_run _ _ _ _ h (by simp [flatten])]
      simp [expand]
    | [b], _ =>
      rw [loop_overrun_value _ _ _ _ h (by simp [flatten]) (by simp [flatten])]
      simp [expand]
  | cons p ps ih =>
    obtain ⟨r, v⟩ := p
    intro pre output dangling n h hd
    simp only [flatten, List.cons_append]
    rw [loop_step_append pre (flatten ps ++ dangling) r v n output (by omega)]
    rw [ih (pre ++ [r, v]) (output ++ List.replicate r.val v) dangling n
      (by simp [runSum] at h ⊢; omega) hd]
    simp [expand]
    omega

/-- On a pair stream whose runs sum to the requested size the call returns the
full expansion. -/
theorem decompress_exact (ps : List (Byte × Byte)) (n : Nat) (h : runSum ps = n) :
    ∃ k, RLE_Decompress (flatten ps) n = .returned k (expand ps) := by
  obtain ⟨k, hk⟩ := loop_exact ps [] [] n (by simpa using h)
  exact ⟨k, by simpa [RLE_Decompress] using hk⟩

/-! ## Lemmas: the reference encoder -/

theorem expand_encodeRun (bs : List Byte) :
    ∀ (cur : Byte) (count : Nat), count ≤ 255 →
      expand (encodeRun cur count bs) = List.replicate count cur ++ bs := by
  induction bs with
  | nil =>
    intro cur count hc
    simp [encodeRun, expand, Fin.ofNat, Nat.mod_eq_of_lt (show count < 255 + 1 by omega)]
  | cons b bs ih =>
    intro cur count hc
    by_cases hb : b = cur ∧ count < 255
    · rw [encodeRun, if_pos hb, ih cur (count + 1) (by omega), hb.1]
      simp [List.replicate_succ']
    · rw [encodeRun, if_neg hb]
      simp [expand, ih b 1 (by omega), Fin.ofNat,
        Nat.mod_eq_of_lt (show count < 255 + 1 by omega)]

theorem expand_canonicalEncode (b : List Byte) : expand (canonicalEncode b) = b := by
  cases b with
  | nil => rfl
  | cons x xs => simpa using expand_encodeRun xs x 1 (by omega)

theorem encodeRun_run_pos (bs : List Byte) :
    ∀ (cur : Byte) (count : Nat), 1 ≤ count → count ≤ 255 →
      ∀ p ∈ encodeRun cur count bs, 1 ≤ p.1.val ∧ p.1.val ≤ 255 := by
  induction bs with
  | nil =>
    intro cur count h1 hc p hp
    simp only [encodeRun, List.mem_singleton] at hp
    subst hp
    simp only [Fin.ofNat, Nat.mod_eq_of_lt (show count < 255 + 1 by omega)]
    omega
  | cons b bs ih =>
    intro cur count h1 hc p hp
    by_cases hb : b = cur ∧ count < 255
    · rw [encodeRun, if_pos hb] at hp
      exact ih cur (count + 1) (by omega) (by omega) p hp
    · rw [encodeRun, if_neg hb, List.mem_cons] at hp
      rcases hp with hp | hp
      · subst hp
        simp only [Fin.ofNat, Nat.mod_eq_of_lt (show count < 255 + 1 by omega)]
        omega
      · exact ih b 1 (by omega) (by omega) p hp

theorem canonicalEncode_run_pos (b : List Byte) :
    ∀ p ∈ canonicalEncode b, 1 ≤ p.1.val ∧ p.1.val ≤ 255 := by
  cases b with
  | nil => intro p hp; simp [canonicalEncode] at hp
  | cons x xs => exact encodeRun_run_pos xs x 1 (by omega) (by omega)

theorem decompress_canonicalEncode (b : List Byte) :
    ∃ k, RLE_Decompress (flatten (canonicalEncode b)) b.length = .returned k b := by
  have h := decompress_exact (canonicalEncode b) b.length
    (by rw [← length_expand, expand_canonicalEncode])
  rwa [expand_canonicalEncode] at h

/-! ## Lemmas: folds over `List.range` -/

theorem foldl_range_invariant {α : Type} (P : Nat → α → Prop) (f : α → Nat → α) (a : α)
    (N : Nat) (h0 : P 0 a) (hstep : ∀ n s, n < N → P n s → P (n + 1) (f s n)) :
    P N (List.foldl f a (List.range N)) := by
  induction N with
  | zero => simpa using h0
  | succ N ih =>
    rw [List.range_succ, List.foldl_append]
    simp only [List.foldl_cons, List.foldl_nil]
    exact hstep N _ (by omega) (ih (fun n s hn hp => hstep n s (by omega) hp))

theorem foldl_range_relation {α β : Type} (R : Nat → α → β → Prop) (f : α → Nat → α)
    (g : β → Nat → β) (a : α) (b : β) (N : Nat) (h0 : R 0 a b)
    (hstep : ∀ n s t, n < N → R n s t → R (n + 1) (f s n) (g t n)) :
    R N (List.foldl f a (List.range N)) (List.foldl g b (List.range N)) := by
  induction N with
  | zero => simpa using h0
  | succ N ih =>
    rw [List.range_succ, List.foldl_append, List.foldl_append]
    simp only [List.foldl_cons, List.foldl_nil]
    exact hstep N _ _ (by omega) (ih (fun n s t hn hp => hstep n s t (by omega) hp))

/-! ## Lemmas: one frame -/

section FrameStep

variable {σ : Type} (sink : TextureSink σ) (paletteMode : Nat) (paletteIndex : Byte)
  (i : Nat) (sh : SpriteSheetHeader) (inputData : List Byte) (st : LoadState σ) (j : Nat)

/-- The answer of the allocator for frame `j`. -/
theorem frameStep_calls :
    (frameStep sink paletteMode paletteIndex i sh inputData st j).calls =
      st.calls ++ [SinkCall.mk i j (sh.frameOffset j)
        (frameSubmission paletteMode paletteIndex sh inputData j)
        (sink.TryLoadTexture st.sink
          (frameSubmission paletteMode paletteIndex sh inputData j)).1] := by
  unfold frameStep
  simp only
  split_ifs <;> rfl

theorem frameStep_fault :
    (frameStep sink paletteMode paletteIndex i sh inputData st j).fault = st.fault := by
  unfold frameStep
  simp only
  split_ifs <;> rfl

theorem frameStep_iterator :
    (frameStep sink paletteMode paletteIndex i sh inputData st j).iterator = st.iterator := by
  unfold frameStep
  simp only
  split_ifs <;> rfl

theorem frameStep_sheets :
    (frameStep sink paletteMode paletteIndex i sh inputData st j).sheets = st.sheets := by
  unfold frameStep
  simp only
  split_ifs <;> rfl

theorem frameStep_sprite_length :
    (frameStep sink paletteMode paletteIndex i sh inputData st j).sprite.length =
      st.sprite.length := by
  unfold frameStep
  simp only
  split_ifs <;> simp

/-- The array `sprite` after frame `j`, in terms of the answer for it. -/
theorem frameStep_sprite :
    (frameStep sink paletteMode paletteIndex i sh inputData st j).sprite =
      if 0 ≤ (sink.TryLoadTexture st.sink
          (frameSubmission paletteMode paletteIndex sh inputData j)).1 ∧ j = 0
      then st.sprite.set i (populate sh (sink.TryLoadTexture st.sink
          (frameSubmission paletteMode paletteIndex sh inputData j)).1)
      else st.sprite := by
  unfold frameStep
  simp only
  split_ifs <;> first | rfl | omega

end FrameStep

/-! ## Lemmas: header fields -/

theorem u16_lt (bo : ByteOrder) (b0 b1 : Byte) : u16 bo b0 b1 < 65536 := by
  have h0 := b0.isLt
  have h1 := b1.isLt
  cases bo <;> simp only [u16] <;> omega

theorem rd16_lt {bo : ByteOrder} {fileBuffer : List Byte} {pos v : Nat}
    (h : rd16 bo fileBuffer pos = some v) : v < 65536 := by
  unfold rd16 at h
  split at h
  · simp only [Option.some.injEq] at h
    rw [← h]
    exact u16_lt _ _ _
  · simp at h

theorem rd16_isSome {bo : ByteOrder} {fileBuffer : List Byte} {pos v : Nat}
    (h : rd16 bo fileBuffer pos = some v) : pos + 1 < fileBuffer.length := by
  unfold rd16 at h
  split at h
  · assumption
  · simp at h

theorem read_fields {bo : ByteOrder} {fileBuffer : List Byte} {ptr : Nat}
    {sh : SpriteSheetHeader} (h : SpriteSheetHeader.read bo fileBuffer ptr = some sh) :
    rd16 bo fileBuffer ptr = some sh.CellWidth ∧
    rd16 bo fileBuffer (ptr + 2) = some sh.CellHeight ∧
    rd16 bo fileBuffer (ptr + 4) = some sh.Cols ∧
    rd16 bo fileBuffer (ptr + 6) = some sh.Rows ∧
    rd16 bo fileBuffer (ptr + 8) = some sh.Frames ∧
    rd16 bo fileBuffer (ptr + 10) = some sh.TotalBytes := by
  unfold SpriteSheetHeader.read at h
  split at h
  · rename_i t w hh c r f ht hw hhh hc hr hf
    simp only [Option.some.injEq] at h
    subst h
    exact ⟨hw, hhh, hc, hr, hf, ht⟩
  · simp at h

theorem LoadSize_eq {bo : ByteOrder} {fileBuffer : List Byte} {ptr : Nat}
    {sh : SpriteSheetHeader} (h : SpriteSheetHeader.read bo fileBuffer ptr = some sh) :
    sh.LoadSize = 12 + sh.TotalBytes := by
  have ht := rd16_lt (read_fields h).2.2.2.2.2
  unfold SpriteSheetHeader.LoadSize sizeof_SpriteSheetHeader
  exact Nat.mod_eq_of_lt (by omega)

theorem storedByteLength_eq {bo : ByteOrder} {fileBuffer : List Byte} {ptr : Nat}
    {sh : SpriteSheetHeader} (h : SpriteSheetHeader.read bo fileBuffer ptr = some sh) :
    storedByteLength bo fileBuffer ptr = sh.TotalBytes := by
  simp [storedByteLength, (read_fields h).2.2.2.2.2]

/-! ## Lemmas: the frame loop -/

section FrameLoop

variable {σ : Type} (sink : TextureSink σ) (paletteMode : Nat) (paletteIndex : Byte)
  (i : Nat) (sh : SpriteSheetHeader) (inputData : List Byte) (st : LoadState σ)

/-- An invariant of the frame loop: a property of the state that each frame
preserves holds after the loop. -/
theorem frameLoop_invariant (P : Nat → LoadState σ → Prop) (h0 : P 0 st)
    (hstep : ∀ j s, j < sh.SpriteCount → P j s →
      P (j + 1) (frameStep sink paletteMode paletteIndex i sh inputData s j)) :
    P sh.SpriteCount (frameLoop sink paletteMode paletteIndex i sh inputData st) :=
  foldl_range_invariant P _ st sh.SpriteCount h0 hstep

theorem frameLoop_fault :
    (frameLoop sink paletteMode paletteIndex i sh inputData st).fault = st.fault :=
  frameLoop_invariant sink paletteMode paletteIndex i sh inputData st
    (fun _ s => s.fault = st.fault) rfl
    (fun j s _ h => (frameStep_fault sink paletteMode paletteIndex i sh inputData s j).trans h)

theorem frameLoop_iterator :
    (frameLoop sink paletteMode paletteIndex i sh inputData st).iterator = st.iterator :=
  frameLoop_invariant sink paletteMode paletteIndex i sh inputData st
    (fun _ s => s.iterator = st.iterator) rfl
    (fun j s _ h => (frameStep_iterator sink paletteMode paletteIndex i sh inputData s j).trans h)

theorem frameLoop_sheets :
    (frameLoop sink paletteMode paletteIndex i sh inputData st).sheets = st.sheets :=
  frameLoop_invariant sink paletteMode paletteIndex i sh inputData st
    (fun _ s => s.sheets = st.sheets) rfl
    (fun j s _ h => (frameStep_sheets sink paletteMode paletteIndex i sh inputData s j).trans h)

theorem frameLoop_sprite_length :
    (frameLoop sink paletteMode paletteIndex i sh inputData st).sprite.length =
      st.sprite.length :=
  frameLoop_invariant sink paletteMode paletteIndex i sh inputData st
    (fun _ s => s.sprite.length = st.sprite.length) rfl
    (fun j s _ h => (frameStep_sprite_length sink paletteMode paletteIndex i sh inputData s j).trans h)

end FrameLoop

/-! ## Lemmas: one sheet -/

/-- The ways one iteration of the loop over the tilesets can go. -/
theorem sheetStep_cases {σ : Type} (bo : ByteOrder) (sink : TextureSink σ)
    (fileBuffer : List Byte) (paletteMode : Nat) (paletteIndex : Byte) (st : LoadState σ)
    (i : Nat) :
    (st.fault ≠ none ∧ sheetStep bo sink fileBuffer paletteMode paletteIndex st i = st) ∨
    (st.fault = none ∧ SpriteSheetHeader.read bo fileBuffer st.iterator = none ∧
      sheetStep bo sink fileBuffer paletteMode paletteIndex st i =
        { st with fault := some (.headerRead (st.iterator + 10)) }) ∨
    (st.fault = none ∧ ∃ sh, SpriteSheetHeader.read bo fileBuffer st.iterator = some sh ∧
      ((∃ f, (rd16 bo fileBuffer 4 = none ∨ ∃ c, rd16 bo fileBuffer 4 = some c ∧
            prepareInput fileBuffer c i st.iterator sh = .error f) ∧
          sheetStep bo sink fileBuffer paletteMode paletteIndex st i =
            { afterHeader st sh with fault := some f }) ∨
       (∃ c inputData, rd16 bo fileBuffer 4 = some c ∧
          prepareInput fileBuffer c i st.iterator sh = .ok inputData ∧
          sheetStep bo sink fileBuffer paletteMode paletteIndex st i =
            frameLoop sink paletteMode paletteIndex i sh inputData (afterHeader st sh)))) := by
  cases hf : st.fault with
  | some f =>
    left
    refine ⟨by simp, ?_⟩
    simp [sheetStep, hf]
  | none =>
    right
    cases hr : SpriteSheetHeader.read bo fileBuffer st.iterator with
    | none =>
      left
      refine ⟨rfl, rfl, ?_⟩
      simp [sheetStep, hf, GetAndIterate_SpriteSheetHeader, hr]
    | some sh =>
      right
      refine ⟨rfl, sh, rfl, ?_⟩
      have hl := LoadSize_eq hr
      cases hc : rd16 bo fileBuffer 4 with
      | none =>
        left
        refine ⟨.headerRead 4, Or.inl rfl, ?_⟩
        simp [sheetStep, hf, GetAndIterate_SpriteSheetHeader, hr, hc, afterHeader, hl]
      | some c =>
        cases hp : prepareInput fileBuffer c i st.iterator sh with
        | error f =>
          left
          refine ⟨f, Or.inr ⟨c, rfl, hp⟩, ?_⟩
          simp [sheetStep, hf, GetAndIterate_SpriteSheetHeader, hr, hc, hp, afterHeader, hl]
        | ok inputData =>
          right
          refine ⟨c, inputData, rfl, hp, ?_⟩
          simp [sheetStep, hf, GetAndIterate_SpriteSheetHeader, hr, hc, hp, afterHeader, hl]

/-! ## Lemmas: the descriptor table -/

theorem frame0_append (calls : List SinkCall) (c : SinkCall) (k : Nat) :
    frame0 (calls ++ [c]) k =
      (frame0 calls k).or (if c.i = k ∧ c.j = 0 then some c else none) := by
  simp [frame0, List.find?_append]

theorem frame0_eq_none {calls : List SinkCall} {k : Nat} (h : ∀ c ∈ calls, c.i ≠ k) :
    frame0 calls k = none := by
  simp only [frame0, List.find?_eq_none, decide_eq_true_eq, not_and]
  intro c hc hi
  exact absurd hi (h c hc)

theorem frame0_spec {calls : List SinkCall} {k : Nat} {c : SinkCall}
    (h : frame0 calls k = some c) : c ∈ calls ∧ c.i = k ∧ c.j = 0 := by
  have h1 := List.mem_of_find?_eq_some h
  have h2 := List.find?_some h
  simp only [decide_eq_true_eq] at h2
  exact ⟨h1, h2⟩

theorem expectedSprite_congr (bo : ByteOrder) (fileBuffer : List Byte)
    (garbage : Nat → SpriteSet) (sheets : List Nat) {calls calls' : List SinkCall} {k : Nat}
    (h : frame0 calls' k = frame0 calls k) :
    expectedSprite bo fileBuffer garbage sheets calls' k =
      expectedSprite bo fileBuffer garbage sheets calls k := by
  simp only [expectedSprite, h]

theorem expectedSprite_none (bo : ByteOrder) (fileBuffer : List Byte)
    (garbage : Nat → SpriteSet) (sheets : List Nat) {calls : List SinkCall} {k : Nat}
    (h : frame0 calls k = none) :
    expectedSprite bo fileBuffer garbage sheets calls k = garbage k := by
  simp only [expectedSprite, h]

theorem expectedSprite_some (bo : ByteOrder) (fileBuffer : List Byte)
    (garbage : Nat → SpriteSet) (sheets : List Nat) {calls : List SinkCall} {k : Nat}
    {c : SinkCall} {sh : SpriteSheetHeader} (h : frame0 calls k = some c)
    (hsh : sheetHeader bo fileBuffer sheets k = some sh) :
    expectedSprite bo fileBuffer garbage sheets calls k =
      if c.spriteIndex < 0 then garbage k else populate sh c.spriteIndex := by
  simp only [expectedSprite, h, hsh]

theorem sheetHeader_append (bo : ByteOrder) (fileBuffer : List Byte) (sheets : List Nat)
    (ptr : Nat) {k : Nat} (h : k < sheets.length) :
    sheetHeader bo fileBuffer (sheets ++ [ptr]) k = sheetHeader bo fileBuffer sheets k := by
  simp only [sheetHeader, List.getElem?_append_left h]

theorem sheetHeader_last (bo : ByteOrder) (fileBuffer : List Byte) (sheets : List Nat)
    (ptr : Nat) :
    sheetHeader bo fileBuffer (sheets ++ [ptr]) sheets.length =
      SpriteSheetHeader.read bo fileBuffer ptr := by
  simp only [sheetHeader, List.getElem?_concat_length]

theorem expectedSprite_sheets_append (bo : ByteOrder) (fileBuffer : List Byte)
    (garbage : Nat → SpriteSet) (sheets : List Nat) (ptr : Nat) {calls : List SinkCall}
    (k : Nat) (h : ∀ c ∈ calls, c.i < sheets.length) :
    expectedSprite bo fileBuffer garbage (sheets ++ [ptr]) calls k =
      expectedSprite bo fileBuffer garbage sheets calls k := by
  cases h0 : frame0 calls k with
  | none => rw [expectedSprite_none _ _ _ _ h0, expectedSprite_none _ _ _ _ h0]
  | some c =>
    obtain ⟨hc, hi, _⟩ := frame0_spec h0
    have hk : k < sheets.length := hi ▸ h c hc
    simp only [expectedSprite, sheetHeader_append bo fileBuffer sheets ptr hk]

/-- The frame loop of tileset `n` keeps the table `sprite` equal to what the
record of the calls determines. -/
theorem frameLoop_expected {σ : Type} (bo : ByteOrder) (sink : TextureSink σ)
    (fileBuffer : List Byte) (garbage : Nat → SpriteSet) (paletteMode : Nat)
    (paletteIndex : Byte) (n N : Nat) (sh : SpriteSheetHeader) (inputData : List Byte)
    (st : LoadState σ) (hn : n < N) (hlen : st.sprite.length = N)
    (hsh : sheetHeader bo fileBuffer st.sheets n = some sh)
    (hcalls : ∀ c ∈ st.calls, c.i < n)
    (hexp : ∀ k, k < N →
      st.sprite[k]? = some (expectedSprite bo fileBuffer garbage st.sheets st.calls k)) :
    (∀ c ∈ (frameLoop sink paletteMode paletteIndex n sh inputData st).calls, c.i < n + 1) ∧
    (∀ k, k < N → (frameLoop sink paletteMode paletteIndex n sh inputData st).sprite[k]? =
      some (expectedSprite bo fileBuffer garbage st.sheets
        (frameLoop sink paletteMode paletteIndex n sh inputData st).calls k)) := by
  have key := frameLoop_invariant sink paletteMode paletteIndex n sh inputData st
    (fun m s => s.sprite.length = N ∧ (∀ c ∈ s.calls, c.i < n + 1) ∧
      (m = 0 → ∀ c ∈ s.calls, c.i < n) ∧ (0 < m → ∃ c0, frame0 s.calls n = some c0) ∧
      ∀ k, k < N →
        s.sprite[k]? = some (expectedSprite bo fileBuffer garbage st.sheets s.calls k))
    ⟨hlen, fun c hc => Nat.lt_succ_of_lt (hcalls c hc), fun _ => hcalls,
      fun h => absurd h (Nat.lt_irrefl 0), hexp⟩
    (by
      intro j s _ ⟨hl, hc1, hc0, hpos, he⟩
      refine ⟨by rw [frameStep_sprite_length]; exact hl, ?_, fun h => absurd h (by omega), ?_, ?_⟩
      · intro c hc
        rw [frameStep_calls, List.mem_append, List.mem_singleton] at hc
        rcases hc with hc | hc
        · exact hc1 c hc
        · rw [hc]; exact Nat.lt_succ_self n
      · intro _
        rw [frameStep_calls, frame0_append]
        by_cases hj : j = 0
        · cases frame0 s.calls n with
          | none =>
            simp only [hj, and_self, if_true, Option.none_or]
            exact ⟨_, rfl⟩
          | some c0 => exact ⟨c0, by simp⟩
        · obtain ⟨c0, h0⟩ := hpos (by omega)
          exact ⟨c0, by simp [h0]⟩
      · intro k hk
        rw [frameStep_calls, frameStep_sprite]
        by_cases hkn : k = n
        · subst hkn
          by_cases hj : j = 0
          · have hnone : frame0 s.calls k = none :=
              frame0_eq_none (fun c hc => Nat.ne_of_lt (hc0 hj c hc))
            have hsome := frame0_append s.calls (SinkCall.mk k j (sh.frameOffset j)
              (frameSubmission paletteMode paletteIndex sh inputData j)
              (sink.TryLoadTexture s.sink
                (frameSubmission paletteMode paletteIndex sh inputData j)).1) k
            rw [hnone] at hsome
            simp only [hj, and_self, if_true, Option.none_or] at hsome
            rw [hj, expectedSprite_some bo fileBuffer garbage st.sheets hsome hsh]
            by_cases ha : (sink.TryLoadTexture s.sink
                (frameSubmission paletteMode paletteIndex sh inputData 0)).1 < 0
            · rw [if_neg (by omega), if_pos ha, he k hk,
                expectedSprite_none bo fileBuffer garbage st.sheets hnone]
            · rw [if_pos ⟨by omega, rfl⟩, if_neg ha, List.getElem?_set,
                if_pos rfl, if_pos (by omega)]
          · obtain ⟨c0, h0⟩ := hpos (by omega)
            rw [if_neg (by tauto), he k hk]
            congr 1
            apply (expectedSprite_congr bo fileBuffer garbage st.sheets _).symm
            rw [frame0_append, h0]
            rfl
        · have hsame : frame0 (s.calls ++ [SinkCall.mk n j (sh.frameOffset j)
              (frameSubmission paletteMode paletteIndex sh inputData j)
              (sink.TryLoadTexture s.sink
                (frameSubmission paletteMode paletteIndex sh inputData j)).1]) k =
              frame0 s.calls k := by
            rw [frame0_append, if_neg (fun h => hkn h.1.symm)]
            simp
          rw [expectedSprite_congr bo fileBuffer garbage st.sheets hsame, ← he k hk]
          split_ifs
          · exact List.getElem?_set_ne (fun h => hkn h.symm)
          · rfl)
  exact ⟨key.2.1, key.2.2.2.2⟩

/-- The state of the constructor when the loop over the tilesets starts. -/
theorem TilemapObject_state {σ : Type} (bo : ByteOrder) (sink : TextureSink σ) (s0 : σ)
    (garbage : Nat → SpriteSet) (fileBuffer : List Byte) (paletteIndex : Byte)
    (keepBuffer : Bool) {numTilesets paletteMode : Nat}
    (h0 : rd16 bo fileBuffer 0 = some numTilesets)
    (h2 : rd16 bo fileBuffer 2 = some paletteMode) :
    TilemapObject bo sink s0 garbage fileBuffer paletteIndex keepBuffer =
      { asset := some { NumTilesets := numTilesets, PaletteMode := paletteMode }
        state := List.foldl (sheetStep bo sink fileBuffer paletteMode paletteIndex)
          (loopStart s0 garbage numTilesets) (List.range numTilesets)
        ownsBuffer := keepBuffer } := by
  simp only [TilemapObject, GetAndIterate_TmsfHeader, Nat.zero_add, h0, h2, loopStart,
    sizeof_TmsfHeader]

/-- When the container header cannot be read nothing is allocated and no call
is made. -/
theorem TilemapObject_unreadable {σ : Type} (bo : ByteOrder) (sink : TextureSink σ) (s0 : σ)
    (garbage : Nat → SpriteSet) (fileBuffer : List Byte) (paletteIndex : Byte)
    (keepBuffer : Bool)
    (h : rd16 bo fileBuffer 0 = none ∨ rd16 bo fileBuffer 2 = none) :
    (TilemapObject bo sink s0 garbage fileBuffer paletteIndex keepBuffer).state.calls = [] ∧
    (TilemapObject bo sink s0 garbage fileBuffer paletteIndex keepBuffer).state.sprite = [] ∧
    (TilemapObject bo sink s0 garbage fileBuffer paletteIndex keepBuffer).state.sheets = [] ∧
    (TilemapObject bo sink s0 garbage fileBuffer paletteIndex keepBuffer).state.fault ≠ none ∧
    (TilemapObject bo sink s0 garbage fileBuffer paletteIndex keepBuffer).asset = none := by
  simp only [TilemapObject, GetAndIterate_TmsfHeader, Nat.zero_add]
  cases h0 : rd16 bo fileBuffer 0 with
  | none => simp [loopStart]
  | some n =>
    cases h2 : rd16 bo fileBuffer 2 with
    | none => simp [loopStart]
    | some m => rcases h with h | h <;> simp [h0, h2] at h

/-- The loop over the tilesets keeps the table `sprite` equal to what the
record of the run determines. -/
theorem sheetLoop_expected {σ : Type} (bo : ByteOrder) (sink : TextureSink σ) (s0 : σ)
    (garbage : Nat → SpriteSet) (fileBuffer : List Byte) (paletteMode : Nat)
    (paletteIndex : Byte) (N : Nat) :
    (List.foldl (sheetStep bo sink fileBuffer paletteMode paletteIndex)
        (loopStart s0 garbage N) (List.range N)).sprite.length = N ∧
    (List.foldl (sheetStep bo sink fileBuffer paletteMode paletteIndex)
        (loopStart s0 garbage N) (List.range N)).sheets.length ≤ N ∧
    ((List.foldl (sheetStep bo sink fileBuffer paletteMode paletteIndex)
        (loopStart s0 garbage N) (List.range N)).fault = none →
      (List.foldl (sheetStep bo sink fileBuffer paletteMode paletteIndex)
        (loopStart s0 garbage N) (List.range N)).sheets.length = N) ∧
    (∀ c ∈ (List.foldl (sheetStep bo sink fileBuffer paletteMode paletteIndex)
        (loopStart s0 garbage N) (List.range N)).calls,
      c.i < (List.foldl (sheetStep bo sink fileBuffer paletteMode paletteIndex)
        (loopStart s0 garbage N) (List.range N)).sheets.length) ∧
    (∀ k, k < N →
      (List.foldl (sheetStep bo sink fileBuffer paletteMode paletteIndex)
        (loopStart s0 garbage N) (List.range N)).sprite[k]? =
      some (expectedSprite bo fileBuffer garbage
        (List.foldl (sheetStep bo sink fileBuffer paletteMode paletteIndex)
          (loopStart s0 garbage N) (List.range N)).sheets
        (List.foldl (sheetStep bo sink fileBuffer paletteMode paletteIndex)
          (loopStart s0 garbage N) (List.range N)).calls k)) := by
  apply foldl_range_invariant
    (fun n (s : LoadState σ) => s.sprite.length = N ∧ s.sheets.length ≤ n ∧
      (s.fault = none → s.sheets.length = n) ∧ (∀ c ∈ s.calls, c.i < s.sheets.length) ∧
      ∀ k, k < N →
        s.sprite[k]? = some (expectedSprite bo fileBuffer garbage s.sheets s.calls k))
  · refine ⟨by simp [loopStart], by simp [loopStart], fun _ => by simp [loopStart],
      by simp [loopStart], ?_⟩
    intro k hk
    rw [expectedSprite_none bo fileBuffer garbage _ (frame0_eq_none (by simp [loopStart]))]
    simp [loopStart, List.getElem?_range hk]
  · intro n s hn ⟨hl, hle, hfl, hc, he⟩
    rcases sheetStep_cases bo sink fileBuffer paletteMode paletteIndex s n with
      ⟨hf, hs⟩ | ⟨hf, _, hs⟩ | ⟨hf, sh, hr, ⟨f, _, hs⟩ | ⟨c, inputData, _, _, hs⟩⟩
    · rw [hs]
      exact ⟨hl, by omega, fun h => absurd h hf, hc, he⟩
    · rw [hs]
      exact ⟨hl, Nat.le_succ_of_le hle, fun h => by simp at h, hc, he⟩
    · rw [hs]
      have hlen := hfl hf
      refine ⟨hl, by simp [afterHeader, hlen], fun h => by simp at h, ?_, ?_⟩
      · intro c hc'
        have := hc c hc'
        simp only [afterHeader, List.length_append, List.length_singleton]
        omega
      · intro k hk
        simp only [afterHeader]
        rw [expectedSprite_sheets_append bo fileBuffer garbage s.sheets s.iterator k hc]
        exact he k hk
    · rw [hs]
      have hlen := hfl hf
      have hsh : sheetHeader bo fileBuffer (afterHeader s sh).sheets n = some sh := by
        simp only [afterHeader]
        rw [← hlen, sheetHeader_last, hr]
      have hfr := frameLoop_expected bo sink fileBuffer garbage paletteMode paletteIndex n N
        sh inputData (afterHeader s sh) hn hl hsh (fun c hc' => hlen ▸ hc c hc')
        (fun k hk => by
          simp only [afterHeader]
          rw [expectedSprite_sheets_append bo fileBuffer garbage s.sheets s.iterator k hc]
          exact he k hk)
      rw [frameLoop_sprite_length, frameLoop_sheets]
      have hlen' : (afterHeader s sh).sheets.length = n + 1 := by simp [afterHeader, hlen]
      refine ⟨hl, by omega, fun _ => hlen', ?_, hfr.2⟩
      intro c hc'
      rw [hlen']
      exact hfr.1 c hc'

/-! ## Lemmas: the order of the calls -/

/-- The calls are recorded tileset by tileset and, within a tileset, frame by
frame. -/
theorem frameLoop_ordered {σ : Type} (sink : TextureSink σ) (paletteMode : Nat)
    (paletteIndex : Byte) (n : Nat) (sh : SpriteSheetHeader) (inputData : List Byte)
    (st : LoadState σ) (hp : st.calls.Pairwise callBefore) (hc : ∀ c ∈ st.calls, c.i < n) :
    (frameLoop sink paletteMode paletteIndex n sh inputData st).calls.Pairwise callBefore ∧
    (∀ c ∈ (frameLoop sink paletteMode paletteIndex n sh inputData st).calls, c.i < n + 1) ∧
    (∀ c ∈ (frameLoop sink paletteMode paletteIndex n sh inputData st).calls,
      c.i = n → c.j < sh.SpriteCount) := by
  have key := frameLoop_invariant sink paletteMode paletteIndex n sh inputData st
    (fun m s => s.calls.Pairwise callBefore ∧
      ∀ c ∈ s.calls, c.i < n ∨ (c.i = n ∧ c.j < m))
    ⟨hp, fun c h => Or.inl (hc c h)⟩
    (by
      intro j s _ ⟨hpw, hb⟩
      rw [frameStep_calls]
      refine ⟨?_, ?_⟩
      · rw [List.pairwise_append]
        refine ⟨hpw, List.pairwise_singleton _ _, ?_⟩
        intro a ha b hb'
        rw [List.mem_singleton] at hb'
        subst hb'
        rcases hb a ha with h | ⟨h1, h2⟩
        · exact Or.inl h
        · exact Or.inr ⟨h1, h2⟩
      · intro c hc'
        rw [List.mem_append, List.mem_singleton] at hc'
        rcases hc' with hc' | hc'
        · rcases hb c hc' with h | ⟨h1, h2⟩
          · exact Or.inl h
          · exact Or.inr ⟨h1, by omega⟩
        · subst hc'
          exact Or.inr ⟨rfl, Nat.lt_succ_self j⟩)
  refine ⟨key.1, fun c h => ?_, fun c h hi => ?_⟩
  · rcases key.2 c h with h' | ⟨h', _⟩ <;> omega
  · rcases key.2 c h with h' | ⟨_, h'⟩
    · omega
    · exact h'

theorem sheetLoop_ordered {σ : Type} (bo : ByteOrder) (sink : TextureSink σ) (s0 : σ)
    (garbage : Nat → SpriteSet) (fileBuffer : List Byte) (paletteMode : Nat)
    (paletteIndex : Byte) (N : Nat) :
    (List.foldl (sheetStep bo sink fileBuffer paletteMode paletteIndex)
        (loopStart s0 garbage N) (List.range N)).calls.Pairwise callBefore := by
  have key := foldl_range_invariant
    (fun n (s : LoadState σ) => s.calls.Pairwise callBefore ∧ ∀ c ∈ s.calls, c.i < n)
    (sheetStep bo sink fileBuffer paletteMode paletteIndex) (loopStart s0 garbage N) N
    ⟨by simp [loopStart], by simp [loopStart]⟩
    (by
      intro n s _ ⟨hp, hc⟩
      have hc' : ∀ c ∈ s.calls, c.i < n + 1 := fun c h => Nat.lt_succ_of_lt (hc c h)
      rcases sheetStep_cases bo sink fileBuffer paletteMode paletteIndex s n with
        ⟨_, hs⟩ | ⟨_, _, hs⟩ | ⟨_, sh, _, ⟨f, _, hs⟩ | ⟨c, inputData, _, _, hs⟩⟩
      · rw [hs]; exact ⟨hp, hc'⟩
      · rw [hs]; exact ⟨hp, hc'⟩
      · rw [hs]; exact ⟨hp, hc'⟩
      · rw [hs]
        have h := frameLoop_ordered sink paletteMode paletteIndex n sh inputData
          (afterHeader s sh) hp hc
        exact ⟨h.1, h.2.1⟩)
  exact key.1

/-- In an ordered record two calls for the same tileset and frame are the same
call. -/
theorem call_unique {calls : List SinkCall} (hp : calls.Pairwise callBefore)
    {a b : SinkCall} (ha : a ∈ calls) (hb : b ∈ calls) (hi : a.i = b.i) (hj : a.j = b.j) :
    a = b := by
  by_contra hne
  have hsym : calls.Pairwise (fun x y => ¬ (x.i = y.i ∧ x.j = y.j)) :=
    hp.imp (fun {x y} h => by
      rcases h with h | ⟨_, h⟩
      · intro h'; omega
      · intro h'; omega)
  have hs : Symmetric (fun x y : SinkCall => ¬ (x.i = y.i ∧ x.j = y.j)) :=
    fun x y h h' => h ⟨h'.1.symm, h'.2.symm⟩
  exact List.Pairwise.forall hs hsym ha hb hne ⟨hi, hj⟩

theorem frame0_of_mem {calls : List SinkCall} (hp : calls.Pairwise callBefore)
    {c : SinkCall} (hc : c ∈ calls) (hj : c.j = 0) : frame0 calls c.i = some c := by
  cases h : frame0 calls c.i with
  | none =>
    simp only [frame0, List.find?_eq_none, decide_eq_true_eq, not_and] at h
    exact absurd hj (h c hc rfl)
  | some c0 =>
    obtain ⟨h0, hi, hj0⟩ := frame0_spec h
    rw [call_unique hp h0 hc hi (hj0.trans hj.symm)]

/-! ## Lemmas: frame 0 comes first -/

/-- Whenever a call for a tileset is on record, so is the call for its frame 0. -/
theorem frameLoop_frame0_exists {σ : Type} (sink : TextureSink σ) (paletteMode : Nat)
    (paletteIndex : Byte) (n : Nat) (sh : SpriteSheetHeader) (inputData : List Byte)
    (st : LoadState σ) (h : ∀ c ∈ st.calls, ∃ c0, frame0 st.calls c.i = some c0) :
    ∀ c ∈ (frameLoop sink paletteMode paletteIndex n sh inputData st).calls,
      ∃ c0, frame0 (frameLoop sink paletteMode paletteIndex n sh inputData st).calls c.i =
        some c0 := by
  have key := frameLoop_invariant sink paletteMode paletteIndex n sh inputData st
    (fun m s => (∀ c ∈ s.calls, ∃ c0, frame0 s.calls c.i = some c0) ∧
      (0 < m → ∃ c0, frame0 s.calls n = some c0))
    ⟨h, fun h' => absurd h' (Nat.lt_irrefl 0)⟩
    (by
      intro j s _ ⟨hall, hpos⟩
      rw [frameStep_calls]
      have hnew : ∃ c0, frame0 (s.calls ++ [SinkCall.mk n j (sh.frameOffset j)
          (frameSubmission paletteMode paletteIndex sh inputData j)
          (sink.TryLoadTexture s.sink
            (frameSubmission paletteMode paletteIndex sh inputData j)).1]) n = some c0 := by
        rw [frame0_append]
        by_cases hj : j = 0
        · cases frame0 s.calls n with
          | none =>
            simp only [hj, and_self, if_true, Option.none_or]
            exact ⟨_, rfl⟩
          | some c0 => exact ⟨c0, by simp⟩
        · obtain ⟨c0, h0⟩ := hpos (by omega)
          exact ⟨c0, by simp [h0]⟩
      refine ⟨?_, fun _ => hnew⟩
      intro c hc
      rw [List.mem_append, List.mem_singleton] at hc
      rcases hc with hc | hc
      · obtain ⟨c0, h0⟩ := hall c hc
        exact ⟨c0, by rw [frame0_append, h0]; rfl⟩
      · subst hc
        exact hnew)
  exact key.1

theorem sheetLoop_frame0_exists {σ : Type} (bo : ByteOrder) (sink : TextureSink σ) (s0 : σ)
    (garbage : Nat → SpriteSet) (fileBuffer : List Byte) (paletteMode : Nat)
    (paletteIndex : Byte) (N : Nat) :
    ∀ c ∈ (List.foldl (sheetStep bo sink fileBuffer paletteMode paletteIndex)
        (loopStart s0 garbage N) (List.range N)).calls,
      ∃ c0, frame0 (List.foldl (sheetStep bo sink fileBuffer paletteMode paletteIndex)
        (loopStart s0 garbage N) (List.range N)).calls c.i = some c0 := by
  apply foldl_range_invariant
    (fun _ (s : LoadState σ) => ∀ c ∈ s.calls, ∃ c0, frame0 s.calls c.i = some c0)
  · simp [loopStart]
  · intro n s _ h
    rcases sheetStep_cases bo sink fileBuffer paletteMode paletteIndex s n with
      ⟨_, hs⟩ | ⟨_, _, hs⟩ | ⟨_, sh, _, ⟨f, _, hs⟩ | ⟨c, inputData, _, _, hs⟩⟩
    · rw [hs]; exact h
    · rw [hs]; exact h
    · rw [hs]; exact h
    · rw [hs]
      exact frameLoop_frame0_exists sink paletteMode paletteIndex n sh inputData
        (afterHeader s sh) h

/-! ## Lemmas: the whole run -/

/-- The container header is readable or it is not. -/
theorem header_cases (bo : ByteOrder) (fileBuffer : List Byte) :
    (∃ n m, rd16 bo fileBuffer 0 = some n ∧ rd16 bo fileBuffer 2 = some m) ∨
    (rd16 bo fileBuffer 0 = none ∨ rd16 bo fileBuffer 2 = none) := by
  cases h0 : rd16 bo fileBuffer 0 with
  | none => exact Or.inr (Or.inl rfl)
  | some n =>
    cases h2 : rd16 bo fileBuffer 2 with
    | none => exact Or.inr (Or.inr rfl)
    | some m => exact Or.inl ⟨n, m, rfl, rfl⟩

/-- What every run of the constructor satisfies: the calls are in order, frame 0
of a tileset is on record whenever one of its frames is, every call belongs to
a sheet the cursor has visited, and the table `sprite` is the one the record
determines. -/
theorem TilemapObject_facts {σ : Type} (bo : ByteOrder) (sink : TextureSink σ) (s0 : σ)
    (garbage : Nat → SpriteSet) (fileBuffer : List Byte) (paletteIndex : Byte)
    (keepBuffer : Bool) :
    (TilemapObject bo sink s0 garbage fileBuffer paletteIndex keepBuffer).state.calls.Pairwise
      callBefore ∧
    (∀ c ∈ (TilemapObject bo sink s0 garbage fileBuffer paletteIndex keepBuffer).state.calls,
      ∃ c0, frame0
        (TilemapObject bo sink s0 garbage fileBuffer paletteIndex keepBuffer).state.calls c.i =
        some c0) ∧
    (∀ c ∈ (TilemapObject bo sink s0 garbage fileBuffer paletteIndex keepBuffer).state.calls,
      c.i < (TilemapObject bo sink s0 garbage fileBuffer paletteIndex
        keepBuffer).state.sheets.length) ∧
    (TilemapObject bo sink s0 garbage fileBuffer paletteIndex keepBuffer).state.sheets.length ≤
      (TilemapObject bo sink s0 garbage fileBuffer paletteIndex keepBuffer).state.sprite.length ∧
    (∀ k, k < (TilemapObject bo sink s0 garbage fileBuffer paletteIndex
        keepBuffer).state.sprite.length →
      (TilemapObject bo sink s0 garbage fileBuffer paletteIndex keepBuffer).state.sprite[k]? =
        some (expectedSprite bo fileBuffer garbage
          (TilemapObject bo sink s0 garbage fileBuffer paletteIndex keepBuffer).state.sheets
          (TilemapObject bo sink s0 garbage fileBuffer paletteIndex keepBuffer).state.calls
          k)) := by
  rcases header_cases bo fileBuffer with ⟨n, m, h0, h2⟩ | h
  · rw [TilemapObject_state bo sink s0 garbage fileBuffer paletteIndex keepBuffer h0 h2]
    simp only
    have he := sheetLoop_expected bo sink s0 garbage fileBuffer m paletteIndex n
    refine ⟨sheetLoop_ordered bo sink s0 garbage fileBuffer m paletteIndex n,
      sheetLoop_frame0_exists bo sink s0 garbage fileBuffer m paletteIndex n,
      he.2.2.2.1, ?_, ?_⟩
    · rw [he.1]; exact he.2.1
    · intro k hk
      rw [he.1] at hk
      exact he.2.2.2.2 k hk
  · obtain ⟨hc, hs, hsh, _, _⟩ :=
      TilemapObject_unreadable bo sink s0 garbage fileBuffer paletteIndex keepBuffer h
    rw [hc, hs, hsh]
    simp

/-! ## Lemmas: the cursor -/

theorem sheetOffsets_append (lens : List Nat) :
    ∀ (start len : Nat),
      sheetOffsets start (lens ++ [len]) = sheetOffsets start lens ++ [sheetsEnd start lens] := by
  induction lens with
  | nil => intro start len; rfl
  | cons l ls ih => intro start len; simp [sheetOffsets, sheetsEnd, ih]

theorem sheetsEnd_append (lens : List Nat) :
    ∀ (start len : Nat),
      sheetsEnd start (lens ++ [len]) = sheetsEnd start lens + (12 + len) := by
  induction lens with
  | nil => intro start len; rfl
  | cons l ls ih => intro start len; simp [sheetsEnd, ih]

theorem sheetsEnd_eq_sum (lens : List Nat) :
    ∀ start : Nat, sheetsEnd start lens = start + (lens.map (fun len => 12 + len)).sum := by
  induction lens with
  | nil => intro start; rfl
  | cons l ls ih => intro start; simp [sheetsEnd, ih]; omega

theorem sheetOffsets_getElem? (lens : List Nat) :
    ∀ (start i : Nat), i < lens.length →
      (sheetOffsets start lens)[i]? = some (sheetsEnd start (lens.take i)) := by
  induction lens with
  | nil => intro start i h; simp at h
  | cons l ls ih =>
    intro start i h
    cases i with
    | zero => simp [sheetOffsets, sheetsEnd]
    | succ i =>
      simp only [sheetOffsets, List.getElem?_cons_succ, List.take_succ_cons, sheetsEnd]
      exact ih _ i (by simpa using h)

/-- The cursor walk: the sheet headers are read at the offsets their stored
byte lengths determine, and the cursor stands behind the last sheet visited. -/
theorem sheetLoop_offsets {σ : Type} (bo : ByteOrder) (sink : TextureSink σ) (s0 : σ)
    (garbage : Nat → SpriteSet) (fileBuffer : List Byte) (paletteMode : Nat)
    (paletteIndex : Byte) (N : Nat) :
    (List.foldl (sheetStep bo sink fileBuffer paletteMode paletteIndex)
        (loopStart s0 garbage N) (List.range N)).sheets =
      sheetOffsets 10 ((List.foldl (sheetStep bo sink fileBuffer paletteMode paletteIndex)
        (loopStart s0 garbage N) (List.range N)).sheets.map
          (storedByteLength bo fileBuffer)) ∧
    (List.foldl (sheetStep bo sink fileBuffer paletteMode paletteIndex)
        (loopStart s0 garbage N) (List.range N)).iterator =
      sheetsEnd 10 ((List.foldl (sheetStep bo sink fileBuffer paletteMode paletteIndex)
        (loopStart s0 garbage N) (List.range N)).sheets.map
          (storedByteLength bo fileBuffer)) := by
  apply foldl_range_invariant
    (fun _ (s : LoadState σ) =>
      s.sheets = sheetOffsets 10 (s.sheets.map (storedByteLength bo fileBuffer)) ∧
      s.iterator = sheetsEnd 10 (s.sheets.map (storedByteLength bo fileBuffer)))
  · exact ⟨rfl, rfl⟩
  · intro n s _ ⟨hs1, hs2⟩
    have hafter : ∀ sh, SpriteSheetHeader.read bo fileBuffer s.iterator = some sh →
        (afterHeader s sh).sheets = sheetOffsets 10
          ((afterHeader s sh).sheets.map (storedByteLength bo fileBuffer)) ∧
        (afterHeader s sh).iterator = sheetsEnd 10
          ((afterHeader s sh).sheets.map (storedByteLength bo fileBuffer)) := by
      intro sh hr
      simp only [afterHeader, List.map_append, List.map_cons, List.map_nil,
        sheetOffsets_append, sheetsEnd_append, storedByteLength_eq hr, ← hs1, ← hs2]
      exact ⟨trivial, trivial⟩
    rcases sheetStep_cases bo sink fileBuffer paletteMode paletteIndex s n with
      ⟨_, hs⟩ | ⟨_, _, hs⟩ | ⟨_, sh, hr, ⟨f, _, hs⟩ | ⟨c, inputData, _, _, hs⟩⟩
    · rw [hs]; exact ⟨hs1, hs2⟩
    · rw [hs]; exact ⟨hs1, hs2⟩
    · rw [hs]; exact hafter sh hr
    · rw [hs, frameLoop_sheets, frameLoop_iterator]; exact hafter sh hr

/-! ## Lemmas: the allocator does not steer the run -/

section Rewrite

variable {σ : Type} (bo : ByteOrder) (sink : TextureSink σ) (fileBuffer : List Byte)
  (paletteMode : Nat) (paletteIndex : Byte) (st : LoadState σ) (i : Nat)

theorem sheetStep_stuck {f : Fault} (hf : st.fault = some f) :
    sheetStep bo sink fileBuffer paletteMode paletteIndex st i = st := by
  simp [sheetStep, hf]

theorem sheetStep_noHeader (hf : st.fault = none)
    (hr : SpriteSheetHeader.read bo fileBuffer st.iterator = none) :
    sheetStep bo sink fileBuffer paletteMode paletteIndex st i =
      { st with fault := some (.headerRead (st.iterator + 10)) } := by
  simp [sheetStep, hf, GetAndIterate_SpriteSheetHeader, hr]

theorem sheetStep_noCompression {sh : SpriteSheetHeader} (hf : st.fault = none)
    (hr : SpriteSheetHeader.read bo fileBuffer st.iterator = some sh)
    (hc : rd16 bo fileBuffer 4 = none) :
    sheetStep bo sink fileBuffer paletteMode paletteIndex st i =
      { afterHeader st sh with fault := some (.headerRead 4) } := by
  simp [sheetStep, hf, GetAndIterate_SpriteSheetHeader, hr, hc, afterHeader, LoadSize_eq hr]

theorem sheetStep_error {sh : SpriteSheetHeader} {c : Nat} {f : Fault} (hf : st.fault = none)
    (hr : SpriteSheetHeader.read bo fileBuffer st.iterator = some sh)
    (hc : rd16 bo fileBuffer 4 = some c)
    (hp : prepareInput fileBuffer c i st.iterator sh = .error f) :
    sheetStep bo sink fileBuffer paletteMode paletteIndex st i =
      { afterHeader st sh with fault := some f } := by
  simp [sheetStep, hf, GetAndIterate_SpriteSheetHeader, hr, hc, hp, afterHeader, LoadSize_eq hr]

theorem sheetStep_frames {sh : SpriteSheetHeader} {c : Nat} {inputData : List Byte}
    (hf : st.fault = none)
    (hr : SpriteSheetHeader.read bo fileBuffer st.iterator = some sh)
    (hc : rd16 bo fileBuffer 4 = some c)
    (hp : prepareInput fileBuffer c i st.iterator sh = .ok inputData) :
    sheetStep bo sink fileBuffer paletteMode paletteIndex st i =
      frameLoop sink paletteMode paletteIndex i sh inputData (afterHeader st sh) := by
  simp [sheetStep, hf, GetAndIterate_SpriteSheetHeader, hr, hc, hp, afterHeader, LoadSize_eq hr]

end Rewrite

theorem frameLoop_sameWalk {σ τ : Type} (sink : TextureSink σ) (sink' : TextureSink τ)
    (paletteMode : Nat) (paletteIndex : Byte) (i : Nat) (sh : SpriteSheetHeader)
    (inputData : List Byte) (s : LoadState σ) (t : LoadState τ) (h : sameWalk s t) :
    sameWalk (frameLoop sink paletteMode paletteIndex i sh inputData s)
      (frameLoop sink' paletteMode paletteIndex i sh inputData t) := by
  apply foldl_range_relation (fun _ (s : LoadState σ) (t : LoadState τ) => sameWalk s t)
  · exact h
  · intro j s t _ ⟨h1, h2, h3, h4⟩
    refine ⟨?_, ?_, ?_, ?_⟩
    · rw [frameStep_fault, frameStep_fault]; exact h1
    · rw [frameStep_iterator, frameStep_iterator]; exact h2
    · rw [frameStep_sheets, frameStep_sheets]; exact h3
    · rw [frameStep_calls, frameStep_calls, List.map_append, List.map_append, h4]
      rfl

theorem sheetStep_sameWalk {σ τ : Type} (bo : ByteOrder) (sink : TextureSink σ)
    (sink' : TextureSink τ) (fileBuffer : List Byte) (paletteMode : Nat) (paletteIndex : Byte)
    (i : Nat) (s : LoadState σ) (t : LoadState τ) (h : sameWalk s t) :
    sameWalk (sheetStep bo sink fileBuffer paletteMode paletteIndex s i)
      (sheetStep bo sink' fileBuffer paletteMode paletteIndex t i) := by
  obtain ⟨h1, h2, h3, h4⟩ := h
  cases hf : s.fault with
  | some f =>
    rw [sheetStep_stuck bo sink fileBuffer paletteMode paletteIndex s i hf,
      sheetStep_stuck bo sink' fileBuffer paletteMode paletteIndex t i (h1 ▸ hf)]
    exact ⟨h1, h2, h3, h4⟩
  | none =>
    have hf' : t.fault = none := h1 ▸ hf
    cases hr : SpriteSheetHeader.read bo fileBuffer s.iterator with
    | none =>
      rw [sheetStep_noHeader bo sink fileBuffer paletteMode paletteIndex s i hf hr,
        sheetStep_noHeader bo sink' fileBuffer paletteMode paletteIndex t i hf' (h2 ▸ hr)]
      exact ⟨by simp [h2], h2, h3, h4⟩
    | some sh =>
      have hr' : SpriteSheetHeader.read bo fileBuffer t.iterator = some sh := h2 ▸ hr
      have hafter : ∀ f : Option Fault,
          sameWalk { afterHeader s sh with fault := f } { afterHeader t sh with fault := f } :=
        fun f => ⟨rfl, by simp [afterHeader, h2], by simp [afterHeader, h2, h3], h4⟩
      cases hc : rd16 bo fileBuffer 4 with
      | none =>
        rw [sheetStep_noCompression bo sink fileBuffer paletteMode paletteIndex s i hf hr hc,
          sheetStep_noCompression bo sink' fileBuffer paletteMode paletteIndex t i hf' hr' hc]
        exact hafter _
      | some c =>
        cases hp : prepareInput fileBuffer c i s.iterator sh with
        | error f =>
          rw [sheetStep_error bo sink fileBuffer paletteMode paletteIndex s i hf hr hc hp,
            sheetStep_error bo sink' fileBuffer paletteMode paletteIndex t i hf' hr' hc
              (h2 ▸ hp)]
          exact hafter _
        | ok inputData =>
          rw [sheetStep_frames bo sink fileBuffer paletteMode paletteIndex s i hf hr hc hp,
            sheetStep_frames bo sink' fileBuffer paletteMode paletteIndex t i hf' hr' hc
              (h2 ▸ hp)]
          apply frameLoop_sameWalk
          have := hafter none
          simpa [afterHeader, hf, hf'] using this

/-- Two runs on the same buffer with different allocators fault alike, walk the
buffer alike and make the same requests. -/
theorem TilemapObject_sameWalk {σ τ : Type} (bo : ByteOrder) (sink : TextureSink σ) (s0 : σ)
    (sink' : TextureSink τ) (t0 : τ) (garbage garbage' : Nat → SpriteSet)
    (fileBuffer : List Byte) (paletteIndex : Byte) (keepBuffer : Bool) :
    sameWalk (TilemapObject bo sink s0 garbage fileBuffer paletteIndex keepBuffer).state
      (TilemapObject bo sink' t0 garbage' fileBuffer paletteIndex keepBuffer).state := by
  rcases header_cases bo fileBuffer with ⟨n, m, h0, h2⟩ | h
  · rw [TilemapObject_state bo sink s0 garbage fileBuffer paletteIndex keepBuffer h0 h2,
      TilemapObject_state bo sink' t0 garbage' fileBuffer paletteIndex keepBuffer h0 h2]
    simp only
    apply foldl_range_relation (fun _ (s : LoadState σ) (t : LoadState τ) => sameWalk s t)
    · exact ⟨rfl, rfl, rfl, rfl⟩
    · intro k s t _ hst
      exact sheetStep_sameWalk bo sink sink' fileBuffer m paletteIndex k s t hst
  · simp only [TilemapObject, GetAndIterate_TmsfHeader, Nat.zero_add]
    cases h0 : rd16 bo fileBuffer 0 with
    | none => exact ⟨rfl, rfl, rfl, rfl⟩
    | some n =>
      cases h2 : rd16 bo fileBuffer 2 with
      | none => exact ⟨rfl, rfl, rfl, rfl⟩
      | some m => rcases h with h | h <;> simp [h0, h2] at h

/-! ## Lemmas: how many calls, and in which order -/

theorem frameOrder_append (counts : List Nat) :
    ∀ (i count : Nat), frameOrder i (counts ++ [count]) =
      frameOrder i counts ++ (List.range count).map (fun j => (i + counts.length, j)) := by
  induction counts with
  | nil => intro i count; simp [frameOrder]
  | cons c cs ih =>
    intro i count
    have e : i + 1 + cs.length = i + (cs.length + 1) := by omega
    show (List.range c).map (fun j => (i, j)) ++ frameOrder (i + 1) (cs ++ [count]) = _
    rw [ih, e]
    simp [frameOrder]

theorem frameLoop_calls {σ : Type} (sink : TextureSink σ) (paletteMode : Nat)
    (paletteIndex : Byte) (i : Nat) (sh : SpriteSheetHeader) (inputData : List Byte)
    (st : LoadState σ) :
    (frameLoop sink paletteMode paletteIndex i sh inputData st).calls.map
        (fun c => (c.i, c.j)) =
      st.calls.map (fun c => (c.i, c.j)) ++
        (List.range sh.SpriteCount).map (fun j => (i, j)) := by
  apply frameLoop_invariant sink paletteMode paletteIndex i sh inputData st
    (fun m s => s.calls.map (fun c => (c.i, c.j)) =
      st.calls.map (fun c => (c.i, c.j)) ++ (List.range m).map (fun j => (i, j)))
  · simp
  · intro j s _ h
    rw [frameStep_calls, List.map_append, h, List.range_succ, List.map_append,
      List.append_assoc]
    rfl

/-- The calls on record are exactly the frames `0 .. SpriteCount - 1` of each
sheet that was processed, sheet after sheet; with no fault every sheet was. -/
theorem sheetLoop_calls {σ : Type} (bo : ByteOrder) (sink : TextureSink σ) (s0 : σ)
    (garbage : Nat → SpriteSet) (fileBuffer : List Byte) (paletteMode : Nat)
    (paletteIndex : Byte) (N : Nat) :
    ∃ m, m ≤ (List.foldl (sheetStep bo sink fileBuffer paletteMode paletteIndex)
        (loopStart s0 garbage N) (List.range N)).sheets.length ∧
      ((List.foldl (sheetStep bo sink fileBuffer paletteMode paletteIndex)
        (loopStart s0 garbage N) (List.range N)).fault = none → m = N) ∧
      (List.foldl (sheetStep bo sink fileBuffer paletteMode paletteIndex)
        (loopStart s0 garbage N) (List.range N)).calls.map (fun c => (c.i, c.j)) =
        frameOrder 0 (((List.foldl (sheetStep bo sink fileBuffer paletteMode paletteIndex)
          (loopStart s0 garbage N) (List.range N)).sheets.take m).map
            (spriteCountAt bo fileBuffer)) := by
  have key := foldl_range_invariant
    (fun n (s : LoadState σ) => ∃ m, m ≤ s.sheets.length ∧
      (s.fault = none → m = s.sheets.length ∧ m = n) ∧
      s.calls.map (fun c => (c.i, c.j)) =
        frameOrder 0 ((s.sheets.take m).map (spriteCountAt bo fileBuffer)))
    (sheetStep bo sink fileBuffer paletteMode paletteIndex) (loopStart s0 garbage N) N
    ⟨0, by simp [loopStart, frameOrder]⟩
    (by
      intro n s _ ⟨m, hm, hfl, hc⟩
      have herr : ∀ (sh : SpriteSheetHeader) (f : Fault),
          ∃ m', m' ≤ (afterHeader s sh).sheets.length ∧
            ((some f : Option Fault) = none → m' = (afterHeader s sh).sheets.length ∧
              m' = n + 1) ∧
            s.calls.map (fun c => (c.i, c.j)) =
              frameOrder 0 (((afterHeader s sh).sheets.take m').map
                (spriteCountAt bo fileBuffer)) := by
        intro sh f
        refine ⟨m, by simp [afterHeader]; omega, fun h => by simp at h, ?_⟩
        simp only [afterHeader]
        rw [List.take_append_of_le_length hm]
        exact hc
      cases hf : s.fault with
      | some f =>
        rw [sheetStep_stuck bo sink fileBuffer paletteMode paletteIndex s n hf]
        exact ⟨m, hm, fun h => by simp [hf] at h, hc⟩
      | none =>
        obtain ⟨hml, hmn⟩ := hfl hf
        cases hr : SpriteSheetHeader.read bo fileBuffer s.iterator with
        | none =>
          rw [sheetStep_noHeader bo sink fileBuffer paletteMode paletteIndex s n hf hr]
          exact ⟨m, hm, fun h => by simp at h, hc⟩
        | some sh =>
          cases hc4 : rd16 bo fileBuffer 4 with
          | none =>
            rw [sheetStep_noCompression bo sink fileBuffer paletteMode paletteIndex s n hf hr
              hc4]
            exact herr sh _
          | some c =>
            cases hp : prepareInput fileBuffer c n s.iterator sh with
            | error f =>
              rw [sheetStep_error bo sink fileBuffer paletteMode paletteIndex s n hf hr hc4 hp]
              exact herr sh f
            | ok inputData =>
              rw [sheetStep_frames bo sink fileBuffer paletteMode paletteIndex s n hf hr hc4 hp]
              refine ⟨n + 1, ?_, fun _ => ⟨?_, rfl⟩, ?_⟩
              · rw [frameLoop_sheets]; simp [afterHeader]; omega
              · rw [frameLoop_sheets]; simp [afterHeader]; omega
              · rw [frameLoop_calls, frameLoop_sheets]
                have hlen : (afterHeader s sh).sheets.length = n + 1 := by
                  simp [afterHeader]; omega
                rw [← hlen, List.take_length]
                simp only [afterHeader, List.map_append, List.map_cons, List.map_nil,
                  frameOrder_append, List.length_map, Nat.zero_add]
                rw [hc, show List.take m s.sheets = s.sheets by rw [hml, List.take_length],
                  ← hml, hmn]
                simp [spriteCountAt, hr])
  obtain ⟨m, hm, hfl, hc⟩ := key
  exact ⟨m, hm, fun h => (hfl h).2, hc⟩

/-! ## Lemmas: descriptors and calls -/

theorem sheetLoop_readable {σ : Type} (bo : ByteOrder) (sink : TextureSink σ) (s0 : σ)
    (garbage : Nat → SpriteSet) (fileBuffer : List Byte) (paletteMode : Nat)
    (paletteIndex : Byte) (N : Nat) :
    ∀ ptr ∈ (List.foldl (sheetStep bo sink fileBuffer paletteMode paletteIndex)
        (loopStart s0 garbage N) (List.range N)).sheets,
      ∃ sh, SpriteSheetHeader.read bo fileBuffer ptr = some sh := by
  apply foldl_range_invariant
    (fun _ (s : LoadState σ) => ∀ ptr ∈ s.sheets,
      ∃ sh, SpriteSheetHeader.read bo fileBuffer ptr = some sh)
  · simp [loopStart]
  · intro n s _ h
    have hafter : ∀ sh, SpriteSheetHeader.read bo fileBuffer s.iterator = some sh →
        ∀ ptr ∈ (afterHeader s sh).sheets,
          ∃ sh, SpriteSheetHeader.read bo fileBuffer ptr = some sh := by
      intro sh hr ptr hp
      simp only [afterHeader, List.mem_append, List.mem_singleton] at hp
      rcases hp with hp | hp
      · exact h ptr hp
      · exact ⟨sh, hp ▸ hr⟩
    rcases sheetStep_cases bo sink fileBuffer paletteMode paletteIndex s n with
      ⟨_, hs⟩ | ⟨_, _, hs⟩ | ⟨_, sh, hr, ⟨f, _, hs⟩ | ⟨c, inputData, _, _, hs⟩⟩
    · rw [hs]; exact h
    · rw [hs]; exact h
    · rw [hs]; exact hafter sh hr
    · rw [hs, frameLoop_sheets]; exact hafter sh hr

theorem TilemapObject_readable {σ : Type} (bo : ByteOrder) (sink : TextureSink σ) (s0 : σ)
    (garbage : Nat → SpriteSet) (fileBuffer : List Byte) (paletteIndex : Byte)
    (keepBuffer : Bool) (k : Nat)
    (hk : k < (TilemapObject bo sink s0 garbage fileBuffer paletteIndex
      keepBuffer).state.sheets.length) :
    ∃ sh, sheetHeader bo fileBuffer
      (TilemapObject bo sink s0 garbage fileBuffer paletteIndex keepBuffer).state.sheets k =
        some sh := by
  have hmem : ∀ ptr ∈ (TilemapObject bo sink s0 garbage fileBuffer paletteIndex
      keepBuffer).state.sheets, ∃ sh, SpriteSheetHeader.read bo fileBuffer ptr = some sh := by
    rcases header_cases bo fileBuffer with ⟨n, m, h0, h2⟩ | h
    · rw [TilemapObject_state bo sink s0 garbage fileBuffer paletteIndex keepBuffer h0 h2]
      exact sheetLoop_readable bo sink s0 garbage fileBuffer m paletteIndex n
    · rw [(TilemapObject_unreadable bo sink s0 garbage fileBuffer paletteIndex keepBuffer
        h).2.2.1]
      simp
  have hget : (TilemapObject bo sink s0 garbage fileBuffer paletteIndex
      keepBuffer).state.sheets[k]? = some (TilemapObject bo sink s0 garbage fileBuffer
        paletteIndex keepBuffer).state.sheets[k] := List.getElem?_eq_getElem hk
  simp only [sheetHeader, hget]
  exact hmem _ (List.getElem_mem hk)

theorem TilemapObject_sprite_length {σ : Type} (bo : ByteOrder) (sink : TextureSink σ)
    (s0 : σ) (garbage : Nat → SpriteSet) (fileBuffer : List Byte) (paletteIndex : Byte)
    (keepBuffer : Bool) :
    (TilemapObject bo sink s0 garbage fileBuffer paletteIndex keepBuffer).state.sprite.length =
      numTilesetsOf bo fileBuffer := by
  rcases header_cases bo fileBuffer with ⟨n, m, h0, h2⟩ | h
  · rw [TilemapObject_state bo sink s0 garbage fileBuffer paletteIndex keepBuffer h0 h2]
    simp only [numTilesetsOf, h0, h2]
    exact (sheetLoop_expected bo sink s0 garbage fileBuffer m paletteIndex n).1
  · rw [(TilemapObject_unreadable bo sink s0 garbage fileBuffer paletteIndex keepBuffer
      h).2.1]
    rcases h with h | h
    · simp [numTilesetsOf, h]
    · cases h0 : rd16 bo fileBuffer 0 <;> simp [numTilesetsOf, h, h0]

/-- The descriptor of a tileset whose frame 0 is on record: untouched when the
answer was negative, written from the sheet header and the answer otherwise. -/
theorem TilemapObject_frame0_sprite {σ : Type} (bo : ByteOrder) (sink : TextureSink σ)
    (s0 : σ) (garbage : Nat → SpriteSet) (fileBuffer : List Byte) (paletteIndex : Byte)
    (keepBuffer : Bool) (c : SinkCall)
    (hc : c ∈ (TilemapObject bo sink s0 garbage fileBuffer paletteIndex keepBuffer).state.calls)
    (hj : c.j = 0) :
    ∃ sh, sheetHeader bo fileBuffer
        (TilemapObject bo sink s0 garbage fileBuffer paletteIndex keepBuffer).state.sheets c.i =
          some sh ∧
      (TilemapObject bo sink s0 garbage fileBuffer paletteIndex keepBuffer).state.sprite[c.i]? =
        some (if c.spriteIndex < 0 then garbage c.i else populate sh c.spriteIndex) := by
  obtain ⟨hord, _, hlt, hle, hexp⟩ :=
    TilemapObject_facts bo sink s0 garbage fileBuffer paletteIndex keepBuffer
  obtain ⟨sh, hsh⟩ := TilemapObject_readable bo sink s0 garbage fileBuffer paletteIndex
    keepBuffer c.i (hlt c hc)
  refine ⟨sh, hsh, ?_⟩
  rw [hexp c.i (Nat.lt_of_lt_of_le (hlt c hc) hle),
    expectedSprite_some bo fileBuffer garbage _ (frame0_of_mem hord hc hj) hsh]

theorem expectedSprite_answer (bo : ByteOrder) (fileBuffer : List Byte)
    (garbage : Nat → SpriteSet) (sheets : List Nat) {calls calls' : List SinkCall} {k : Nat}
    (h : (frame0 calls k).map SinkCall.spriteIndex =
      (frame0 calls' k).map SinkCall.spriteIndex) :
    expectedSprite bo fileBuffer garbage sheets calls k =
      expectedSprite bo fileBuffer garbage sheets calls' k := by
  unfold expectedSprite
  cases h1 : frame0 calls k with
  | none =>
    cases h2 : frame0 calls' k with
    | none => rfl
    | some c' => simp [h1, h2] at h
  | some c =>
    cases h2 : frame0 calls' k with
    | none => simp [h1, h2] at h
    | some c' =>
      simp only [h1, h2, Option.map_some', Option.some.injEq] at h
      cases sheetHeader bo fileBuffer sheets k with
      | none => rfl
      | some sh => simp only [h]

/-! ## Lemmas: the decoder on an arbitrary stream -/

theorem pairsOf_spec : ∀ input : List Byte,
    ∃ dangling, dangling.length ≤ 1 ∧ input = flatten (pairsOf input) ++ dangling
  | [] => ⟨[], by simp, rfl⟩
  | [b] => ⟨[b], by simp, rfl⟩
  | r :: v :: rest => by
    obtain ⟨d, hd, h⟩ := pairsOf_spec rest
    refine ⟨d, hd, ?_⟩
    simp only [pairsOf, flatten, List.cons_append]
    rw [← h]

theorem expand_append (ps qs : List (Byte × Byte)) :
    expand (ps ++ qs) = expand ps ++ expand qs := by
  induction ps with
  | nil => rfl
  | cons p ps ih => obtain ⟨r, v⟩ := p; simp [expand, ih]

theorem runSum_append (ps qs : List (Byte × Byte)) :
    runSum (ps ++ qs) = runSum ps + runSum qs := by
  induction ps with
  | nil => simp [runSum]
  | cons p ps ih => obtain ⟨r, v⟩ := p; simp [runSum, ih]; omega

/-- The shape of a call that leaves the loop through its condition, started in
the middle of a stream: `m` further pairs were consumed, `m` is the least
number that brings `out` to `n`, and the last pair overshoots by at most 254. -/
theorem loop_returned (ps : List (Byte × Byte)) :
    ∀ (pre out dangling : List Byte) (n k : Nat) (o : List Byte), dangling.length ≤ 1 →
      RLE_Decompress.loop (pre ++ (flatten ps ++ dangling)) n pre.length out = .returned k o →
      ∃ m, m ≤ ps.length ∧ k = pre.length + 2 * m ∧ o = out ++ expand (ps.take m) ∧
        n ≤ o.length ∧ (∀ m', m' < m → out.length + runSum (ps.take m') < n) ∧
        (0 < m → o.length ≤ n + 254) := by
  induction ps with
  | nil =>
    intro pre out dangling n k o hd h
    by_cases hlt : out.length < n
    · exfalso
      match dangling, hd with
      | [], _ =>
        rw [loop_overrun_run _ _ _ _ hlt (by simp [flatten])] at h
        cases h
      | [b], _ =>
        rw [loop_overrun_value _ _ _ _ hlt (by simp [flatten]) (by simp [flatten])] at h
        cases h
    · rw [loop_exit _ _ _ _ hlt] at h
      injection h with hk ho
      refine ⟨0, Nat.le_refl _, by omega, by simp [expand, ho], by rw [← ho]; omega,
        fun m' hm' => absurd hm' (Nat.not_lt_zero _), fun h0 => absurd h0 (Nat.lt_irrefl 0)⟩
  | cons p ps ih =>
    obtain ⟨r, v⟩ := p
    intro pre out dangling n k o hd h
    by_cases hlt : out.length < n
    · simp only [flatten, List.cons_append] at h
      rw [loop_step_append pre (flatten ps ++ dangling) r v n out hlt] at h
      obtain ⟨m, hm, hk, ho, hn, hmin, hmax⟩ :=
        ih (pre ++ [r, v]) (out ++ List.replicate r.val v) dangling n k o hd h
      have hr := r.isLt
      refine ⟨m + 1, by simp; omega, by simp at hk; omega, ?_, hn, ?_, ?_⟩
      · rw [ho]
        simp [expand]
      · intro m' hm'
        cases m' with
        | zero => simpa [runSum] using hlt
        | succ m' =>
          have := hmin m' (by omega)
          simp only [List.length_append, List.length_replicate] at this
          simp only [List.take_succ_cons, runSum]
          omega
      · intro _
        by_cases hm0 : m = 0
        · subst hm0
          rw [ho]
          simp [expand]
          omega
        · exact hmax (by omega)
    · rw [loop_exit _ _ _ _ hlt] at h
      injection h with hk ho
      refine ⟨0, Nat.zero_le _, by omega, by simp [expand, ho], by rw [← ho]; omega,
        fun m' hm' => absurd hm' (Nat.not_lt_zero _), fun h0 => absurd h0 (Nat.lt_irrefl 0)⟩

/-- A call that runs out of input does so at the index equal to the length of
the input. -/
theorem loop_overrun_index (ps : List (Byte × Byte)) :
    ∀ (pre out dangling : List Byte) (n k : Nat) (o : List Byte), dangling.length ≤ 1 →
      RLE_Decompress.loop (pre ++ (flatten ps ++ dangling)) n pre.length out =
        .inputOverrun k o →
      k = (pre ++ (flatten ps ++ dangling)).length := by
  induction ps with
  | nil =>
    intro pre out dangling n k o hd h
    by_cases hlt : out.length < n
    · match dangling, hd with
      | [], _ =>
        rw [loop_overrun_run _ _ _ _ hlt (by simp [flatten])] at h
        injection h with hk _
        simp [flatten, ← hk]
      | [b], _ =>
        rw [loop_overrun_value _ _ _ _ hlt (by simp [flatten]) (by simp [flatten])] at h
        injection h with hk _
        simp [flatten, ← hk]
    · rw [loop_exit _ _ _ _ hlt] at h
      cases h
  | cons p ps ih =>
    obtain ⟨r, v⟩ := p
    intro pre out dangling n k o hd h
    by_cases hlt : out.length < n
    · simp only [flatten, List.cons_append] at h
      rw [loop_step_append pre (flatten ps ++ dangling) r v n out hlt] at h
      have := ih (pre ++ [r, v]) (out ++ List.replicate r.val v) dangling n k o hd h
      simp only [flatten, List.cons_append]
      simpa using this
    · rw [loop_exit _ _ _ _ hlt] at h
      cases h

/-- The loop on a stream that starts with the pairs `qs`, when `qs` is the
shortest run of pairs that brings `out` to `n`: it consumes exactly `qs`,
whatever follows. -/
theorem loop_reaches (qs : List (Byte × Byte)) :
    ∀ (pre out rest : List Byte) (n : Nat), n ≤ out.length + runSum qs →
      (∀ m', m' < qs.length → out.length + runSum (qs.take m') < n) →
      RLE_Decompress.loop (pre ++ (flatten qs ++ rest)) n pre.length out =
        .returned (pre.length + 2 * qs.length) (out ++ expand qs) := by
  induction qs with
  | nil =>
    intro pre out rest n hn _
    rw [loop_exit _ _ _ _ (by simp [runSum] at hn; omega)]
    simp [expand]
  | cons p qs ih =>
    obtain ⟨r, v⟩ := p
    intro pre out rest n hn hmin
    have hlt : out.length < n := by simpa [runSum] using hmin 0 (by simp)
    simp only [flatten, List.cons_append]
    rw [loop_step_append pre (flatten qs ++ rest) r v n out hlt,
      ih (pre ++ [r, v]) (out ++ List.replicate r.val v) rest n
        (by simp [runSum] at hn ⊢; omega)
        (by
          intro m' hm'
          have := hmin (m' + 1) (by simp; omega)
          simp only [List.take_succ_cons, runSum] at this
          simp only [List.length_append, List.length_replicate]
          omega)]
    simp [expand]
    omega

theorem flatten_take (ps : List (Byte × Byte)) :
    ∀ m : Nat, flatten (ps.take m) = (flatten ps).take (2 * m) := by
  induction ps with
  | nil => intro m; simp [flatten]
  | cons p ps ih =>
    obtain ⟨r, v⟩ := p
    intro m
    cases m with
    | zero => simp [flatten]
    | succ m =>
      rw [show 2 * (m + 1) = 2 * m + 1 + 1 by omega]
      simp only [List.take_succ_cons, flatten, ih]

/-- The whole call on an arbitrary input, when it returns. -/
theorem decompress_returned {input : List Byte} {n k : Nat} {o : List Byte}
    (h : RLE_Decompress input n = .returned k o) :
    ∃ m, m ≤ (pairsOf input).length ∧ k = 2 * m ∧ o = expand ((pairsOf input).take m) ∧
      n ≤ o.length ∧ (∀ m', m' < m → runSum ((pairsOf input).take m') < n) ∧
      (0 < m → o.length ≤ n + 254) := by
  obtain ⟨d, hd, hin⟩ := pairsOf_spec input
  have h' : RLE_Decompress.loop ([] ++ (flatten (pairsOf input) ++ d)) n
      ([] : List Byte).length [] = .returned k o := by
    rw [List.nil_append, ← hin]
    exact h
  obtain ⟨m, hm, hk, ho, hn, hmin, hmax⟩ := loop_returned (pairsOf input) [] [] d n k o hd h'
  refine ⟨m, hm, by simpa using hk, by simpa using ho, hn, ?_, hmax⟩
  intro m' hm'
  simpa using hmin m' hm'

/-- What a returning call has read is all that matters: another input with the
same first `k` bytes gives the same result. -/
theorem decompress_local {input input' : List Byte} {n k : Nat} {o : List Byte}
    (h : RLE_Decompress input n = .returned k o) (hsame : input'.take k = input.take k) :
    RLE_Decompress input' n = .returned k o := by
  obtain ⟨m, hm, hk, ho, hn, hmin, _⟩ := decompress_returned h
  obtain ⟨d, _, hin⟩ := pairsOf_spec input
  have htake : input.take k = flatten ((pairsOf input).take m) := by
    rw [flatten_take, hk]
    conv_lhs => rw [hin]
    rw [List.take_append_of_le_length (by rw [length_flatten]; omega)]
  have hin' : input' = [] ++ (flatten ((pairsOf input).take m) ++ input'.drop k) := by
    rw [List.nil_append, ← htake, ← hsame, List.take_append_drop]
  have hlen : ((pairsOf input).take m).length = m := by
    rw [List.length_take]; omega
  have hr := loop_reaches ((pairsOf input).take m) [] [] (input'.drop k) n
    (by rw [← length_expand, ← ho]; simpa using hn)
    (by
      intro m' hm'
      rw [hlen] at hm'
      rw [List.take_take, Nat.min_eq_left (by omega)]
      simpa using hmin m' hm')
  rw [← hin', hlen] at hr
  simp only [List.length_nil, Nat.zero_add, List.nil_append] at hr
  unfold RLE_Decompress
  rw [hr, hk, ho]

/-! ## The claims about the codec -/

/-- C1: for every list of (run, value) byte pairs whose runs sum to exactly
`outputCapacity`, `RLE_Decompress` on the flattened pair stream with
`decompressedSize = outputCapacity` returns, and what it has written is exactly
the concatenation, in order, of `value` repeated `run` times for each pair. -/
theorem C1_decode_exact_sum (ps : List (Byte × Byte)) (outputCapacity : Nat)
    (h : runSum ps = outputCapacity) :
    ∃ k, RLE_Decompress (flatten ps) outputCapacity = .returned k (expand ps) :=
  decompress_exact ps outputCapacity h

/-- C1, the instance of the specification: input `[3,0x10, 2,0x20]` with
`outputCapacity = 5` yields `[0x10,0x10,0x10,0x20,0x20]`. -/
theorem C1_decode_exact_sum_witness :
    runSum [(3, 0x10), (2, 0x20)] = 5 ∧
      ∃ k, RLE_Decompress [3, 0x10, 2, 0x20] 5 = .returned k [0x10, 0x10, 0x10, 0x20, 0x20] :=
  ⟨rfl, C1_decode_exact_sum [(3, 0x10), (2, 0x20)] 5 rfl⟩

/-- C2: round trip. For every byte buffer `b`, the canonical encoder (whose
pairs all have `1 ≤ run ≤ 255`) followed by `RLE_Decompress` with
`decompressedSize = length b` returns exactly `b`; and for every input `x` and
size `n`, re-encoding what decoding `x` wrote and decoding that again, with the
length of those bytes as size, returns the same bytes. -/
theorem C2_round_trip :
    (∀ b : List Byte,
      (∀ p ∈ canonicalEncode b, 1 ≤ p.1.val ∧ p.1.val ≤ 255) ∧
      ∃ k, RLE_Decompress (flatten (canonicalEncode b)) b.length = .returned k b) ∧
    (∀ (x : List Byte) (n : Nat),
      ∃ k, RLE_Decompress (flatten (canonicalEncode (RLE_Decompress x n).output))
          (RLE_Decompress x n).output.length = .returned k (RLE_Decompress x n).output) :=
  ⟨fun b => ⟨canonicalEncode_run_pos b, decompress_canonicalEncode b⟩,
   fun x n => decompress_canonicalEncode (RLE_Decompress x n).output⟩

/-- C3, the code at the failing input: on the single pair `(3, 0x10)` with
`decompressedSize = 2` the loop condition is tested once, before the pair, and
the inner loop writes all three bytes: `output[2]` is written although the
capacity is 2. -/
theorem C3_final_run_not_clipped :
    RLE_Decompress [3, 0x10] 2 = .returned 2 [0x10, 0x10, 0x10] ∧
      2 < (RLE_Decompress [3, 0x10] 2).output.length := by
  have h : RLE_Decompress [3, 0x10] 2 = .returned 2 [0x10, 0x10, 0x10] := by
    have h1 := loop_step_append [] [] 3 0x10 2 [] (by decide)
    have h2 := loop_exit ([] ++ [3, 0x10] ++ []) 2 2 [0x10, 0x10, 0x10] (by decide)
    simpa [RLE_Decompress, List.replicate] using h1.trans h2
  rw [h]
  exact ⟨rfl, by decide⟩

/-- C4, counterexample: the input `[2,0x10, 7]` (one pair and a dangling byte,
runs summing to 2) with `outputCapacity = 5` does not end in an error: after
writing two bytes the code reads the run `7` at index 2 and then dereferences
`input[3]`, one past the last byte of the input. -/
theorem C4_no_error_on_short_stream :
    runSum [(2, 0x10)] < 5 ∧
      RLE_Decompress (flatten [(2, 0x10)] ++ [7]) 5 = .inputOverrun 3 [0x10, 0x10] := by
  refine ⟨by decide, ?_⟩
  have h := loop_short [(2, 0x10)] [] [] [7] 5 (by decide) (by decide)
  simpa [RLE_Decompress, expand, flatten, List.replicate] using h

/-- C4 as amended: for every pair stream whose runs sum to less than
`outputCapacity`, with or without a dangling odd byte, the decoder writes the
expansion of the complete pairs and then dereferences the input at the index
equal to the input's length (the first byte past its end); the loop never
leaves through its condition and nothing signals an error. -/
theorem C4_short_stream_reads_past_end (ps : List (Byte × Byte)) (dangling : List Byte)
    (outputCapacity : Nat) (h : runSum ps < outputCapacity) (hd : dangling.length ≤ 1) :
    RLE_Decompress (flatten ps ++ dangling) outputCapacity =
      .inputOverrun (flatten ps ++ dangling).length (expand ps) := by
  have h := loop_short ps [] [] dangling outputCapacity (by simpa using h) hd
  simpa [RLE_Decompress, length_flatten] using h

/-- C4 as amended, at the stream `[1,0xAA, 0,0xBB]` followed by the dangling
byte `9`, with `outputCapacity = 4`. -/
theorem C4_short_stream_reads_past_end_witness :
    runSum [(1, 0xAA), (0, 0xBB)] < 4 ∧ [(9 : Byte)].length ≤ 1 ∧
      RLE_Decompress (flatten [(1, 0xAA), (0, 0xBB)] ++ [9]) 4 =
        .inputOverrun (flatten [(1, 0xAA), (0, 0xBB)] ++ [9]).length
          (expand [(1, 0xAA), (0, 0xBB)]) :=
  ⟨by decide, by decide,
    C4_short_stream_reads_past_end [(1, 0xAA), (0, 0xBB)] [9] 4 (by decide) (by decide)⟩

/-! ## The claims about the loader -/

set_option maxRecDepth 8192 in
/-- C5: `GetAndIterate<TmsfHeader>` moves the cursor by 10 bytes;
`GetAndIterate<SpriteSheetHeader>` moves it by exactly `12 + TotalBytes` bytes
whatever `TotalBytes` is; so in every run the header of the `i`-th sheet visited
is read at offset `10 + sum over k < i of (12 + L k)`, where `L k` is the stored
byte length of the `k`-th sheet; and in the synthetic two-sheet buffer whose
first sheet has stored byte length 100 the second header is read 112 bytes after
the first. -/
theorem C5_cursor_advance {σ : Type} (bo : ByteOrder) (sink : TextureSink σ) (s0 : σ)
    (garbage : Nat → SpriteSet) (fileBuffer : List Byte) (paletteIndex : Byte)
    (keepBuffer : Bool) (iterator : Nat) :
    GetAndIterate_TmsfHeader iterator 1 = (iterator, iterator + 10) ∧
    GetAndIterate_SpriteSheetHeader bo fileBuffer iterator 1 =
      (SpriteSheetHeader.read bo fileBuffer iterator).map
        (fun sh => (iterator, iterator + (12 + sh.TotalBytes))) ∧
    (TilemapObject bo sink s0 garbage fileBuffer paletteIndex keepBuffer).state.sheets =
      (List.range (TilemapObject bo sink s0 garbage fileBuffer paletteIndex keepBuffer).state.sheets.length).map
        (fun i => 10 + (((TilemapObject bo sink s0 garbage fileBuffer paletteIndex keepBuffer).state.sheets.take i).map
          (fun ptr => 12 + storedByteLength bo fileBuffer ptr)).sum) ∧
    (TilemapObject .big countingSink 0 staleSprite twoSheets 0 false).state.sheets =
      [10, 10 + 112] := by
  refine ⟨rfl, ?_, ?_, by decide⟩
  · cases hr : SpriteSheetHeader.read bo fileBuffer iterator with
    | none => simp [GetAndIterate_SpriteSheetHeader, hr]
    | some sh => simp [GetAndIterate_SpriteSheetHeader, hr, LoadSize_eq hr]
  · have hoff : (TilemapObject bo sink s0 garbage fileBuffer paletteIndex keepBuffer).state.sheets = sheetOffsets 10
        ((TilemapObject bo sink s0 garbage fileBuffer paletteIndex keepBuffer).state.sheets.map (storedByteLength bo fileBuffer)) := by
      rcases header_cases bo fileBuffer with ⟨n, m, h0, h2⟩ | h
      · rw [TilemapObject_state bo sink s0 garbage fileBuffer paletteIndex keepBuffer h0 h2]
        exact (sheetLoop_offsets bo sink s0 garbage fileBuffer m paletteIndex n).1
      · rw [(TilemapObject_unreadable bo sink s0 garbage fileBuffer paletteIndex keepBuffer
          h).2.2.1]
        rfl
    apply List.ext_getElem?
    intro i
    by_cases hi : i < (TilemapObject bo sink s0 garbage fileBuffer paletteIndex keepBuffer).state.sheets.length
    · rw [List.getElem?_map, List.getElem?_range hi, Option.map_some']
      conv_lhs => rw [hoff]
      rw [sheetOffsets_getElem? _ _ _ (by simpa using hi), sheetsEnd_eq_sum, ← List.map_take,
        List.map_map]
      rfl
    · rw [List.getElem?_eq_none (by omega), List.getElem?_eq_none (by simp; omega)]

/-- C6: when the buffer holds a container header (10 bytes) whose `NumTilesets`
is 0, the constructor runs to its end without leaving defined behaviour, the
array `sprite` is empty, no call of the allocator is made, and `asset` copies
the count 0 and the palette mode of the header. -/
theorem C6_no_tilesets {σ : Type} (bo : ByteOrder) (sink : TextureSink σ) (s0 : σ)
    (garbage : Nat → SpriteSet) (fileBuffer : List Byte) (paletteIndex : Byte)
    (keepBuffer : Bool) (hlen : sizeof_TmsfHeader ≤ fileBuffer.length)
    (h0 : rd16 bo fileBuffer 0 = some 0) :
    (TilemapObject bo sink s0 garbage fileBuffer paletteIndex keepBuffer).state.fault = none ∧ (TilemapObject bo sink s0 garbage fileBuffer paletteIndex keepBuffer).state.sprite = [] ∧ (TilemapObject bo sink s0 garbage fileBuffer paletteIndex keepBuffer).state.calls = [] ∧
    (TilemapObject bo sink s0 garbage fileBuffer paletteIndex keepBuffer).state.sink = s0 ∧
    ∃ paletteMode, rd16 bo fileBuffer 2 = some paletteMode ∧
      (TilemapObject bo sink s0 garbage fileBuffer paletteIndex keepBuffer).asset = some { NumTilesets := 0, PaletteMode := paletteMode } := by
  have h2 : ∃ m, rd16 bo fileBuffer 2 = some m := by
    unfold sizeof_TmsfHeader at hlen
    unfold rd16
    rw [dif_pos (by omega)]
    exact ⟨_, rfl⟩
  obtain ⟨m, h2⟩ := h2
  rw [TilemapObject_state bo sink s0 garbage fileBuffer paletteIndex keepBuffer h0 h2]
  exact ⟨rfl, rfl, rfl, rfl, m, h2, rfl⟩

/-- C6 at the buffer `emptyPack`: a header with count 0, palette mode 3,
compression flag 1, followed by three stray bytes. -/
theorem C6_no_tilesets_witness :
    sizeof_TmsfHeader ≤ emptyPack.length ∧ rd16 .big emptyPack 0 = some 0 ∧
    (TilemapObject .big countingSink 0 staleSprite emptyPack 5 false).state.fault = none ∧
    (TilemapObject .big countingSink 0 staleSprite emptyPack 5 false).state.sprite = [] ∧
    (TilemapObject .big countingSink 0 staleSprite emptyPack 5 false).state.calls = [] ∧
    (TilemapObject .big countingSink 0 staleSprite emptyPack 5 false).state.sink = 0 ∧
    ∃ paletteMode, rd16 .big emptyPack 2 = some paletteMode ∧
      (TilemapObject .big countingSink 0 staleSprite emptyPack 5 false).asset =
        some { NumTilesets := 0, PaletteMode := paletteMode } :=
  ⟨by decide, by decide,
    C6_no_tilesets .big countingSink 0 staleSprite emptyPack 5 false (by decide) (by decide)⟩

/-- C7: for every tileset whose frame 0 call returned a non-negative handle `h`,
the final descriptor of that tileset has `SpriteIndex = h`, `Frame = h` and the
cell width, cell height, columns, rows and frames of the sheet header, whatever
the later frames of the tileset returned; hence when every call of the run
succeeded and the handles are pairwise distinct, the descriptors of two
different tilesets with a frame 0 carry distinct non-negative handles. -/
theorem C7_frame0_populates {σ : Type} (bo : ByteOrder) (sink : TextureSink σ) (s0 : σ)
    (garbage : Nat → SpriteSet) (fileBuffer : List Byte) (paletteIndex : Byte)
    (keepBuffer : Bool) :
    (∀ c ∈ (TilemapObject bo sink s0 garbage fileBuffer paletteIndex keepBuffer).state.calls, c.j = 0 → 0 ≤ c.spriteIndex →
      ∃ sh d, sheetHeader bo fileBuffer (TilemapObject bo sink s0 garbage fileBuffer paletteIndex keepBuffer).state.sheets c.i = some sh ∧
        (TilemapObject bo sink s0 garbage fileBuffer paletteIndex keepBuffer).state.sprite[c.i]? = some d ∧
        d.SpriteIndex = c.spriteIndex ∧ (d.Frame : Int) = c.spriteIndex ∧
        d.CellWidth = sh.CellWidth ∧ d.CellHeight = sh.CellHeight ∧
        d.Cols = sh.Cols ∧ d.Rows = sh.Rows ∧ d.MaxFrames = sh.Frames) ∧
    ((∀ c ∈ (TilemapObject bo sink s0 garbage fileBuffer paletteIndex keepBuffer).state.calls, 0 ≤ c.spriteIndex) →
      ((TilemapObject bo sink s0 garbage fileBuffer paletteIndex keepBuffer).state.calls.map SinkCall.spriteIndex).Nodup →
      ∀ c1 ∈ (TilemapObject bo sink s0 garbage fileBuffer paletteIndex keepBuffer).state.calls, ∀ c2 ∈ (TilemapObject bo sink s0 garbage fileBuffer paletteIndex keepBuffer).state.calls, c1.j = 0 → c2.j = 0 → c1.i ≠ c2.i →
        ∃ d1 d2, (TilemapObject bo sink s0 garbage fileBuffer paletteIndex keepBuffer).state.sprite[c1.i]? = some d1 ∧ (TilemapObject bo sink s0 garbage fileBuffer paletteIndex keepBuffer).state.sprite[c2.i]? = some d2 ∧
          0 ≤ d1.SpriteIndex ∧ 0 ≤ d2.SpriteIndex ∧ d1.SpriteIndex ≠ d2.SpriteIndex) := by
  have part1 : ∀ c ∈ (TilemapObject bo sink s0 garbage fileBuffer paletteIndex keepBuffer).state.calls, c.j = 0 → 0 ≤ c.spriteIndex →
      ∃ sh, sheetHeader bo fileBuffer (TilemapObject bo sink s0 garbage fileBuffer paletteIndex keepBuffer).state.sheets c.i = some sh ∧
        (TilemapObject bo sink s0 garbage fileBuffer paletteIndex keepBuffer).state.sprite[c.i]? = some (populate sh c.spriteIndex) := by
    intro c hc hj hh
    obtain ⟨sh, hsh, hd⟩ := TilemapObject_frame0_sprite bo sink s0 garbage fileBuffer
      paletteIndex keepBuffer c hc hj
    rw [if_neg (by omega)] at hd
    exact ⟨sh, hsh, hd⟩
  refine ⟨?_, ?_⟩
  · intro c hc hj hh
    obtain ⟨sh, hsh, hd⟩ := part1 c hc hj hh
    exact ⟨sh, populate sh c.spriteIndex, hsh, hd, rfl, Int.toNat_of_nonneg hh,
      rfl, rfl, rfl, rfl, rfl⟩
  · intro hall hnd c1 hc1 c2 hc2 hj1 hj2 hne
    obtain ⟨sh1, _, hd1⟩ := part1 c1 hc1 hj1 (hall c1 hc1)
    obtain ⟨sh2, _, hd2⟩ := part1 c2 hc2 hj2 (hall c2 hc2)
    refine ⟨_, _, hd1, hd2, hall c1 hc1, hall c2 hc2, ?_⟩
    intro heq
    exact hne (congrArg SinkCall.i (List.inj_on_of_nodup_map hnd hc1 hc2 heq))

/-- C7 at the two-tileset buffer `demoBuffer` with the allocator that hands out
0, 1, 2: frame 0 of tileset 1 is the third call and gets handle 2. -/
theorem C7_frame0_populates_witness :
    ∃ sh d,
      sheetHeader .big demoBuffer
        (TilemapObject .big countingSink 0 staleSprite demoBuffer 5 false).state.sheets 1 =
          some sh ∧
      (TilemapObject .big countingSink 0 staleSprite demoBuffer 5 false).state.sprite[1]? =
        some d ∧
      d.SpriteIndex = 2 ∧ (d.Frame : Int) = 2 ∧
      d.CellWidth = sh.CellWidth ∧ d.CellHeight = sh.CellHeight ∧
      d.Cols = sh.Cols ∧ d.Rows = sh.Rows ∧ d.MaxFrames = sh.Frames :=
  (C7_frame0_populates .big countingSink 0 staleSprite demoBuffer 5 false).1
    { i := 1, j := 0, frameOffset := 0,
      submission := { width := 1, height := 1, colorMode := 3, paletteIndex := 5,
                      pixels := [0x30] },
      spriteIndex := 2 }
    (by decide) rfl (by decide)

/-- C8, counterexample: on `demoBuffer` with the allocator that refuses its
first call, frame 0 of tileset 0 is refused, and after the load descriptor 0
holds what the array held before, here a record with the non-negative handle 7;
no sentinel has been stored. -/
theorem C8_no_sentinel_stored :
    (TilemapObject .big refuseFirstSink 0 staleSprite demoBuffer 5 false).state.calls.map
        (fun c => (c.i, c.j, c.spriteIndex)) = [(0, 0, -1), (0, 1, 1), (1, 0, 2)] ∧
    (TilemapObject .big refuseFirstSink 0 staleSprite demoBuffer 5 false).state.sprite[0]? =
      some (staleSprite 0) ∧
    (staleSprite 0).SpriteIndex = 7 ∧ (0 : Int) ≤ (staleSprite 0).SpriteIndex := by
  decide

/-- C8 as amended: if the allocator refuses frame 0 of tileset `i`, the loader
never writes descriptor `i`, which keeps what the freshly allocated array held
(no sentinel is stored); and the rest of the run does not depend on that answer:
a run on the same buffer with any other allocator faults alike, visits the same
sheets and makes the same requests, and the descriptor of every tileset whose
frame 0 gets the same answer in both runs is the same. -/
theorem C8_refused_frame0_untouched {σ τ : Type} (bo : ByteOrder) (sink : TextureSink σ)
    (s0 : σ) (sink' : TextureSink τ) (t0 : τ) (garbage : Nat → SpriteSet)
    (fileBuffer : List Byte) (paletteIndex : Byte) (keepBuffer : Bool) :
    (∀ c ∈ (TilemapObject bo sink s0 garbage fileBuffer paletteIndex keepBuffer).state.calls, c.j = 0 → c.spriteIndex < 0 →
      (TilemapObject bo sink s0 garbage fileBuffer paletteIndex keepBuffer).state.sprite[c.i]? = some (garbage c.i)) ∧
    ((TilemapObject bo sink s0 garbage fileBuffer paletteIndex keepBuffer).state.fault = (TilemapObject bo sink' t0 garbage fileBuffer paletteIndex keepBuffer).state.fault ∧ (TilemapObject bo sink s0 garbage fileBuffer paletteIndex keepBuffer).state.sheets = (TilemapObject bo sink' t0 garbage fileBuffer paletteIndex keepBuffer).state.sheets ∧
      (TilemapObject bo sink s0 garbage fileBuffer paletteIndex keepBuffer).state.calls.map SinkCall.request = (TilemapObject bo sink' t0 garbage fileBuffer paletteIndex keepBuffer).state.calls.map SinkCall.request) ∧
    (∀ k, (frame0 (TilemapObject bo sink s0 garbage fileBuffer paletteIndex keepBuffer).state.calls k).map SinkCall.spriteIndex =
        (frame0 (TilemapObject bo sink' t0 garbage fileBuffer paletteIndex keepBuffer).state.calls k).map SinkCall.spriteIndex →
      (TilemapObject bo sink s0 garbage fileBuffer paletteIndex keepBuffer).state.sprite[k]? = (TilemapObject bo sink' t0 garbage fileBuffer paletteIndex keepBuffer).state.sprite[k]?) := by
  obtain ⟨hf, _, hsh, hreq⟩ := TilemapObject_sameWalk bo sink s0 sink' t0 garbage garbage
    fileBuffer paletteIndex keepBuffer
  refine ⟨?_, ⟨hf, hsh, hreq⟩, ?_⟩
  · intro c hc hj hneg
    obtain ⟨sh, _, hd⟩ := TilemapObject_frame0_sprite bo sink s0 garbage fileBuffer
      paletteIndex keepBuffer c hc hj
    rw [if_pos hneg] at hd
    exact hd
  · intro k hk
    have hl := TilemapObject_sprite_length bo sink s0 garbage fileBuffer paletteIndex keepBuffer
    have hl' := TilemapObject_sprite_length bo sink' t0 garbage fileBuffer paletteIndex
      keepBuffer
    by_cases hlt : k < numTilesetsOf bo fileBuffer
    · rw [(TilemapObject_facts bo sink s0 garbage fileBuffer paletteIndex keepBuffer).2.2.2.2 k
          (hl ▸ hlt),
        (TilemapObject_facts bo sink' t0 garbage fileBuffer paletteIndex keepBuffer).2.2.2.2 k
          (hl' ▸ hlt), hsh, expectedSprite_answer bo fileBuffer garbage _ hk]
    · rw [List.getElem?_eq_none (by omega), List.getElem?_eq_none (by omega)]

/-- C8 as amended, on `demoBuffer` with the allocator that refuses its first
call: descriptor 0 is the stale record. -/
theorem C8_refused_frame0_untouched_witness :
    (TilemapObject .big refuseFirstSink 0 staleSprite demoBuffer 5 false).state.sprite[0]? =
      some (staleSprite 0) :=
  (C8_refused_frame0_untouched .big refuseFirstSink 0 countingSink 0 staleSprite demoBuffer 5
    false).1
    { i := 0, j := 0, frameOffset := 0,
      submission := { width := 2, height := 1, colorMode := 3, paletteIndex := 5,
                      pixels := [0x10, 0x11] },
      spriteIndex := -1 }
    (by decide) rfl (by decide)

/-- C9: a refusal is not fatal. Two runs on the same buffer with arbitrary
allocators leave defined behaviour at the same point or not at all, and make
the same sequence of requests (tileset, frame, frame offset, width, height,
colour mode, palette index, pixels); in every run the requests are the frames
`0 .. SpriteCount - 1` of the first `m` sheets in file order, frames ascending,
and when the run ends without fault `m` is the number of tilesets. -/
theorem C9_refusal_not_fatal {σ τ : Type} (bo : ByteOrder) (sink : TextureSink σ)
    (s0 : σ) (sink' : TextureSink τ) (t0 : τ) (garbage : Nat → SpriteSet)
    (fileBuffer : List Byte) (paletteIndex : Byte) (keepBuffer : Bool) :
    ((TilemapObject bo sink s0 garbage fileBuffer paletteIndex keepBuffer).state.fault = (TilemapObject bo sink' t0 garbage fileBuffer paletteIndex keepBuffer).state.fault ∧
      (TilemapObject bo sink s0 garbage fileBuffer paletteIndex keepBuffer).state.calls.map SinkCall.request = (TilemapObject bo sink' t0 garbage fileBuffer paletteIndex keepBuffer).state.calls.map SinkCall.request) ∧
    ∃ m, m ≤ (TilemapObject bo sink s0 garbage fileBuffer paletteIndex keepBuffer).state.sheets.length ∧
      (TilemapObject bo sink s0 garbage fileBuffer paletteIndex keepBuffer).state.calls.map (fun c => (c.i, c.j)) =
        frameOrder 0 (((TilemapObject bo sink s0 garbage fileBuffer paletteIndex keepBuffer).state.sheets.take m).map (spriteCountAt bo fileBuffer)) ∧
      ((TilemapObject bo sink s0 garbage fileBuffer paletteIndex keepBuffer).state.fault = none → m = numTilesetsOf bo fileBuffer) := by
  obtain ⟨hf, _, _, hreq⟩ := TilemapObject_sameWalk bo sink s0 sink' t0 garbage garbage
    fileBuffer paletteIndex keepBuffer
  refine ⟨⟨hf, hreq⟩, ?_⟩
  rcases header_cases bo fileBuffer with ⟨n, m, h0, h2⟩ | h
  · rw [TilemapObject_state bo sink s0 garbage fileBuffer paletteIndex keepBuffer h0 h2]
    obtain ⟨k, hk, hfl, hc⟩ := sheetLoop_calls bo sink s0 garbage fileBuffer m paletteIndex n
    exact ⟨k, hk, hc, fun h => by simp only [numTilesetsOf, h0, h2]; exact hfl h⟩
  · obtain ⟨hc, _, hsh, hfault, _⟩ :=
      TilemapObject_unreadable bo sink s0 garbage fileBuffer paletteIndex keepBuffer h
    exact ⟨0, Nat.zero_le _, by rw [hc]; rfl, fun h => absurd h hfault⟩

/-- C9 on `demoBuffer`: the allocator that refuses its first call is asked for
the same three frames as the one that always succeeds, and the run ends without
fault. -/
theorem C9_refusal_not_fatal_witness :
    (TilemapObject .big refuseFirstSink 0 staleSprite demoBuffer 5 false).state.fault = none ∧
    (TilemapObject .big refuseFirstSink 0 staleSprite demoBuffer 5 false).state.calls.map
        SinkCall.request =
      (TilemapObject .big countingSink 0 staleSprite demoBuffer 5 false).state.calls.map
        SinkCall.request ∧
    (TilemapObject .big refuseFirstSink 0 staleSprite demoBuffer 5 false).state.calls.map
        (fun c => (c.i, c.j)) = [(0, 0), (0, 1), (1, 0)] :=
  ⟨by decide,
    (C9_refusal_not_fatal .big refuseFirstSink 0 countingSink 0 staleSprite demoBuffer 5
      false).1.2,
    by decide⟩

/-- C10, counterexample: on `demoBuffer` with the allocator that refuses its
first call, frame 0 of tileset 0 is refused and frame 1 gets handle 1, the
first successful frame of that tileset; the descriptor's `SpriteIndex` after the
load is the stale 7, not 1. -/
theorem C10_later_frame_not_recorded :
    (TilemapObject .big refuseFirstSink 0 staleSprite demoBuffer 5 false).state.calls.map
        (fun c => (c.i, c.j, c.spriteIndex)) = [(0, 0, -1), (0, 1, 1), (1, 0, 2)] ∧
    ((TilemapObject .big refuseFirstSink 0 staleSprite demoBuffer 5 false).state.sprite[0]?).map
        SpriteSet.SpriteIndex = some 7 ∧
    ((TilemapObject .big refuseFirstSink 0 staleSprite demoBuffer 5 false).state.sprite[0]?).map
        SpriteSet.SpriteIndex ≠ some 1 := by
  decide

/-- C10 as amended: the descriptor takes its handle from frame 0 only. For the
first successfully allocated frame of a tileset (every earlier frame of the
tileset was refused): if it is frame 0, the descriptor's `SpriteIndex` after the
load is its handle; if it is a later frame, the descriptor was never written and
holds what the array held before. -/
theorem C10_base_handle_from_frame0 {σ : Type} (bo : ByteOrder) (sink : TextureSink σ)
    (s0 : σ) (garbage : Nat → SpriteSet) (fileBuffer : List Byte) (paletteIndex : Byte)
    (keepBuffer : Bool) (c : SinkCall) (hc : c ∈ (TilemapObject bo sink s0 garbage fileBuffer paletteIndex keepBuffer).state.calls) (hh : 0 ≤ c.spriteIndex)
    (hfirst : ∀ c' ∈ (TilemapObject bo sink s0 garbage fileBuffer paletteIndex keepBuffer).state.calls, c'.i = c.i → c'.j < c.j → c'.spriteIndex < 0) :
    (c.j = 0 → ∃ d, (TilemapObject bo sink s0 garbage fileBuffer paletteIndex keepBuffer).state.sprite[c.i]? = some d ∧ d.SpriteIndex = c.spriteIndex) ∧
    (0 < c.j → (TilemapObject bo sink s0 garbage fileBuffer paletteIndex keepBuffer).state.sprite[c.i]? = some (garbage c.i)) := by
  refine ⟨?_, ?_⟩
  · intro hj
    obtain ⟨sh, _, hd⟩ := TilemapObject_frame0_sprite bo sink s0 garbage fileBuffer
      paletteIndex keepBuffer c hc hj
    rw [if_neg (by omega)] at hd
    exact ⟨_, hd, rfl⟩
  · intro hj
    obtain ⟨c0, h0⟩ := (TilemapObject_facts bo sink s0 garbage fileBuffer paletteIndex
      keepBuffer).2.1 c hc
    obtain ⟨hc0, hi0, hj0⟩ := frame0_spec h0
    obtain ⟨sh, _, hd⟩ := TilemapObject_frame0_sprite bo sink s0 garbage fileBuffer
      paletteIndex keepBuffer c0 hc0 hj0
    rw [if_pos (hfirst c0 hc0 hi0 (by omega)), hi0] at hd
    exact hd

/-- C10 as amended, on `demoBuffer` with the allocator that refuses its first
call, at frame 1 of tileset 0 (handle 1). -/
theorem C10_base_handle_from_frame0_witness :
    (TilemapObject .big refuseFirstSink 0 staleSprite demoBuffer 5 false).state.sprite[0]? =
      some (staleSprite 0) :=
  (C10_base_handle_from_frame0 .big refuseFirstSink 0 staleSprite demoBuffer 5 false
    { i := 0, j := 1, frameOffset := 2,
      submission := { width := 2, height := 1, colorMode := 3, paletteIndex := 5,
                      pixels := [0x12, 0x13] },
      spriteIndex := 1 }
    (by decide) (by decide) (by decide)).2 (by decide)

/-! ## Lemmas: which reads stay inside the buffer -/

theorem rd16_eq_none_iff (bo : ByteOrder) (fileBuffer : List Byte) (pos : Nat) :
    rd16 bo fileBuffer pos = none ↔ fileBuffer.length ≤ pos + 1 := by
  unfold rd16
  split
  · simp; omega
  · simp; omega

theorem rd16_of_lt (bo : ByteOrder) (fileBuffer : List Byte) (pos : Nat)
    (h : pos + 1 < fileBuffer.length) : ∃ v, rd16 bo fileBuffer pos = some v := by
  unfold rd16
  rw [dif_pos h]
  exact ⟨_, rfl⟩

theorem read_of_le (bo : ByteOrder) (fileBuffer : List Byte) (ptr : Nat)
    (h : ptr + 12 ≤ fileBuffer.length) :
    ∃ sh, SpriteSheetHeader.read bo fileBuffer ptr = some sh := by
  obtain ⟨t, ht⟩ := rd16_of_lt bo fileBuffer (ptr + 10) (by omega)
  obtain ⟨w, hw⟩ := rd16_of_lt bo fileBuffer ptr (by omega)
  obtain ⟨hh, hhh⟩ := rd16_of_lt bo fileBuffer (ptr + 2) (by omega)
  obtain ⟨c, hc⟩ := rd16_of_lt bo fileBuffer (ptr + 4) (by omega)
  obtain ⟨r, hr⟩ := rd16_of_lt bo fileBuffer (ptr + 6) (by omega)
  obtain ⟨f, hf⟩ := rd16_of_lt bo fileBuffer (ptr + 8) (by omega)
  simp only [SpriteSheetHeader.read, ht, hw, hhh, hc, hr, hf]
  exact ⟨_, rfl⟩

theorem read_some_le {bo : ByteOrder} {fileBuffer : List Byte} {ptr : Nat}
    {sh : SpriteSheetHeader} (h : SpriteSheetHeader.read bo fileBuffer ptr = some sh) :
    ptr + 12 ≤ fileBuffer.length := by
  have := rd16_isSome (read_fields h).2.2.2.2.2
  omega

theorem read_eq_none_iff (bo : ByteOrder) (fileBuffer : List Byte) (ptr : Nat) :
    SpriteSheetHeader.read bo fileBuffer ptr = none ↔ fileBuffer.length < ptr + 12 := by
  constructor
  · intro h
    by_contra hlt
    obtain ⟨sh, hsh⟩ := read_of_le bo fileBuffer ptr (by omega)
    rw [h] at hsh
    cases hsh
  · intro h
    cases hr : SpriteSheetHeader.read bo fileBuffer ptr with
    | none => rfl
    | some sh =>
      have := read_some_le hr
      omega

/-! ## Lemmas: where the calls come from -/

theorem callFrom_append {bo : ByteOrder} {fileBuffer : List Byte} {paletteMode : Nat}
    {paletteIndex : Byte} {sheets : List Nat} {c : SinkCall} (ptr' : Nat)
    (h : callFrom bo fileBuffer paletteMode paletteIndex sheets c) :
    callFrom bo fileBuffer paletteMode paletteIndex (sheets ++ [ptr']) c := by
  obtain ⟨ptr, sh, comp, inputData, hs, rest⟩ := h
  refine ⟨ptr, sh, comp, inputData, ?_, rest⟩
  have hlt : c.i < sheets.length := by
    by_contra hge
    rw [List.getElem?_eq_none (by omega)] at hs
    cases hs
  rw [List.getElem?_append_left hlt]
  exact hs

theorem sheetLoop_provenance {σ : Type} (bo : ByteOrder) (sink : TextureSink σ) (s0 : σ)
    (garbage : Nat → SpriteSet) (fileBuffer : List Byte) (paletteMode : Nat)
    (paletteIndex : Byte) (N : Nat) :
    ∀ c ∈ (List.foldl (sheetStep bo sink fileBuffer paletteMode paletteIndex)
        (loopStart s0 garbage N) (List.range N)).calls,
      callFrom bo fileBuffer paletteMode paletteIndex
        (List.foldl (sheetStep bo sink fileBuffer paletteMode paletteIndex)
          (loopStart s0 garbage N) (List.range N)).sheets c := by
  have key := foldl_range_invariant
    (fun n (s : LoadState σ) => (s.fault = none → s.sheets.length = n) ∧
      ∀ c ∈ s.calls, callFrom bo fileBuffer paletteMode paletteIndex s.sheets c)
    (sheetStep bo sink fileBuffer paletteMode paletteIndex) (loopStart s0 garbage N) N
    ⟨fun _ => rfl, by simp [loopStart]⟩
    (by
      intro n s _ ⟨hlen, hall⟩
      have hafter : ∀ sh, ∀ c ∈ s.calls,
          callFrom bo fileBuffer paletteMode paletteIndex (afterHeader s sh).sheets c :=
        fun sh c hc => callFrom_append s.iterator (hall c hc)
      cases hf : s.fault with
      | some f =>
        rw [sheetStep_stuck bo sink fileBuffer paletteMode paletteIndex s n hf]
        exact ⟨fun h => by simp [hf] at h, hall⟩
      | none =>
        have hl := hlen hf
        cases hr : SpriteSheetHeader.read bo fileBuffer s.iterator with
        | none =>
          rw [sheetStep_noHeader bo sink fileBuffer paletteMode paletteIndex s n hf hr]
          exact ⟨fun h => by simp at h, hall⟩
        | some sh =>
          cases hc4 : rd16 bo fileBuffer 4 with
          | none =>
            rw [sheetStep_noCompression bo sink fileBuffer paletteMode paletteIndex s n hf hr
              hc4]
            exact ⟨fun h => by simp at h, hafter sh⟩
          | some comp =>
            cases hp : prepareInput fileBuffer comp n s.iterator sh with
            | error f =>
              rw [sheetStep_error bo sink fileBuffer paletteMode paletteIndex s n hf hr hc4 hp]
              exact ⟨fun h => by simp at h, hafter sh⟩
            | ok inputData =>
              rw [sheetStep_frames bo sink fileBuffer paletteMode paletteIndex s n hf hr hc4 hp]
              refine ⟨fun _ => by rw [frameLoop_sheets]; simp [afterHeader, hl], ?_⟩
              rw [frameLoop_sheets]
              apply frameLoop_invariant sink paletteMode paletteIndex n sh inputData
                (afterHeader s sh)
                (fun _ t => ∀ c ∈ t.calls,
                  callFrom bo fileBuffer paletteMode paletteIndex (afterHeader s sh).sheets c)
              · exact hafter sh
              · intro j t hj ht c hc
                rw [frameStep_calls, List.mem_append, List.mem_singleton] at hc
                rcases hc with hc | hc
                · exact ht c hc
                · subst hc
                  refine ⟨s.iterator, sh, comp, inputData, ?_, hr, hc4, hp, hj, rfl, rfl⟩
                  simp only [afterHeader]
                  rw [← hl]
                  exact List.getElem?_concat_length _ _)
  exact key.2

/-- Every call on record comes from a sheet the cursor visited. -/
theorem TilemapObject_provenance {σ : Type} (bo : ByteOrder) (sink : TextureSink σ) (s0 : σ)
    (garbage : Nat → SpriteSet) (fileBuffer : List Byte) (paletteIndex : Byte)
    (keepBuffer : Bool) :
    ∀ c ∈ (TilemapObject bo sink s0 garbage fileBuffer paletteIndex keepBuffer).state.calls,
      ∃ paletteMode, rd16 bo fileBuffer 2 = some paletteMode ∧
        callFrom bo fileBuffer paletteMode paletteIndex
          (TilemapObject bo sink s0 garbage fileBuffer paletteIndex keepBuffer).state.sheets
          c := by
  rcases header_cases bo fileBuffer with ⟨n, m, h0, h2⟩ | h
  · rw [TilemapObject_state bo sink s0 garbage fileBuffer paletteIndex keepBuffer h0 h2]
    intro c hc
    exact ⟨m, h2, sheetLoop_provenance bo sink s0 garbage fileBuffer m paletteIndex n c hc⟩
  · rw [(TilemapObject_unreadable bo sink s0 garbage fileBuffer paletteIndex keepBuffer h).1]
    simp

/-- In every run the sheet headers are read at the offsets their stored byte
lengths determine. -/
theorem TilemapObject_offsets {σ : Type} (bo : ByteOrder) (sink : TextureSink σ) (s0 : σ)
    (garbage : Nat → SpriteSet) (fileBuffer : List Byte) (paletteIndex : Byte)
    (keepBuffer : Bool) :
    (TilemapObject bo sink s0 garbage fileBuffer paletteIndex keepBuffer).state.sheets =
      sheetOffsets 10
        ((TilemapObject bo sink s0 garbage fileBuffer paletteIndex keepBuffer).state.sheets.map
          (storedByteLength bo fileBuffer)) := by
  rcases header_cases bo fileBuffer with ⟨n, m, h0, h2⟩ | h
  · rw [TilemapObject_state bo sink s0 garbage fileBuffer paletteIndex keepBuffer h0 h2]
    exact (sheetLoop_offsets bo sink s0 garbage fileBuffer m paletteIndex n).1
  · rw [(TilemapObject_unreadable bo sink s0 garbage fileBuffer paletteIndex keepBuffer
      h).2.2.1]
    rfl

/-! ## Lemmas: the faults are reads outside the buffer -/

theorem decompress_overrun_index {input : List Byte} {n k : Nat} {o : List Byte}
    (h : RLE_Decompress input n = .inputOverrun k o) : k = input.length := by
  obtain ⟨d, hd, hin⟩ := pairsOf_spec input
  have h' : RLE_Decompress.loop ([] ++ (flatten (pairsOf input) ++ d)) n
      ([] : List Byte).length [] = .inputOverrun k o := by
    rw [List.nil_append, ← hin]
    exact h
  have hk := loop_overrun_index (pairsOf input) [] [] d n k o hd h'
  rw [List.nil_append, ← hin] at hk
  exact hk

theorem prepareInput_error {fileBuffer : List Byte} {compression i ptr : Nat}
    {sh : SpriteSheetHeader} {f : Fault}
    (h : prepareInput fileBuffer compression i ptr sh = .error f) :
    (∃ p, f = .rleInputOverrun i p ∧ fileBuffer.length ≤ p) ∨
    (∃ w, f = .rleOutputOverrun i w sh.pixelCount ∧ sh.pixelCount < w) := by
  unfold prepareInput at h
  simp only at h
  split at h
  · cases hd : RLE_Decompress (List.drop (ptr + sizeof_SpriteSheetHeader) fileBuffer)
        sh.pixelCount with
    | inputOverrun k o =>
      rw [hd] at h
      simp only [Except.error.injEq] at h
      left
      refine ⟨_, h.symm, ?_⟩
      have := decompress_overrun_index hd
      simp only [List.length_drop] at this
      omega
    | returned k o =>
      rw [hd] at h
      simp only at h
      split at h
      · rename_i hlt
        simp only [Except.error.injEq] at h
        exact Or.inr ⟨_, h.symm, hlt⟩
      · cases h
  · cases h

theorem prepareInput_uncompressed (fileBuffer : List Byte) {compression : Nat} (i ptr : Nat)
    (sh : SpriteSheetHeader) (h : compression ≠ 1) :
    prepareInput fileBuffer compression i ptr sh = .ok (fileBuffer.drop (ptr + 12)) := by
  simp [prepareInput, h, sizeof_SpriteSheetHeader]

theorem sheetLoop_faultIsReal {σ : Type} (bo : ByteOrder) (sink : TextureSink σ) (s0 : σ)
    (garbage : Nat → SpriteSet) (fileBuffer : List Byte) (paletteMode : Nat)
    (paletteIndex : Byte) (N : Nat) :
    faultIsReal fileBuffer (List.foldl (sheetStep bo sink fileBuffer paletteMode paletteIndex)
      (loopStart s0 garbage N) (List.range N)).fault := by
  apply foldl_range_invariant (fun _ (s : LoadState σ) => faultIsReal fileBuffer s.fault)
  · refine ⟨?_, ?_, ?_⟩ <;> intros <;> simp [loopStart] at *
  · intro n s _ h
    cases hf : s.fault with
    | some f =>
      rw [sheetStep_stuck bo sink fileBuffer paletteMode paletteIndex s n hf, hf]
      rw [hf] at h
      exact h
    | none =>
      cases hr : SpriteSheetHeader.read bo fileBuffer s.iterator with
      | none =>
        rw [sheetStep_noHeader bo sink fileBuffer paletteMode paletteIndex s n hf hr]
        have hlen := (read_eq_none_iff bo fileBuffer s.iterator).mp hr
        refine ⟨?_, ?_, ?_⟩
        · intro p hp
          simp only [Option.some.injEq, Fault.headerRead.injEq] at hp
          omega
        · intro i p hp; simp at hp
        · intro i w m hp; simp at hp
      | some sh =>
        cases hc4 : rd16 bo fileBuffer 4 with
        | none =>
          rw [sheetStep_noCompression bo sink fileBuffer paletteMode paletteIndex s n hf hr hc4]
          have hlen := (rd16_eq_none_iff bo fileBuffer 4).mp hc4
          refine ⟨?_, ?_, ?_⟩
          · intro p hp
            simp only [Option.some.injEq, Fault.headerRead.injEq] at hp
            omega
          · intro i p hp; simp at hp
          · intro i w m hp; simp at hp
        | some comp =>
          cases hp : prepareInput fileBuffer comp n s.iterator sh with
          | error f =>
            rw [sheetStep_error bo sink fileBuffer paletteMode paletteIndex s n hf hr hc4 hp]
            rcases prepareInput_error hp with ⟨p, hfp, hlen⟩ | ⟨w, hfw, hlt⟩
            · subst hfp
              refine ⟨?_, ?_, ?_⟩
              · intro q hq; simp at hq
              · intro i q hq
                simp only [Option.some.injEq, Fault.rleInputOverrun.injEq] at hq
                omega
              · intro i w m hq; simp at hq
            · subst hfw
              refine ⟨?_, ?_, ?_⟩
              · intro q hq; simp at hq
              · intro i q hq; simp at hq
              · intro i w' m hq
                simp only [Option.some.injEq, Fault.rleOutputOverrun.injEq] at hq
                omega
          | ok inputData =>
            rw [sheetStep_frames bo sink fileBuffer paletteMode paletteIndex s n hf hr hc4 hp,
              frameLoop_fault]
            simp only [afterHeader, hf]
            refine ⟨?_, ?_, ?_⟩ <;> intros <;> simp at *

theorem TilemapObject_faultIsReal {σ : Type} (bo : ByteOrder) (sink : TextureSink σ) (s0 : σ)
    (garbage : Nat → SpriteSet) (fileBuffer : List Byte) (paletteIndex : Byte)
    (keepBuffer : Bool) :
    faultIsReal fileBuffer
      (TilemapObject bo sink s0 garbage fileBuffer paletteIndex keepBuffer).state.fault := by
  cases h0 : rd16 bo fileBuffer 0 with
  | none =>
    have hlen := (rd16_eq_none_iff bo fileBuffer 0).mp h0
    simp only [TilemapObject, GetAndIterate_TmsfHeader, Nat.zero_add, h0]
    refine ⟨?_, ?_, ?_⟩
    · intro p hp
      simp only [Option.some.injEq, Fault.headerRead.injEq] at hp
      omega
    · intro i p hp; simp at hp
    · intro i w m hp; simp at hp
  | some n =>
    cases h2 : rd16 bo fileBuffer 2 with
    | none =>
      have hlen := (rd16_eq_none_iff bo fileBuffer 2).mp h2
      simp only [TilemapObject, GetAndIterate_TmsfHeader, Nat.zero_add, h0, h2]
      refine ⟨?_, ?_, ?_⟩
      · intro p hp
        simp only [Option.some.injEq, Fault.headerRead.injEq] at hp
        omega
      · intro i p hp; simp at hp
      · intro i w m hp; simp at hp
    | some m =>
      rw [TilemapObject_state bo sink s0 garbage fileBuffer paletteIndex keepBuffer h0 h2]
      exact sheetLoop_faultIsReal bo sink s0 garbage fileBuffer m paletteIndex n

/-! ## Lemmas: a sheet without sprites -/

theorem sheetOffsets_next (lens : List Nat) :
    ∀ (start k len : Nat), lens[k]? = some len → k + 1 < lens.length →
      (sheetOffsets start lens)[k + 1]? =
        ((sheetOffsets start lens)[k]?).map (fun ptr => ptr + (12 + len)) := by
  induction lens with
  | nil => intro start k len h; simp at h
  | cons l ls ih =>
    intro start k len h hk
    cases k with
    | zero =>
      simp only [List.getElem?_cons_zero, Option.some.injEq] at h
      subst h
      cases ls with
      | nil => simp at hk
      | cons l2 ls2 => simp [sheetOffsets]
    | succ k =>
      simp only [List.getElem?_cons_succ] at h
      simp only [sheetOffsets, List.getElem?_cons_succ]
      exact ih _ k len h (by simpa using hk)

theorem decompress_zero (input : List Byte) : RLE_Decompress input 0 = .returned 0 [] := by
  unfold RLE_Decompress
  rw [loop_exit _ _ _ _ (by simp)]

theorem pixelCount_of_empty {sh : SpriteSheetHeader} (h : sh.Rows * sh.Cols = 0) :
    sh.SpriteCount = 0 ∧ sh.pixelCount = 0 := by
  have h1 : sh.SpriteCount = 0 := by simp [SpriteSheetHeader.SpriteCount, h]
  exact ⟨h1, by simp [SpriteSheetHeader.pixelCount, h1]⟩

theorem prepareInput_of_empty (fileBuffer : List Byte) (compression i ptr : Nat)
    {sh : SpriteSheetHeader} (h : sh.Rows * sh.Cols = 0) :
    ∃ inputData, prepareInput fileBuffer compression i ptr sh = .ok inputData := by
  by_cases hc : compression = 1
  · refine ⟨[], ?_⟩
    simp [prepareInput, hc, (pixelCount_of_empty h).2, decompress_zero]
  · exact ⟨_, prepareInput_uncompressed fileBuffer i ptr sh hc⟩

/-! ## Lemmas: a buffer without compression -/

/-- Without compression every sheet whose header was read has all its frames
submitted, and the only fault is a header outside the buffer. -/
theorem sheetLoop_calls_uncompressed {σ : Type} (bo : ByteOrder) (sink : TextureSink σ)
    (s0 : σ) (garbage : Nat → SpriteSet) (fileBuffer : List Byte) (paletteMode : Nat)
    (paletteIndex : Byte) (N : Nat) {compression : Nat}
    (h4 : rd16 bo fileBuffer 4 = some compression) (hc : compression ≠ 1) :
    (List.foldl (sheetStep bo sink fileBuffer paletteMode paletteIndex)
        (loopStart s0 garbage N) (List.range N)).calls.map (fun c => (c.i, c.j)) =
      frameOrder 0 ((List.foldl (sheetStep bo sink fileBuffer paletteMode paletteIndex)
        (loopStart s0 garbage N) (List.range N)).sheets.map (spriteCountAt bo fileBuffer)) ∧
    (∀ f, (List.foldl (sheetStep bo sink fileBuffer paletteMode paletteIndex)
        (loopStart s0 garbage N) (List.range N)).fault = some f → ∃ p, f = .headerRead p) := by
  have key := foldl_range_invariant
    (fun n (s : LoadState σ) => (s.fault = none → s.sheets.length = n) ∧
      s.calls.map (fun c => (c.i, c.j)) =
        frameOrder 0 (s.sheets.map (spriteCountAt bo fileBuffer)) ∧
      (∀ f, s.fault = some f → ∃ p, f = .headerRead p))
    (sheetStep bo sink fileBuffer paletteMode paletteIndex) (loopStart s0 garbage N) N
    ⟨fun _ => rfl, rfl, fun f h => by simp [loopStart] at h⟩
    (by
      intro n s _ ⟨hlen, hcalls, hfault⟩
      cases hf : s.fault with
      | some f =>
        rw [sheetStep_stuck bo sink fileBuffer paletteMode paletteIndex s n hf]
        exact ⟨fun h => by simp [hf] at h, hcalls, hfault⟩
      | none =>
        have hl := hlen hf
        cases hr : SpriteSheetHeader.read bo fileBuffer s.iterator with
        | none =>
          rw [sheetStep_noHeader bo sink fileBuffer paletteMode paletteIndex s n hf hr]
          exact ⟨fun h => by simp at h, hcalls, fun f h => ⟨_, by simpa using h.symm⟩⟩
        | some sh =>
          rw [sheetStep_frames bo sink fileBuffer paletteMode paletteIndex s n hf hr h4
            (prepareInput_uncompressed fileBuffer n s.iterator sh hc)]
          refine ⟨fun _ => by rw [frameLoop_sheets]; simp [afterHeader, hl], ?_, ?_⟩
          · rw [frameLoop_calls, frameLoop_sheets]
            simp only [afterHeader, List.map_append, List.map_cons, List.map_nil,
              frameOrder_append, List.length_map, Nat.zero_add]
            rw [hcalls, hl]
            simp [spriteCountAt, hr]
          · intro f h
            rw [frameLoop_fault] at h
            simp [afterHeader, hf] at h)
  exact ⟨key.2.1, key.2.2⟩

/-! ## Lemmas: the frames of a sheet -/

theorem frameOffset_eq {sh : SpriteSheetHeader} {j : Nat} (hj : j < sh.SpriteCount)
    (hnw : sh.CellWidth * sh.CellHeight * sh.SpriteCount < 2 ^ 32) :
    sh.frameOffset j = j * (sh.CellWidth * sh.CellHeight) := by
  unfold SpriteSheetHeader.frameOffset
  rw [Nat.mul_assoc]
  apply Nat.mod_eq_of_lt
  calc j * (sh.CellWidth * sh.CellHeight)
      ≤ sh.SpriteCount * (sh.CellWidth * sh.CellHeight) :=
        Nat.mul_le_mul_right _ (Nat.le_of_lt hj)
    _ = sh.CellWidth * sh.CellHeight * sh.SpriteCount := Nat.mul_comm _ _
    _ < 2 ^ 32 := hnw

theorem pixelCount_eq {sh : SpriteSheetHeader}
    (hnw : sh.CellWidth * sh.CellHeight * sh.SpriteCount < 2 ^ 32) :
    sh.pixelCount = sh.SpriteCount * (sh.CellWidth * sh.CellHeight) := by
  unfold SpriteSheetHeader.pixelCount
  rw [Nat.mod_eq_of_lt hnw, Nat.mul_comm]

/-- The first `n` frames of a sheet, one after the other, are the first
`n * CellWidth * CellHeight` bytes of its pixel memory. -/
theorem frames_cover (paletteMode : Nat) (paletteIndex : Byte) (sh : SpriteSheetHeader)
    (inputData : List Byte)
    (hnw : sh.CellWidth * sh.CellHeight * sh.SpriteCount < 2 ^ 32) :
    ∀ n, n ≤ sh.SpriteCount →
      (List.range n).flatMap
          (fun j => (frameSubmission paletteMode paletteIndex sh inputData j).pixels) =
        inputData.take (n * (sh.CellWidth * sh.CellHeight)) := by
  intro n
  induction n with
  | zero => intro _; simp
  | succ n ih =>
    intro hn
    rw [List.range_succ, List.flatMap_append, ih (by omega), List.flatMap_singleton,
      Nat.succ_mul, List.take_add]
    simp only [frameSubmission, frameOffset_eq (show n < sh.SpriteCount by omega) hnw]

/-- With compression the pixel memory of a sheet has exactly `pixelCount`
bytes. -/
theorem prepareInput_compressed_length {fileBuffer : List Byte} {i ptr : Nat}
    {sh : SpriteSheetHeader} {inputData : List Byte}
    (h : prepareInput fileBuffer 1 i ptr sh = .ok inputData) :
    inputData.length = sh.pixelCount := by
  unfold prepareInput at h
  simp only [if_true] at h
  cases hd : RLE_Decompress (List.drop (ptr + sizeof_SpriteSheetHeader) fileBuffer)
      sh.pixelCount with
  | inputOverrun k o =>
    rw [hd] at h
    cases h
  | returned k o =>
    rw [hd] at h
    simp only at h
    split at h
    · cases h
    · rename_i hge
      simp only [Except.ok.injEq] at h
      obtain ⟨_, _, _, _, hn, _⟩ := decompress_returned hd
      rw [← h]
      omega

/-! ## The claims about the decoder's behaviour on arbitrary input -/

/-- C17: whenever `RLE_Decompress` leaves its loop through the condition, having
read `k` input bytes and written `out`, then
`decompressedSize ≤ length out ≤ decompressedSize + 254`, `k` is twice the least
number `m` of leading pairs whose runs sum to at least `decompressedSize`, `out`
is the expansion of those `m` pairs, and the first `decompressedSize` bytes of
`out` are the first `decompressedSize` bytes of the full expansion of the pair
stream. -/
theorem C17_returning_call (input : List Byte) (decompressedSize k : Nat) (out : List Byte)
    (h : RLE_Decompress input decompressedSize = .returned k out) :
    decompressedSize ≤ out.length ∧ out.length ≤ decompressedSize + 254 ∧
    (∃ m, k = 2 * m ∧ m ≤ (pairsOf input).length ∧
      decompressedSize ≤ runSum ((pairsOf input).take m) ∧
      (∀ m', m' < m → runSum ((pairsOf input).take m') < decompressedSize) ∧
      out = expand ((pairsOf input).take m)) ∧
    out.take decompressedSize = (expand (pairsOf input)).take decompressedSize := by
  obtain ⟨m, hm, hk, ho, hn, hmin, hmax⟩ := decompress_returned h
  refine ⟨hn, ?_, ⟨m, hk, hm, by rw [← length_expand, ← ho]; exact hn, hmin, ho⟩, ?_⟩
  · by_cases hm0 : m = 0
    · subst hm0
      rw [ho]
      simp [expand]
    · exact hmax (by omega)
  · have hsplit : expand (pairsOf input) = out ++ expand ((pairsOf input).drop m) := by
      rw [ho, ← expand_append, List.take_append_drop]
    rw [hsplit, List.take_append_of_le_length hn]

/-- C17 at the input `[3,0x10, 2,0x20, 9]` with `decompressedSize = 4`: two
pairs are consumed and five bytes written. -/
theorem C17_returning_call_witness :
    RLE_Decompress [3, 0x10, 2, 0x20, 9] 4 = .returned 4 [0x10, 0x10, 0x10, 0x20, 0x20] ∧
    4 ≤ [(0x10 : Byte), 0x10, 0x10, 0x20, 0x20].length ∧
    [(0x10 : Byte), 0x10, 0x10, 0x20, 0x20].length ≤ 4 + 254 ∧
    (∃ m, 4 = 2 * m ∧ m ≤ (pairsOf [3, 0x10, 2, 0x20, 9]).length ∧
      4 ≤ runSum ((pairsOf [3, 0x10, 2, 0x20, 9]).take m) ∧
      (∀ m', m' < m → runSum ((pairsOf [3, 0x10, 2, 0x20, 9]).take m') < 4) ∧
      [0x10, 0x10, 0x10, 0x20, 0x20] = expand ((pairsOf [3, 0x10, 2, 0x20, 9]).take m)) ∧
    [(0x10 : Byte), 0x10, 0x10, 0x20, 0x20].take 4 =
      (expand (pairsOf [3, 0x10, 2, 0x20, 9])).take 4 :=
  have h : RLE_Decompress [3, 0x10, 2, 0x20, 9] 4 =
      .returned 4 [0x10, 0x10, 0x10, 0x20, 0x20] :=
    loop_reaches [(3, 0x10), (2, 0x20)] [] [] [9] 4 (by decide) (by decide)
  ⟨h, C17_returning_call [3, 0x10, 2, 0x20, 9] 4 4 [0x10, 0x10, 0x10, 0x20, 0x20] h⟩

theorem mem_frameOrder (counts : List Nat) :
    ∀ (i k count : Nat), counts[k]? = some count → 0 < count →
      (i + k, 0) ∈ frameOrder i counts := by
  induction counts with
  | nil => intro i k count h; simp at h
  | cons c cs ih =>
    intro i k count h hpos
    cases k with
    | zero =>
      simp only [List.getElem?_cons_zero, Option.some.injEq] at h
      subst h
      simp only [frameOrder, List.mem_append, List.mem_map, List.mem_range]
      exact Or.inl ⟨0, hpos, rfl⟩
    | succ k =>
      simp only [List.getElem?_cons_succ] at h
      simp only [frameOrder, List.mem_append]
      right
      have := ih (i + 1) k count h hpos
      rwa [show i + 1 + k = i + (k + 1) by omega] at this

/-- In a run without fault every sheet is visited, and every sheet with a
positive sprite count has its frame 0 on record. -/
theorem TilemapObject_frame0_present {σ : Type} (bo : ByteOrder) (sink : TextureSink σ)
    (s0 : σ) (garbage : Nat → SpriteSet) (fileBuffer : List Byte) (paletteIndex : Byte)
    (keepBuffer : Bool)
    (hf : (TilemapObject bo sink s0 garbage fileBuffer paletteIndex keepBuffer).state.fault =
      none) :
    (TilemapObject bo sink s0 garbage fileBuffer paletteIndex keepBuffer).state.sheets.length =
      numTilesetsOf bo fileBuffer ∧
    ∀ (k : Nat) (sh : SpriteSheetHeader),
      sheetHeader bo fileBuffer
        (TilemapObject bo sink s0 garbage fileBuffer paletteIndex keepBuffer).state.sheets k =
          some sh →
      0 < sh.SpriteCount →
      ∃ c ∈ (TilemapObject bo sink s0 garbage fileBuffer paletteIndex keepBuffer).state.calls,
        c.i = k ∧ c.j = 0 := by
  rcases header_cases bo fileBuffer with ⟨n, m, h0, h2⟩ | h
  · rw [TilemapObject_state bo sink s0 garbage fileBuffer paletteIndex keepBuffer h0 h2] at hf ⊢
    simp only at hf ⊢
    obtain ⟨_, hle, hfl, _, _⟩ := sheetLoop_expected bo sink s0 garbage fileBuffer m
      paletteIndex n
    obtain ⟨q, hq, hqn, hcalls⟩ := sheetLoop_calls bo sink s0 garbage fileBuffer m
      paletteIndex n
    have hlen := hfl hf
    have hqe := hqn hf
    refine ⟨by simp only [numTilesetsOf, h0, h2]; exact hlen, ?_⟩
    intro k sh hsh hpos
    rw [List.take_of_length_le (by omega)] at hcalls
    cases hget : (List.foldl (sheetStep bo sink fileBuffer m paletteIndex)
        (loopStart s0 garbage n) (List.range n)).sheets[k]? with
    | none => simp [sheetHeader, hget] at hsh
    | some ptr =>
      have hr : SpriteSheetHeader.read bo fileBuffer ptr = some sh := by
        simpa [sheetHeader, hget] using hsh
      have hmem := mem_frameOrder
        ((List.foldl (sheetStep bo sink fileBuffer m paletteIndex)
          (loopStart s0 garbage n) (List.range n)).sheets.map (spriteCountAt bo fileBuffer))
        0 k sh.SpriteCount
        (by rw [List.getElem?_map, hget, Option.map_some']; simp [spriteCountAt, hr]) hpos
      rw [← hcalls, List.mem_map] at hmem
      obtain ⟨c, hc, hij⟩ := hmem
      simp only [Nat.zero_add, Prod.mk.injEq] at hij
      exact ⟨c, hc, hij.1, hij.2⟩
  · exact absurd hf
      (TilemapObject_unreadable bo sink s0 garbage fileBuffer paletteIndex keepBuffer h).2.2.2.1

/-- C11: when the container header can be read, `asset` holds its `NumTilesets`
and `PaletteMode`, the table `sprite` has exactly `NumTilesets` entries, and the
sheets are visited in buffer order (sheet `k` at offset `10` plus the footprints
of the sheets before it), all of them when the run ends without fault. Entry
`k` of the table is determined by sheet `k` alone: when frame 0 of tileset `k`
got a non-negative answer it is the record written from the header of sheet `k`
and that answer; when every frame-0 call of tileset `k` was refused, or there
was none, it holds what the array held before. In a run without fault frame 0
of every sheet with a positive sprite count is on record. -/
theorem C11_summary_and_table {σ : Type} (bo : ByteOrder) (sink : TextureSink σ) (s0 : σ)
    (garbage : Nat → SpriteSet) (fileBuffer : List Byte) (paletteIndex : Byte)
    (keepBuffer : Bool) (numTilesets paletteMode : Nat)
    (h0 : rd16 bo fileBuffer 0 = some numTilesets)
    (h2 : rd16 bo fileBuffer 2 = some paletteMode) :
    (TilemapObject bo sink s0 garbage fileBuffer paletteIndex keepBuffer).asset = some { NumTilesets := numTilesets, PaletteMode := paletteMode } ∧
    (TilemapObject bo sink s0 garbage fileBuffer paletteIndex keepBuffer).state.sprite.length = numTilesets ∧
    (TilemapObject bo sink s0 garbage fileBuffer paletteIndex keepBuffer).state.sheets =
      sheetOffsets 10 ((TilemapObject bo sink s0 garbage fileBuffer paletteIndex keepBuffer).state.sheets.map (storedByteLength bo fileBuffer)) ∧
    ((TilemapObject bo sink s0 garbage fileBuffer paletteIndex keepBuffer).state.fault = none → (TilemapObject bo sink s0 garbage fileBuffer paletteIndex keepBuffer).state.sheets.length = numTilesets) ∧
    (∀ k, k < numTilesets →
      (TilemapObject bo sink s0 garbage fileBuffer paletteIndex keepBuffer).state.sprite[k]? =
        some (expectedSprite bo fileBuffer garbage (TilemapObject bo sink s0 garbage fileBuffer paletteIndex keepBuffer).state.sheets (TilemapObject bo sink s0 garbage fileBuffer paletteIndex keepBuffer).state.calls k)) ∧
    (∀ c ∈ (TilemapObject bo sink s0 garbage fileBuffer paletteIndex keepBuffer).state.calls, c.j = 0 → 0 ≤ c.spriteIndex →
      ∃ sh, sheetHeader bo fileBuffer (TilemapObject bo sink s0 garbage fileBuffer paletteIndex keepBuffer).state.sheets c.i = some sh ∧
        (TilemapObject bo sink s0 garbage fileBuffer paletteIndex keepBuffer).state.sprite[c.i]? = some (populate sh c.spriteIndex)) ∧
    (∀ k, k < numTilesets →
      (∀ c ∈ (TilemapObject bo sink s0 garbage fileBuffer paletteIndex keepBuffer).state.calls, c.i = k → c.j = 0 → c.spriteIndex < 0) →
      (TilemapObject bo sink s0 garbage fileBuffer paletteIndex keepBuffer).state.sprite[k]? = some (garbage k)) ∧
    ((TilemapObject bo sink s0 garbage fileBuffer paletteIndex keepBuffer).state.fault = none → ∀ (k : Nat) (sh : SpriteSheetHeader),
      sheetHeader bo fileBuffer (TilemapObject bo sink s0 garbage fileBuffer paletteIndex keepBuffer).state.sheets k = some sh → 0 < sh.SpriteCount →
      ∃ c ∈ (TilemapObject bo sink s0 garbage fileBuffer paletteIndex keepBuffer).state.calls, c.i = k ∧ c.j = 0) := by
  have hlen := TilemapObject_sprite_length bo sink s0 garbage fileBuffer paletteIndex
    keepBuffer
  have hnum : numTilesetsOf bo fileBuffer = numTilesets := by
    simp only [numTilesetsOf, h0, h2]
  rw [hnum] at hlen
  obtain ⟨_, _, _, _, hexp⟩ :=
    TilemapObject_facts bo sink s0 garbage fileBuffer paletteIndex keepBuffer
  refine ⟨?_, hlen, TilemapObject_offsets bo sink s0 garbage fileBuffer paletteIndex keepBuffer,
    ?_, ?_, ?_, ?_, ?_⟩
  · rw [TilemapObject_state bo sink s0 garbage fileBuffer paletteIndex keepBuffer h0 h2]
  · intro hf
    rw [← hnum]
    exact (TilemapObject_frame0_present bo sink s0 garbage fileBuffer paletteIndex keepBuffer
      hf).1
  · intro k hk
    exact hexp k (by rw [hlen]; exact hk)
  · intro c hc hj hh
    obtain ⟨sh, hsh, hd⟩ := TilemapObject_frame0_sprite bo sink s0 garbage fileBuffer
      paletteIndex keepBuffer c hc hj
    rw [if_neg (by omega)] at hd
    exact ⟨sh, hsh, hd⟩
  · intro k hk hall
    rw [hexp k (by rw [hlen]; exact hk)]
    cases hfr : frame0 (TilemapObject bo sink s0 garbage fileBuffer paletteIndex keepBuffer).state.calls k with
    | none => rw [expectedSprite_none bo fileBuffer garbage _ hfr]
    | some c =>
      obtain ⟨hc, hi, hj⟩ := frame0_spec hfr
      have hneg := hall c hc hi hj
      unfold expectedSprite
      rw [hfr]
      cases sheetHeader bo fileBuffer (TilemapObject bo sink s0 garbage fileBuffer paletteIndex keepBuffer).state.sheets k with
      | none => rfl
      | some sh => simp only [if_pos hneg]
  · intro hf
    exact (TilemapObject_frame0_present bo sink s0 garbage fileBuffer paletteIndex keepBuffer
      hf).2

/-- C11 on `demoBuffer` with the allocator that hands out 0, 1, 2: the summary is
(2, 3), and entry 1 of the table is the record written from the header of
sheet 1 and the handle 2 its frame 0 got (the third call). -/
theorem C11_summary_and_table_witness :
    rd16 .big demoBuffer 0 = some 2 ∧ rd16 .big demoBuffer 2 = some 3 ∧
    (TilemapObject .big countingSink 0 staleSprite demoBuffer 5 false).asset =
      some { NumTilesets := 2, PaletteMode := 3 } ∧
    (TilemapObject .big countingSink 0 staleSprite demoBuffer 5 false).state.sprite.length =
      2 ∧
    (∃ sh, sheetHeader .big demoBuffer
        (TilemapObject .big countingSink 0 staleSprite demoBuffer 5 false).state.sheets 1 =
          some sh ∧
      (TilemapObject .big countingSink 0 staleSprite demoBuffer 5 false).state.sprite[1]? =
        some (populate sh 2)) ∧
    (TilemapObject .big countingSink 0 staleSprite demoBuffer 5 false).state.sprite =
      [{ SpriteIndex := 0, CellWidth := 2, CellHeight := 1, Cols := 2, Rows := 1,
         MaxFrames := 1, Frame := 0 },
       { SpriteIndex := 2, CellWidth := 1, CellHeight := 1, Cols := 1, Rows := 1,
         MaxFrames := 7, Frame := 2 }] :=
  ⟨by decide, by decide,
    (C11_summary_and_table .big countingSink 0 staleSprite demoBuffer 5 false 2 3 (by decide)
      (by decide)).1,
    (C11_summary_and_table .big countingSink 0 staleSprite demoBuffer 5 false 2 3 (by decide)
      (by decide)).2.1,
    (C11_summary_and_table .big countingSink 0 staleSprite demoBuffer 5 false 2 3 (by decide)
      (by decide)).2.2.2.2.2.1
      { i := 1, j := 0, frameOffset := 0,
        submission := { width := 1, height := 1, colorMode := 3, paletteIndex := 5,
                        pixels := [0x30] },
        spriteIndex := 2 }
      (by decide) rfl (by decide),
    by decide⟩

/-- C13, counterexample: the four-byte buffer `tinyPack` is shorter than the
container header, so the advance by 10 bytes moves the cursor past its end, yet
the load completes without any error; and in `cutBuffer` the advance past the
second sheet (12 + 1 bytes from offset 26) ends at 39, past the 38 bytes of the
buffer, and the load completes, having made all three calls. -/
theorem C13_no_truncation_error :
    tinyPack.length = 4 ∧
    (TilemapObject .big countingSink 0 staleSprite tinyPack 5 false).state.iterator = 10 ∧
    (TilemapObject .big countingSink 0 staleSprite tinyPack 5 false).state.fault = none ∧
    (TilemapObject .big countingSink 0 staleSprite tinyPack 5 false).asset =
      some { NumTilesets := 0, PaletteMode := 3 } ∧
    cutBuffer.length = 38 ∧
    (TilemapObject .big countingSink 0 staleSprite cutBuffer 5 false).state.iterator = 39 ∧
    (TilemapObject .big countingSink 0 staleSprite cutBuffer 5 false).state.fault = none ∧
    (TilemapObject .big countingSink 0 staleSprite cutBuffer 5 false).state.calls.map
      (fun c => (c.i, c.j)) = [(0, 0), (0, 1), (1, 0)] := by
  decide

/-- C13 as amended: the cursor is not checked against the end of the buffer and
there is no truncation error. `GetAndIterate<TmsfHeader>` adds 10 whatever the
buffer is; `GetAndIterate<SpriteSheetHeader>` adds `12 + TotalBytes` as soon as
the twelve header bytes lie inside the buffer, wherever the new position falls;
when they do not, its read of `TotalBytes` is outside the buffer. The load ends
early only at such an access: every fault on record is a header field read at
an offset whose two bytes do not both lie inside the buffer, a decoder read at
an offset outside the buffer, or a decoder write beyond `pixelCount`. -/
theorem C13_cursor_unchecked {σ : Type} (bo : ByteOrder) (sink : TextureSink σ) (s0 : σ)
    (garbage : Nat → SpriteSet) (fileBuffer : List Byte) (paletteIndex : Byte)
    (keepBuffer : Bool) (iterator : Nat) :
    GetAndIterate_TmsfHeader iterator 1 = (iterator, iterator + 10) ∧
    (iterator + 12 ≤ fileBuffer.length →
      ∃ sh, SpriteSheetHeader.read bo fileBuffer iterator = some sh ∧
        GetAndIterate_SpriteSheetHeader bo fileBuffer iterator 1 =
          some (iterator, iterator + (12 + sh.TotalBytes))) ∧
    (fileBuffer.length < iterator + 12 →
      GetAndIterate_SpriteSheetHeader bo fileBuffer iterator 1 = none) ∧
    (∀ p, (TilemapObject bo sink s0 garbage fileBuffer paletteIndex keepBuffer).state.fault = some (.headerRead p) → fileBuffer.length ≤ p + 1) ∧
    (∀ i p, (TilemapObject bo sink s0 garbage fileBuffer paletteIndex keepBuffer).state.fault = some (.rleInputOverrun i p) → fileBuffer.length ≤ p) ∧
    (∀ i w n, (TilemapObject bo sink s0 garbage fileBuffer paletteIndex keepBuffer).state.fault = some (.rleOutputOverrun i w n) → n < w) := by
  refine ⟨rfl, ?_, ?_,
    TilemapObject_faultIsReal bo sink s0 garbage fileBuffer paletteIndex keepBuffer⟩
  · intro h
    obtain ⟨sh, hr⟩ := read_of_le bo fileBuffer iterator h
    exact ⟨sh, hr, by simp [GetAndIterate_SpriteSheetHeader, hr, LoadSize_eq hr]⟩
  · intro h
    simp [GetAndIterate_SpriteSheetHeader, (read_eq_none_iff bo fileBuffer iterator).mpr h]

/-- C13 as amended, on `cutBuffer` at the second sheet header (offset 26): the
header lies inside the 38 bytes and the cursor moves to 39. -/
theorem C13_cursor_unchecked_witness :
    26 + 12 ≤ cutBuffer.length ∧
    ∃ sh, SpriteSheetHeader.read .big cutBuffer 26 = some sh ∧
      GetAndIterate_SpriteSheetHeader .big cutBuffer 26 1 =
        some (26, 26 + (12 + sh.TotalBytes)) :=
  ⟨by decide,
    (C13_cursor_unchecked .big countingSink 0 staleSprite cutBuffer 5 false 26).2.1
      (by decide)⟩

/-- C14, counterexample: the header of `wideSheetBuffer` has 256 rows and 256
columns; `SpriteCount()` is 0, not 65536, the pixel count is 0, not 65536, and
the load submits no frame. And for cells of 65535 x 65535 pixels in a 2 x 1 grid
the pixel count is 4294705154, not 8589672450. -/
theorem C14_sprite_count_truncated :
    SpriteSheetHeader.read .big wideSheetBuffer 10 =
      some { CellWidth := 1, CellHeight := 1, Cols := 256, Rows := 256, Frames := 1,
             TotalBytes := 0 } ∧
    (SpriteSheetHeader.mk 1 1 256 256 1 0).SpriteCount = 0 ∧
    (SpriteSheetHeader.mk 1 1 256 256 1 0).pixelCount = 0 ∧
    (256 : Nat) * 256 = 65536 ∧
    (TilemapObject .big countingSink 0 staleSprite wideSheetBuffer 5 false).state.calls = [] ∧
    (TilemapObject .big countingSink 0 staleSprite wideSheetBuffer 5 false).state.fault =
      none ∧
    (SpriteSheetHeader.mk 65535 65535 2 1 1 0).pixelCount = 4294705154 ∧
    (65535 : Nat) * 65535 * 1 * 2 = 8589672450 := by
  decide

/-- C14 as amended: for every sheet header with `Rows * Cols` below 65536 and
`CellWidth * CellHeight * Rows * Cols` below `2 ^ 31`, the sprite count the
loader uses is `Rows * Cols`, the pixel count is
`CellWidth * CellHeight * Rows * Cols`, and the frame loop makes exactly
`Rows * Cols` calls. -/
theorem C14_counts_in_range {σ : Type} (sink : TextureSink σ) (paletteMode : Nat)
    (paletteIndex : Byte) (i : Nat) (inputData : List Byte) (st : LoadState σ)
    (sh : SpriteSheetHeader) (hsc : sh.Rows * sh.Cols < 65536)
    (hpc : sh.CellWidth * sh.CellHeight * sh.Rows * sh.Cols < 2 ^ 31) :
    sh.SpriteCount = sh.Rows * sh.Cols ∧
    sh.pixelCount = sh.CellWidth * sh.CellHeight * sh.Rows * sh.Cols ∧
    (frameLoop sink paletteMode paletteIndex i sh inputData st).calls.length =
      st.calls.length + sh.Rows * sh.Cols := by
  have h1 : sh.SpriteCount = sh.Rows * sh.Cols := Nat.mod_eq_of_lt hsc
  have h2 : sh.CellWidth * sh.CellHeight * (sh.Rows * sh.Cols) =
      sh.CellWidth * sh.CellHeight * sh.Rows * sh.Cols := by
    rw [Nat.mul_assoc (sh.CellWidth * sh.CellHeight)]
  refine ⟨h1, ?_, ?_⟩
  · unfold SpriteSheetHeader.pixelCount
    rw [h1, h2]
    exact Nat.mod_eq_of_lt (by omega)
  · have h := congrArg List.length
      (frameLoop_calls sink paletteMode paletteIndex i sh inputData st)
    simp only [List.length_map, List.length_append, List.length_range] at h
    rw [h, h1]

/-- C14 as amended, at the header of the first sheet of `demoBuffer`
(2 x 1 pixels, 2 columns, 1 row). -/
theorem C14_counts_in_range_witness :
    (SpriteSheetHeader.mk 2 1 2 1 1 4).Rows * (SpriteSheetHeader.mk 2 1 2 1 1 4).Cols <
      65536 ∧
    (SpriteSheetHeader.mk 2 1 2 1 1 4).SpriteCount = 2 ∧
    (SpriteSheetHeader.mk 2 1 2 1 1 4).pixelCount = 4 :=
  ⟨by decide,
    (C14_counts_in_range countingSink 3 5 0 [0x10, 0x11, 0x12, 0x13]
      (loopStart 0 staleSprite 2) (SpriteSheetHeader.mk 2 1 2 1 1 4) (by decide)
      (by decide)).1,
    (C14_counts_in_range countingSink 3 5 0 [0x10, 0x11, 0x12, 0x13]
      (loopStart 0 staleSprite 2) (SpriteSheetHeader.mk 2 1 2 1 1 4) (by decide)
      (by decide)).2.1⟩

/-- C19: a sheet whose header has `Rows * Cols = 0`. One iteration of the
tileset loop on it, with or without compression, changes nothing but the
cursor, which moves by `12 + TotalBytes`: no call, no write to `sprite`, no
fault. The decoder called with size 0 returns at once, having read and written
nothing. In a whole run no call belongs to such a tileset, its descriptor holds
what the array held before, and the next sheet header is read
`12 + TotalBytes` bytes after its own. -/
theorem C19_sheet_without_sprites {σ : Type} (bo : ByteOrder) (sink : TextureSink σ)
    (s0 : σ) (garbage : Nat → SpriteSet) (fileBuffer : List Byte) (paletteIndex : Byte)
    (keepBuffer : Bool) :
    (∀ (paletteMode : Nat) (st : LoadState σ) (i compression : Nat) (sh : SpriteSheetHeader),
      st.fault = none → SpriteSheetHeader.read bo fileBuffer st.iterator = some sh →
      sh.Rows * sh.Cols = 0 → rd16 bo fileBuffer 4 = some compression →
      (sheetStep bo sink fileBuffer paletteMode paletteIndex st i).iterator =
        st.iterator + (12 + sh.TotalBytes) ∧
      (sheetStep bo sink fileBuffer paletteMode paletteIndex st i).calls = st.calls ∧
      (sheetStep bo sink fileBuffer paletteMode paletteIndex st i).sprite = st.sprite ∧
      (sheetStep bo sink fileBuffer paletteMode paletteIndex st i).fault = none) ∧
    (∀ (sh : SpriteSheetHeader) (input : List Byte), sh.Rows * sh.Cols = 0 →
      sh.pixelCount = 0 ∧ RLE_Decompress input sh.pixelCount = .returned 0 []) ∧
    (∀ (k : Nat) (sh : SpriteSheetHeader),
      sheetHeader bo fileBuffer (TilemapObject bo sink s0 garbage fileBuffer paletteIndex keepBuffer).state.sheets k = some sh → sh.Rows * sh.Cols = 0 →
      (∀ c ∈ (TilemapObject bo sink s0 garbage fileBuffer paletteIndex keepBuffer).state.calls, c.i ≠ k) ∧
      (TilemapObject bo sink s0 garbage fileBuffer paletteIndex keepBuffer).state.sprite[k]? = some (garbage k) ∧
      (∀ next, (TilemapObject bo sink s0 garbage fileBuffer paletteIndex keepBuffer).state.sheets[k + 1]? = some next →
        ∃ ptr, (TilemapObject bo sink s0 garbage fileBuffer paletteIndex keepBuffer).state.sheets[k]? = some ptr ∧ next = ptr + (12 + sh.TotalBytes))) := by
  refine ⟨?_, ?_, ?_⟩
  · intro paletteMode st i compression sh hf hr h0 hc
    obtain ⟨inputData, hp⟩ := prepareInput_of_empty fileBuffer compression i st.iterator h0
    rw [sheetStep_frames bo sink fileBuffer paletteMode paletteIndex st i hf hr hc hp]
    have hloop : frameLoop sink paletteMode paletteIndex i sh inputData (afterHeader st sh) =
        afterHeader st sh := by
      simp [frameLoop, (pixelCount_of_empty h0).1]
    rw [hloop]
    exact ⟨rfl, rfl, rfl, hf⟩
  · intro sh input h0
    refine ⟨(pixelCount_of_empty h0).2, ?_⟩
    rw [(pixelCount_of_empty h0).2]
    exact decompress_zero input
  · intro k sh hsh h0
    obtain ⟨_, _, hlt, hle, hexp⟩ :=
      TilemapObject_facts bo sink s0 garbage fileBuffer paletteIndex keepBuffer
    have hnone : ∀ c ∈ (TilemapObject bo sink s0 garbage fileBuffer paletteIndex keepBuffer).state.calls, c.i ≠ k := by
      intro c hc hi
      obtain ⟨_, _, ptr, sh', _, _, hs, hr', _, _, hj, _⟩ :=
        TilemapObject_provenance bo sink s0 garbage fileBuffer paletteIndex keepBuffer c hc
      rw [hi] at hs
      simp only [sheetHeader, hs, hr', Option.some.injEq] at hsh
      rw [hsh, (pixelCount_of_empty h0).1] at hj
      exact Nat.not_lt_zero _ hj
    have hk : k < (TilemapObject bo sink s0 garbage fileBuffer paletteIndex keepBuffer).state.sheets.length := by
      by_contra hge
      simp [sheetHeader, List.getElem?_eq_none (Nat.le_of_not_lt hge)] at hsh
    refine ⟨hnone, ?_, ?_⟩
    · rw [hexp k (Nat.lt_of_lt_of_le hk hle),
        expectedSprite_none bo fileBuffer garbage _ (frame0_eq_none hnone)]
    · intro next hnext
      have hget : (TilemapObject bo sink s0 garbage fileBuffer paletteIndex keepBuffer).state.sheets[k]? = some (TilemapObject bo sink s0 garbage fileBuffer paletteIndex keepBuffer).state.sheets[k] :=
        List.getElem?_eq_getElem hk
      refine ⟨_, hget, ?_⟩
      have hr : SpriteSheetHeader.read bo fileBuffer (TilemapObject bo sink s0 garbage fileBuffer paletteIndex keepBuffer).state.sheets[k] = some sh := by
        simpa [sheetHeader, hget] using hsh
      have hk1 : k + 1 < (TilemapObject bo sink s0 garbage fileBuffer paletteIndex keepBuffer).state.sheets.length := by
        by_contra hge
        rw [List.getElem?_eq_none (Nat.le_of_not_lt hge)] at hnext
        cases hnext
      have hoff := TilemapObject_offsets bo sink s0 garbage fileBuffer paletteIndex keepBuffer
      have hstep := sheetOffsets_next
        ((TilemapObject bo sink s0 garbage fileBuffer paletteIndex keepBuffer).state.sheets.map (storedByteLength bo fileBuffer)) 10 k sh.TotalBytes
        (by rw [List.getElem?_map, hget, Option.map_some', storedByteLength_eq hr])
        (by simpa using hk1)
      rw [← hoff, hnext, hget] at hstep
      simpa using hstep

/-- C19 on `emptySheetBuffer`, whose first sheet has 3 rows and 0 columns and
stored byte length 3: descriptor 0 is the stale record and the second sheet
header is read at 10 + 12 + 3. -/
theorem C19_sheet_without_sprites_witness :
    sheetHeader .big emptySheetBuffer
      (TilemapObject .big countingSink 0 staleSprite emptySheetBuffer 5 false).state.sheets 0 =
        some { CellWidth := 2, CellHeight := 2, Cols := 0, Rows := 3, Frames := 1,
               TotalBytes := 3 } ∧
    (TilemapObject .big countingSink 0 staleSprite emptySheetBuffer 5 false).state.sprite[0]? =
      some (staleSprite 0) ∧
    (TilemapObject .big countingSink 0 staleSprite emptySheetBuffer 5 false).state.sheets =
      [10, 25] :=
  ⟨by decide,
    ((C19_sheet_without_sprites .big countingSink 0 staleSprite emptySheetBuffer 5 false).2.2 0
      { CellWidth := 2, CellHeight := 2, Cols := 0, Rows := 3, Frames := 1, TotalBytes := 3 }
      (by decide) (by decide)).2.1,
    by decide⟩

/-- C12, counterexample: `mismatchBuffer` has compression flag 0 and one sheet
whose stored byte length is 6 while its pixel count is 4; the load reports
nothing and submits both frames, taken from the first four payload bytes. -/
theorem C12_no_size_check :
    rd16 .big mismatchBuffer 4 = some 0 ∧
    storedByteLength .big mismatchBuffer 10 = 6 ∧
    (SpriteSheetHeader.read .big mismatchBuffer 10).map SpriteSheetHeader.pixelCount =
      some 4 ∧
    (TilemapObject .big countingSink 0 staleSprite mismatchBuffer 5 false).state.fault = none ∧
    (TilemapObject .big countingSink 0 staleSprite mismatchBuffer 5 false).state.calls.map
      (fun c => (c.i, c.j, c.submission.pixels)) = [(0, 0, [1, 2]), (0, 1, [3, 4])] := by
  decide

/-- C12 as amended: in a buffer whose compression flag is not 1 the stored byte
length is never compared with the pixel count and no size error exists. Every
sheet whose header was read has its frames `0 .. SpriteCount - 1` submitted,
whatever its stored byte length; the pixels of frame `j` are the bytes of the
buffer at offset `12 + frameOffset j` from the sheet header; the stored byte
length only moves the cursor; and the only fault is a header field read
outside the buffer. -/
theorem C12_uncompressed_submits_all {σ : Type} (bo : ByteOrder) (sink : TextureSink σ)
    (s0 : σ) (garbage : Nat → SpriteSet) (fileBuffer : List Byte) (paletteIndex : Byte)
    (keepBuffer : Bool) (compression : Nat) (h4 : rd16 bo fileBuffer 4 = some compression)
    (hc : compression ≠ 1) :
    (TilemapObject bo sink s0 garbage fileBuffer paletteIndex keepBuffer).state.calls.map (fun c => (c.i, c.j)) =
      frameOrder 0 ((TilemapObject bo sink s0 garbage fileBuffer paletteIndex keepBuffer).state.sheets.map (spriteCountAt bo fileBuffer)) ∧
    (∀ f, (TilemapObject bo sink s0 garbage fileBuffer paletteIndex keepBuffer).state.fault = some f → ∃ p, f = .headerRead p ∧ fileBuffer.length ≤ p + 1) ∧
    (∀ c ∈ (TilemapObject bo sink s0 garbage fileBuffer paletteIndex keepBuffer).state.calls, ∃ ptr sh, (TilemapObject bo sink s0 garbage fileBuffer paletteIndex keepBuffer).state.sheets[c.i]? = some ptr ∧
      SpriteSheetHeader.read bo fileBuffer ptr = some sh ∧
      c.submission.pixels = ((fileBuffer.drop (ptr + 12)).drop (sh.frameOffset c.j)).take
        (sh.CellWidth * sh.CellHeight)) := by
  refine ⟨?_, ?_, ?_⟩
  · rcases header_cases bo fileBuffer with ⟨n, m, h0, h2⟩ | h
    · rw [TilemapObject_state bo sink s0 garbage fileBuffer paletteIndex keepBuffer h0 h2]
      exact (sheetLoop_calls_uncompressed bo sink s0 garbage fileBuffer m paletteIndex n h4
        hc).1
    · obtain ⟨hcalls, _, hsheets, _, _⟩ :=
        TilemapObject_unreadable bo sink s0 garbage fileBuffer paletteIndex keepBuffer h
      rw [hcalls, hsheets]
      rfl
  · intro f hf
    have hreal := TilemapObject_faultIsReal bo sink s0 garbage fileBuffer paletteIndex
      keepBuffer
    have hhead : ∃ p, f = .headerRead p := by
      rcases header_cases bo fileBuffer with ⟨n, m, h0, h2⟩ | h
      · rw [TilemapObject_state bo sink s0 garbage fileBuffer paletteIndex keepBuffer h0 h2]
          at hf
        exact (sheetLoop_calls_uncompressed bo sink s0 garbage fileBuffer m paletteIndex n h4
          hc).2 f hf
      · have h5 := rd16_isSome h4
        rcases h with h | h
        · have := (rd16_eq_none_iff bo fileBuffer 0).mp h
          omega
        · have := (rd16_eq_none_iff bo fileBuffer 2).mp h
          omega
    obtain ⟨p, hp⟩ := hhead
    exact ⟨p, hp, hreal.1 p (hp ▸ hf)⟩
  · intro c hcm
    obtain ⟨pm, _, ptr, sh, comp, inputData, hs, hr, h4', hp, _, _, hsub⟩ :=
      TilemapObject_provenance bo sink s0 garbage fileBuffer paletteIndex keepBuffer c hcm
    rw [h4] at h4'
    simp only [Option.some.injEq] at h4'
    rw [← h4', prepareInput_uncompressed fileBuffer c.i ptr sh hc] at hp
    simp only [Except.ok.injEq] at hp
    refine ⟨ptr, sh, hs, hr, ?_⟩
    rw [hsub, ← hp]
    rfl

/-- C12 as amended, on `mismatchBuffer` (compression flag 0, stored byte length
6, pixel count 4). -/
theorem C12_uncompressed_submits_all_witness :
    rd16 .big mismatchBuffer 4 = some 0 ∧ (0 : Nat) ≠ 1 ∧
    (TilemapObject .big countingSink 0 staleSprite mismatchBuffer 5 false).state.calls.map
        (fun c => (c.i, c.j)) =
      frameOrder 0
        ((TilemapObject .big countingSink 0 staleSprite mismatchBuffer 5
          false).state.sheets.map (spriteCountAt .big mismatchBuffer)) :=
  ⟨by decide, by decide,
    (C12_uncompressed_submits_all .big countingSink 0 staleSprite mismatchBuffer 5 false 0
      (by decide) (by decide)).1⟩

/-- C15, counterexample: for a header with cells of 65535 x 65535 pixels in a
2 x 1 grid, frame 0 is below the sprite count 2, but its end
`(0 + 1) * 65535 * 65535 = 4294836225` lies beyond the pixel count, which the
code computes as 4294705154. -/
theorem C15_slice_outside_pixel_count :
    0 < (SpriteSheetHeader.mk 65535 65535 2 1 1 0).SpriteCount ∧
    (SpriteSheetHeader.mk 65535 65535 2 1 1 0).pixelCount = 4294705154 ∧
    ¬ ((0 + 1) * (SpriteSheetHeader.mk 65535 65535 2 1 1 0).CellWidth *
        (SpriteSheetHeader.mk 65535 65535 2 1 1 0).CellHeight ≤
      (SpriteSheetHeader.mk 65535 65535 2 1 1 0).pixelCount) := by
  decide

/-- C15 as amended: for every sheet header whose product
`CellWidth * CellHeight * SpriteCount` is below `2 ^ 32` and every frame index
`j` below the sprite count, the frame submitted is the
`CellWidth * CellHeight` bytes at offset `j * CellWidth * CellHeight` of the
pixel memory; the range ends at or before `pixelCount`; the next frame starts
where this one ends, so the frames are disjoint and adjacent; all frames
together are the first `pixelCount` bytes of the pixel memory, which with
compression is the whole of it; and every call of a run is such a frame of the
sheet it belongs to. -/
theorem C15_frame_slices {σ : Type} (bo : ByteOrder) (sink : TextureSink σ) (s0 : σ)
    (garbage : Nat → SpriteSet) (fileBuffer : List Byte) (paletteIndex : Byte)
    (keepBuffer : Bool) (paletteMode : Nat) (sh : SpriteSheetHeader) (inputData : List Byte)
    (j : Nat) (hj : j < sh.SpriteCount)
    (hnw : sh.CellWidth * sh.CellHeight * sh.SpriteCount < 2 ^ 32) :
    sh.frameOffset j = j * (sh.CellWidth * sh.CellHeight) ∧
    (frameSubmission paletteMode paletteIndex sh inputData j).pixels =
      (inputData.drop (j * (sh.CellWidth * sh.CellHeight))).take
        (sh.CellWidth * sh.CellHeight) ∧
    (j + 1) * (sh.CellWidth * sh.CellHeight) ≤ sh.pixelCount ∧
    (j + 1 < sh.SpriteCount →
      sh.frameOffset (j + 1) = sh.frameOffset j + sh.CellWidth * sh.CellHeight) ∧
    sh.pixelCount = sh.SpriteCount * (sh.CellWidth * sh.CellHeight) ∧
    (List.range sh.SpriteCount).flatMap
        (fun j' => (frameSubmission paletteMode paletteIndex sh inputData j').pixels) =
      inputData.take sh.pixelCount ∧
    (∀ i ptr, prepareInput fileBuffer 1 i ptr sh = .ok inputData →
      inputData.length = sh.pixelCount) ∧
    (∀ c ∈ (TilemapObject bo sink s0 garbage fileBuffer paletteIndex keepBuffer).state.calls, ∃ pm, rd16 bo fileBuffer 2 = some pm ∧
      callFrom bo fileBuffer pm paletteIndex (TilemapObject bo sink s0 garbage fileBuffer paletteIndex keepBuffer).state.sheets c) := by
  have hoff := frameOffset_eq hj hnw
  have hpc := pixelCount_eq hnw
  refine ⟨hoff, by simp only [frameSubmission, hoff], ?_, ?_, hpc, ?_, ?_,
    TilemapObject_provenance bo sink s0 garbage fileBuffer paletteIndex keepBuffer⟩
  · rw [hpc]
    exact Nat.mul_le_mul_right _ hj
  · intro hj1
    rw [frameOffset_eq hj1 hnw, hoff, Nat.succ_mul]
  · rw [hpc]
    exact frames_cover paletteMode paletteIndex sh inputData hnw sh.SpriteCount (Nat.le_refl _)
  · intro i ptr hp
    exact prepareInput_compressed_length hp

/-- C15 as amended, at frame 1 of the first sheet of `demoBuffer`. -/
theorem C15_frame_slices_witness :
    1 < (SpriteSheetHeader.mk 2 1 2 1 1 4).SpriteCount ∧
    (SpriteSheetHeader.mk 2 1 2 1 1 4).frameOffset 1 = 1 * (2 * 1) ∧
    (frameSubmission 3 5 (SpriteSheetHeader.mk 2 1 2 1 1 4) [0x10, 0x11, 0x12, 0x13] 1).pixels =
      ([(0x10 : Byte), 0x11, 0x12, 0x13].drop (1 * (2 * 1))).take (2 * 1) ∧
    (1 + 1) * (2 * 1) ≤ (SpriteSheetHeader.mk 2 1 2 1 1 4).pixelCount :=
  ⟨by decide,
    (C15_frame_slices .big countingSink 0 staleSprite demoBuffer 5 false 3
      (SpriteSheetHeader.mk 2 1 2 1 1 4) [0x10, 0x11, 0x12, 0x13] 1 (by decide)
      (by decide)).1,
    (C15_frame_slices .big countingSink 0 staleSprite demoBuffer 5 false 3
      (SpriteSheetHeader.mk 2 1 2 1 1 4) [0x10, 0x11, 0x12, 0x13] 1 (by decide)
      (by decide)).2.1,
    (C15_frame_slices .big countingSink 0 staleSprite demoBuffer 5 false 3
      (SpriteSheetHeader.mk 2 1 2 1 1 4) [0x10, 0x11, 0x12, 0x13] 1 (by decide)
      (by decide)).2.2.1⟩

/-- C16, counterexample: `rleBufferA` and `rleBufferB` have compression flag 1
and agree on the container header, the sheet header and the 2 payload bytes of
their only sheet; the runs of the payload sum to 1, below the pixel count 2, so
the decoder goes on to the pair behind the payload, and the pixels decoded and
submitted differ: `[0xAA, 0xBB]` against `[0xAA, 0xCC]`. -/
theorem C16_decoder_reads_past_payload :
    rleBufferA.take (10 + 12 + 2) = rleBufferB.take (10 + 12 + 2) ∧
    rd16 .big rleBufferA 4 = some 1 ∧ storedByteLength .big rleBufferA 10 = 2 ∧
    prepareInput rleBufferA 1 0 10 (SpriteSheetHeader.mk 2 1 1 1 1 2) = .ok [0xAA, 0xBB] ∧
    prepareInput rleBufferB 1 0 10 (SpriteSheetHeader.mk 2 1 1 1 1 2) = .ok [0xAA, 0xCC] ∧
    (TilemapObject .big countingSink 0 staleSprite rleBufferA 5 false).state.calls.map
      (fun c => c.submission.pixels) = [[0xAA, 0xBB]] ∧
    (TilemapObject .big countingSink 0 staleSprite rleBufferB 5 false).state.calls.map
      (fun c => c.submission.pixels) = [[0xAA, 0xCC]] := by
  have hdA : RLE_Decompress (List.drop (10 + sizeof_SpriteSheetHeader) rleBufferA)
      (SpriteSheetHeader.mk 2 1 1 1 1 2).pixelCount = .returned 4 [0xAA, 0xBB] :=
    loop_reaches [(1, 0xAA), (1, 0xBB)] [] [] [] 2 (by decide) (by decide)
  have hdB : RLE_Decompress (List.drop (10 + sizeof_SpriteSheetHeader) rleBufferB)
      (SpriteSheetHeader.mk 2 1 1 1 1 2).pixelCount = .returned 4 [0xAA, 0xCC] :=
    loop_reaches [(1, 0xAA), (1, 0xCC)] [] [] [] 2 (by decide) (by decide)
  have hpA : prepareInput rleBufferA 1 0 10 (SpriteSheetHeader.mk 2 1 1 1 1 2) =
      .ok [0xAA, 0xBB] := by
    unfold prepareInput
    simp only [if_true]
    rw [hdA]
    rfl
  have hpB : prepareInput rleBufferB 1 0 10 (SpriteSheetHeader.mk 2 1 1 1 1 2) =
      .ok [0xAA, 0xCC] := by
    unfold prepareInput
    simp only [if_true]
    rw [hdB]
    rfl
  refine ⟨by decide, by decide, by decide, hpA, hpB, ?_, ?_⟩
  · rw [TilemapObject_state .big countingSink 0 staleSprite rleBufferA 5 false
      (show rd16 .big rleBufferA 0 = some 1 by decide)
      (show rd16 .big rleBufferA 2 = some 0 by decide)]
    simp only [show List.range 1 = [0] from rfl, List.foldl_cons, List.foldl_nil]
    rw [sheetStep_frames .big countingSink rleBufferA 0 5 (loopStart 0 staleSprite 1) 0 rfl
      (show SpriteSheetHeader.read .big rleBufferA (loopStart 0 staleSprite 1).iterator =
        some (SpriteSheetHeader.mk 2 1 1 1 1 2) by decide)
      (show rd16 .big rleBufferA 4 = some 1 by decide) hpA]
    decide
  · rw [TilemapObject_state .big countingSink 0 staleSprite rleBufferB 5 false
      (show rd16 .big rleBufferB 0 = some 1 by decide)
      (show rd16 .big rleBufferB 2 = some 0 by decide)]
    simp only [show List.range 1 = [0] from rfl, List.foldl_cons, List.foldl_nil]
    rw [sheetStep_frames .big countingSink rleBufferB 0 5 (loopStart 0 staleSprite 1) 0 rfl
      (show SpriteSheetHeader.read .big rleBufferB (loopStart 0 staleSprite 1).iterator =
        some (SpriteSheetHeader.mk 2 1 1 1 1 2) by decide)
      (show rd16 .big rleBufferB 4 = some 1 by decide) hpB]
    decide

/-- C16 as amended: with compression the decoder's input for a sheet starts at
the byte behind the sheet header and is not bounded by the stored byte length:
the decoder consumes pairs until `pixelCount` bytes are out. When it returns
after `k` input bytes (`k` is twice the least number of leading pairs whose runs
sum to at least `pixelCount`), the pixel memory prepared for the sheet is the
same for every buffer that agrees on those `k` bytes behind the header; so when
`k` is at most the stored byte length, it is the same for any two buffers that
agree on the stored-byte-length bytes of the payload. -/
theorem C16_decoder_input_extent (fileBuffer : List Byte) (i ptr : Nat)
    (sh : SpriteSheetHeader) (k : Nat) (out : List Byte)
    (h : RLE_Decompress (fileBuffer.drop (ptr + 12)) sh.pixelCount = .returned k out) :
    (∃ m, k = 2 * m ∧ m ≤ (pairsOf (fileBuffer.drop (ptr + 12))).length ∧
      sh.pixelCount ≤ runSum ((pairsOf (fileBuffer.drop (ptr + 12))).take m) ∧
      ∀ m', m' < m → runSum ((pairsOf (fileBuffer.drop (ptr + 12))).take m') < sh.pixelCount) ∧
    (∀ fileBuffer' : List Byte,
      (fileBuffer'.drop (ptr + 12)).take k = (fileBuffer.drop (ptr + 12)).take k →
      prepareInput fileBuffer' 1 i ptr sh = prepareInput fileBuffer 1 i ptr sh) ∧
    (∀ (fileBuffer' : List Byte) (stored : Nat), k ≤ stored →
      (fileBuffer'.drop (ptr + 12)).take stored = (fileBuffer.drop (ptr + 12)).take stored →
      prepareInput fileBuffer' 1 i ptr sh = prepareInput fileBuffer 1 i ptr sh) := by
  have hlocal : ∀ fileBuffer' : List Byte,
      (fileBuffer'.drop (ptr + 12)).take k = (fileBuffer.drop (ptr + 12)).take k →
      prepareInput fileBuffer' 1 i ptr sh = prepareInput fileBuffer 1 i ptr sh := by
    intro fileBuffer' hsame
    have h' := decompress_local h hsame
    unfold prepareInput
    simp only [if_true, sizeof_SpriteSheetHeader]
    rw [h, h']
  refine ⟨?_, hlocal, ?_⟩
  · obtain ⟨m, hm, hk, ho, hn, hmin, _⟩ := decompress_returned h
    exact ⟨m, hk, hm, by rw [← length_expand, ← ho]; exact hn, hmin⟩
  · intro fileBuffer' stored hks hsame
    apply hlocal
    have := congrArg (List.take k) hsame
    rwa [List.take_take, List.take_take, Nat.min_eq_left hks] at this

/-- C16 as amended, on `rleBufferA`, whose decoder returns after 4 input bytes,
and the same buffer followed by two more bytes: the two agree on the 4 bytes
behind the sheet header, and the prepared pixels coincide. -/
theorem C16_decoder_input_extent_witness :
    RLE_Decompress (rleBufferA.drop (10 + 12)) (SpriteSheetHeader.mk 2 1 1 1 1 2).pixelCount =
      .returned 4 [0xAA, 0xBB] ∧
    prepareInput (rleBufferA ++ [7, 7]) 1 0 10 (SpriteSheetHeader.mk 2 1 1 1 1 2) =
      prepareInput rleBufferA 1 0 10 (SpriteSheetHeader.mk 2 1 1 1 1 2) :=
  have h : RLE_Decompress (rleBufferA.drop (10 + 12))
      (SpriteSheetHeader.mk 2 1 1 1 1 2).pixelCount = .returned 4 [0xAA, 0xBB] :=
    loop_reaches [(1, 0xAA), (1, 0xBB)] [] [] [] 2 (by decide) (by decide)
  ⟨h, (C16_decoder_input_extent rleBufferA 0 10 (SpriteSheetHeader.mk 2 1 1 1 1 2) 4
    [0xAA, 0xBB] h).2.1 (rleBufferA ++ [7, 7]) (by decide)⟩

end TMSF
